import Mathlib

/-!
# VEDA host runtime: contexts, streams and virtual device pointers

A shallow embedding of `Context.cpp` and `Stream.cpp` (namespace `veda`):
the per-context allocation table, the free-index cursor, the streams with
their pending call lists, and the life cycle `init` / `destroy`.

Conventions of the embedding
* every operation takes the context and returns an `Outcome`: the value or
  the fault it ended with, together with the context as the call left it (a
  C++ exception does not roll back what was done before the `throw`);
* the host-offload library (VEO) is a collaborator outside the program: what
  it answers is given by a `Transport`, what was asked of it is recorded in
  the `Veo` log carried by the context;
* sizes, addresses, indices and handles are natural numbers.
-/

namespace Veda

/-! ## Virtual pointer encoding -/

/-- Modelled from the spec: the header that defines the virtual pointer macros
is not part of the sources. A virtual pointer is a fixed-width integer made of
three bit fields, from the most significant: device id, allocation index, byte
offset. The widths of the fields are the parameters of the layout. -/
structure Layout where
  devBits : Nat
  idxBits : Nat
  offBits : Nat
deriving DecidableEq

/-- Modelled from the spec: `VEDA_CNT_IDX`, the size of the index space
(`2^N - 1` values); it doubles as the bit mask of the index field. -/
def VEDA_CNT_IDX (L : Layout) : Nat := 2 ^ L.idxBits - 1

/-- Modelled from the spec: `VEDA_SET_PTR(device, idx, offset)` packs the three
fields into one handle of `devBits + idxBits + offBits` bits. -/
def VEDA_SET_PTR (L : Layout) (device idx offset : Nat) : Nat :=
  ((device <<< (L.idxBits + L.offBits)) ||| (idx <<< L.offBits) ||| offset)
    % 2 ^ (L.devBits + L.idxBits + L.offBits)

/-- Modelled from the spec: `VEDA_GET_DEVICE(ptr)` reads the device field. -/
def VEDA_GET_DEVICE (L : Layout) (ptr : Nat) : Nat :=
  (ptr >>> (L.idxBits + L.offBits)) &&& (2 ^ L.devBits - 1)

/-- Modelled from the spec: `VEDA_GET_IDX(ptr)` reads the index field. -/
def VEDA_GET_IDX (L : Layout) (ptr : Nat) : Nat :=
  (ptr >>> L.offBits) &&& VEDA_CNT_IDX L

/-- Modelled from the spec: `VEDA_GET_OFFSET(ptr)` reads the offset field. -/
def VEDA_GET_OFFSET (L : Layout) (ptr : Nat) : Nat :=
  ptr &&& (2 ^ L.offBits - 1)

/-! ## Result codes and faults -/

/-- The `VEDAresult` statuses named by the context and stream code. The header
that declares the enum is not part of the sources; `code v` stands for a
status whose 32-bit value `v` is the value of none of the statuses named
here. -/
inductive VEDAresult where
  | VEDA_SUCCESS
  | VEDA_ERROR_CANNOT_CREATE_CONTEXT
  | VEDA_ERROR_CANNOT_CREATE_STREAM
  | VEDA_ERROR_CONTEXT_IS_DESTROYED
  | VEDA_ERROR_FUNCTION_NOT_FOUND
  | VEDA_ERROR_INVALID_DEVICE
  | VEDA_ERROR_INVALID_VALUE
  | VEDA_ERROR_MODULE_NOT_FOUND
  | VEDA_ERROR_OFFSET_NOT_ALLOWED
  | VEDA_ERROR_OFFSETTED_VPTR_NOT_ALLOWED
  | VEDA_ERROR_OUT_OF_BOUNDS
  | VEDA_ERROR_OUT_OF_MEMORY
  | VEDA_ERROR_UNKNOWN_KERNEL
  | VEDA_ERROR_UNKNOWN_PPTR
  | VEDA_ERROR_UNKNOWN_STREAM
  | VEDA_ERROR_UNKNOWN_VPTR
  | VEDA_ERROR_VEO_COMMAND_ERROR
  | VEDA_ERROR_VEO_COMMAND_EXCEPTION
  | VEDA_ERROR_VEO_COMMAND_UNFINISHED
  | VEDA_ERROR_VEO_COMMAND_UNKNOWN_ERROR
  | code (raw : Nat)
deriving DecidableEq

/-- The statuses other than `VEDA_SUCCESS` named by the context and stream
code. -/
def VEDAresult.errors : List VEDAresult :=
  [.VEDA_ERROR_CANNOT_CREATE_CONTEXT, .VEDA_ERROR_CANNOT_CREATE_STREAM,
   .VEDA_ERROR_CONTEXT_IS_DESTROYED, .VEDA_ERROR_FUNCTION_NOT_FOUND,
   .VEDA_ERROR_INVALID_DEVICE, .VEDA_ERROR_INVALID_VALUE, .VEDA_ERROR_MODULE_NOT_FOUND,
   .VEDA_ERROR_OFFSET_NOT_ALLOWED, .VEDA_ERROR_OFFSETTED_VPTR_NOT_ALLOWED,
   .VEDA_ERROR_OUT_OF_BOUNDS, .VEDA_ERROR_OUT_OF_MEMORY, .VEDA_ERROR_UNKNOWN_KERNEL,
   .VEDA_ERROR_UNKNOWN_PPTR, .VEDA_ERROR_UNKNOWN_STREAM, .VEDA_ERROR_UNKNOWN_VPTR,
   .VEDA_ERROR_VEO_COMMAND_ERROR, .VEDA_ERROR_VEO_COMMAND_EXCEPTION,
   .VEDA_ERROR_VEO_COMMAND_UNFINISHED, .VEDA_ERROR_VEO_COMMAND_UNKNOWN_ERROR]

/-- The cast `(VEDAresult)res` of a raw 64-bit call result in `Stream::sync`.
The enum is 4 bytes wide, so the cast keeps `res` modulo `2^32`; the value 0
is `VEDA_SUCCESS`, the value `value r` of a named status `r` is that status,
and any other value is kept as `code`. The numbering `value` of the named
statuses comes from the header of the enum, which is not part of the
sources. -/
def VEDAresult.ofRaw (value : VEDAresult → Nat) (res : Nat) : VEDAresult :=
  let v := res % 2 ^ 32
  if v = 0 then VEDAresult.VEDA_SUCCESS
  else
    match VEDAresult.errors.find? (fun r => decide (value r = v)) with
    | some r => r
    | none => VEDAresult.code v

/-- Ways an operation ends without a value.
* `thrown r`: `VEDA_THROW(r)` / `throw r`;
* `undefined`: the C++ has no defined behaviour here (a vector indexed past its
  end, a store through a pointer to a deleted record);
* `assertion`: an `ASSERT(...)` / `assert(...)` did not hold (the macro is not
  part of the sources);
* `stdException`: an exception of the C++ library that no VEDA handler catches;
* `diverged`: a loop has no exit;
* `message`: a `THROWIF(...)` fired: an exception that carries a text and no
  `VEDAresult` (the macro is not part of the sources). -/
inductive Fault where
  | thrown (r : VEDAresult)
  | undefined
  | assertion
  | stdException
  | diverged
  | message
deriving DecidableEq

/-- Value or fault of a call. -/
inductive Res (α : Type) where
  | ok (a : α)
  | fail (f : Fault)
deriving DecidableEq

/-! ## Transport (VEO) -/

/-- Completion status of a VEO request (`VEO_COMMAND_*`). -/
inductive VeoStatus where
  | VEO_COMMAND_OK
  | VEO_COMMAND_EXCEPTION
  | VEO_COMMAND_ERROR
  | VEO_COMMAND_UNFINISHED
  | other
deriving DecidableEq

/-- Mirror of `veda::VEOtoVEDA`. -/
def VEOtoVEDA : VeoStatus → VEDAresult
  | .VEO_COMMAND_OK => .VEDA_SUCCESS
  | .VEO_COMMAND_EXCEPTION => .VEDA_ERROR_VEO_COMMAND_EXCEPTION
  | .VEO_COMMAND_ERROR => .VEDA_ERROR_VEO_COMMAND_ERROR
  | .VEO_COMMAND_UNFINISHED => .VEDA_ERROR_VEO_COMMAND_UNFINISHED
  | .other => .VEDA_ERROR_VEO_COMMAND_UNKNOWN_ERROR

/-- The built-in device-side helpers, in the order of the `switch` of
`Context::kernelName(Kernel)`. -/
inductive Kernel where
  | VEDA_KERNEL_MEMCPY_D2D
  | VEDA_KERNEL_MEMSET_U128
  | VEDA_KERNEL_MEMSET_U128_2D
  | VEDA_KERNEL_MEMSET_U16
  | VEDA_KERNEL_MEMSET_U16_2D
  | VEDA_KERNEL_MEMSET_U32
  | VEDA_KERNEL_MEMSET_U32_2D
  | VEDA_KERNEL_MEMSET_U64
  | VEDA_KERNEL_MEMSET_U64_2D
  | VEDA_KERNEL_MEMSET_U8
  | VEDA_KERNEL_MEMSET_U8_2D
  | VEDA_KERNEL_RAW_MEMCPY_D2D
  | VEDA_KERNEL_RAW_MEMSET_U128
  | VEDA_KERNEL_RAW_MEMSET_U128_2D
  | VEDA_KERNEL_RAW_MEMSET_U16
  | VEDA_KERNEL_RAW_MEMSET_U16_2D
  | VEDA_KERNEL_RAW_MEMSET_U32
  | VEDA_KERNEL_RAW_MEMSET_U32_2D
  | VEDA_KERNEL_RAW_MEMSET_U64
  | VEDA_KERNEL_RAW_MEMSET_U64_2D
  | VEDA_KERNEL_RAW_MEMSET_U8
  | VEDA_KERNEL_RAW_MEMSET_U8_2D
  | VEDA_KERNEL_MEM_PTR
  | VEDA_KERNEL_MEM_ASSIGN
  | VEDA_KERNEL_MEM_REMOVE
  | VEDA_KERNEL_MEM_SIZE
  | VEDA_KERNEL_MEM_SWAP
deriving DecidableEq

/-- Modelled from the spec: the enum `Kernel` is declared in a header that is
not part of the sources; its values are taken to number the helpers from 0 in
the order of `kernelName`, `VEDA_KERNEL_CNT` being their count. -/
def Kernel.toNat : Kernel → Nat
  | .VEDA_KERNEL_MEMCPY_D2D => 0
  | .VEDA_KERNEL_MEMSET_U128 => 1
  | .VEDA_KERNEL_MEMSET_U128_2D => 2
  | .VEDA_KERNEL_MEMSET_U16 => 3
  | .VEDA_KERNEL_MEMSET_U16_2D => 4
  | .VEDA_KERNEL_MEMSET_U32 => 5
  | .VEDA_KERNEL_MEMSET_U32_2D => 6
  | .VEDA_KERNEL_MEMSET_U64 => 7
  | .VEDA_KERNEL_MEMSET_U64_2D => 8
  | .VEDA_KERNEL_MEMSET_U8 => 9
  | .VEDA_KERNEL_MEMSET_U8_2D => 10
  | .VEDA_KERNEL_RAW_MEMCPY_D2D => 11
  | .VEDA_KERNEL_RAW_MEMSET_U128 => 12
  | .VEDA_KERNEL_RAW_MEMSET_U128_2D => 13
  | .VEDA_KERNEL_RAW_MEMSET_U16 => 14
  | .VEDA_KERNEL_RAW_MEMSET_U16_2D => 15
  | .VEDA_KERNEL_RAW_MEMSET_U32 => 16
  | .VEDA_KERNEL_RAW_MEMSET_U32_2D => 17
  | .VEDA_KERNEL_RAW_MEMSET_U64 => 18
  | .VEDA_KERNEL_RAW_MEMSET_U64_2D => 19
  | .VEDA_KERNEL_RAW_MEMSET_U8 => 20
  | .VEDA_KERNEL_RAW_MEMSET_U8_2D => 21
  | .VEDA_KERNEL_MEM_PTR => 22
  | .VEDA_KERNEL_MEM_ASSIGN => 23
  | .VEDA_KERNEL_MEM_REMOVE => 24
  | .VEDA_KERNEL_MEM_SIZE => 25
  | .VEDA_KERNEL_MEM_SWAP => 26

/-- The helpers in enum order. -/
def Kernel.all : List Kernel :=
  [.VEDA_KERNEL_MEMCPY_D2D, .VEDA_KERNEL_MEMSET_U128, .VEDA_KERNEL_MEMSET_U128_2D,
   .VEDA_KERNEL_MEMSET_U16, .VEDA_KERNEL_MEMSET_U16_2D, .VEDA_KERNEL_MEMSET_U32,
   .VEDA_KERNEL_MEMSET_U32_2D, .VEDA_KERNEL_MEMSET_U64, .VEDA_KERNEL_MEMSET_U64_2D,
   .VEDA_KERNEL_MEMSET_U8, .VEDA_KERNEL_MEMSET_U8_2D, .VEDA_KERNEL_RAW_MEMCPY_D2D,
   .VEDA_KERNEL_RAW_MEMSET_U128, .VEDA_KERNEL_RAW_MEMSET_U128_2D,
   .VEDA_KERNEL_RAW_MEMSET_U16, .VEDA_KERNEL_RAW_MEMSET_U16_2D,
   .VEDA_KERNEL_RAW_MEMSET_U32, .VEDA_KERNEL_RAW_MEMSET_U32_2D,
   .VEDA_KERNEL_RAW_MEMSET_U64, .VEDA_KERNEL_RAW_MEMSET_U64_2D,
   .VEDA_KERNEL_RAW_MEMSET_U8, .VEDA_KERNEL_RAW_MEMSET_U8_2D, .VEDA_KERNEL_MEM_PTR,
   .VEDA_KERNEL_MEM_ASSIGN, .VEDA_KERNEL_MEM_REMOVE, .VEDA_KERNEL_MEM_SIZE,
   .VEDA_KERNEL_MEM_SWAP]

/-- Number of built-in helpers. -/
def VEDA_KERNEL_CNT : Nat := 27

/-- An asynchronous request handed to the transport. -/
inductive Call where
  | veo_alloc_mem_async (size : Nat)
  | veo_free_mem_async (addr : Nat)
  | veo_call_async (func : Nat) (args : List Nat)
  | veo_call_async_vh (func : Nat) (userData : Nat)
  | veo_async_read_mem (dst : Nat) (src : Nat) (bytes : Nat)
  | veo_async_write_mem (dst : Nat) (src : Nat) (bytes : Nat)
deriving DecidableEq

/-- Where `Stream::sync` stores a raw result: the `ptr` or the `size` member of
the allocation record that lives at heap address `rec`, or a location `addr`
given by the caller. -/
inductive Dest where
  | ptr (rec : Nat)
  | size (rec : Nat)
  | host (addr : Nat)
deriving DecidableEq

/-- What the transport answers. Requests are numbered by the transport; the
answer to a wait is a function of the request id. -/
structure Transport where
  /-- Result of `veo_proc_create(aveoId)`: process handle, 0 on failure. -/
  veo_proc_create : Int → Nat
  /-- Result of `veo_load_library(handle, name)`: library handle, 0 on failure. -/
  veo_load_library : Nat → String → Nat
  /-- Result of `veo_get_sym(handle, lib, name)`: function handle, 0 if absent. -/
  veo_get_sym : Nat → Nat → String → Nat
  /-- Result of `veo_context_open(handle)`, by number of the call: thread context, 0 on failure. -/
  veo_context_open : Nat → Nat → Nat
  /-- Result of `veo_proc_identifier(handle)`. -/
  veo_proc_identifier : Nat → Int
  /-- Result of `veo_proc_destroy(handle)`. -/
  veo_proc_destroy : Nat → VeoStatus
  /-- Return value of `veo_call_wait_result(ctx, id, &res)`. -/
  waitStatus : Nat → VeoStatus
  /-- Value stored in `res` by `veo_call_wait_result(ctx, id, &res)`. -/
  waitResult : Nat → Nat
  /-- Value of `veda::ompThreads()`: the global worker-count override, 0 if not set. -/
  ompThreads : Int
  /-- Value of `veda::stdLib()`: path of the standard helper module. -/
  stdLib : String
  /-- Numeric value of each status in the enum `VEDAresult`, as fixed by the
  header that the host code shares with the device-side helpers whose results
  the transport delivers; that header is not part of the sources. -/
  statusValue : VEDAresult → Nat

/-- Log of the traffic with the transport. -/
structure Veo where
  /-- Requests issued so far with the thread context they went to; the
  request id is the position in this list. -/
  issued : List (Nat × Call)
  /-- Request ids passed to `veo_call_wait_result`, oldest first. -/
  waited : List Nat
  /-- Results stored through a result destination, oldest first. -/
  stored : List (Dest × Nat)
deriving DecidableEq

/-! ## Allocation table -/

/-- Mirror of `VEDAdeviceptrInfo`: resolved device address (0 while unset) and
size in bytes. -/
structure VEDAdeviceptrInfo where
  ptr : Nat
  size : Nat
deriving DecidableEq

/-- A `VEDAdeviceptrInfo*` held by the table: the host heap address of the
record and the record it points to. -/
structure InfoRef where
  addr : Nat
  info : VEDAdeviceptrInfo
deriving DecidableEq

/-- Mirror of `Context::Ptrs`, a `std::map<VEDAidx, VEDAdeviceptrInfo*>` kept as
the list of its bindings in key order. -/
abbrev Ptrs := List (Nat × InfoRef)

/-- Lookup `m_ptrs.find(idx)`; `none` stands for `m_ptrs.end()`. -/
def Ptrs.find : Ptrs → Nat → Option InfoRef
  | [], _ => none
  | (k, v) :: m, idx => if k = idx then some v else Ptrs.find m idx

/-- Ordered insertion of a binding. -/
def Ptrs.insert (idx : Nat) (v : InfoRef) : Ptrs → Ptrs
  | [] => [(idx, v)]
  | (k, w) :: m => if idx ≤ k then (idx, v) :: (k, w) :: m else (k, w) :: Ptrs.insert idx v m

/-- Mirror of `m_ptrs.emplace(idx, v).first->second`: a present key keeps its
binding; the result is the map and the binding now under `idx`. -/
def Ptrs.emplace (m : Ptrs) (idx : Nat) (v : InfoRef) : Ptrs × InfoRef :=
  match Ptrs.find m idx with
  | some w => (m, w)
  | none => (Ptrs.insert idx v m, v)

/-- Mirror of `m_ptrs.erase(it)` for the iterator of key `idx`. -/
def Ptrs.erase (m : Ptrs) (idx : Nat) : Ptrs :=
  m.filter (fun e => e.1 != idx)

/-- Assignment `it->second = v` for the iterator of key `idx`. -/
def Ptrs.assign : Ptrs → Nat → InfoRef → Ptrs
  | [], _, _ => []
  | (k, w) :: m, idx, v => if k = idx then (k, v) :: m else (k, w) :: Ptrs.assign m idx v

/-- Address handed out by `new VEDAdeviceptrInfo(...)`: one that no record of
the table occupies. -/
def Ptrs.newAddr (m : Ptrs) : Nat :=
  (m.map (fun e => e.2.addr)).foldr max 0 + 1

/-- Whether a record of the table lives at heap address `a`. -/
def Ptrs.live (m : Ptrs) (a : Nat) : Bool :=
  m.any (fun e => e.2.addr == a)

/-- Apply `f` to the record at heap address `a`. -/
def Ptrs.update (m : Ptrs) (a : Nat) (f : VEDAdeviceptrInfo → VEDAdeviceptrInfo) : Ptrs :=
  m.map (fun e => if e.2.addr = a then (e.1, { e.2 with info := f e.2.info }) else e)

/-- The store `*result = res` of `Stream::sync`, seen from the table; `none`
when the destination is a member of a record that has been deleted. -/
def Ptrs.store (m : Ptrs) (d : Dest) (res : Nat) : Option Ptrs :=
  match d with
  | .host _ => some m
  | .ptr a => if Ptrs.live m a then some (Ptrs.update m a (fun i => { i with ptr := res })) else none
  | .size a => if Ptrs.live m a then some (Ptrs.update m a (fun i => { i with size := res })) else none

/-! ## Streams, device, context -/

/-- One element of `Stream::m_calls`: request id, `checkResult`, result
destination (`none` for a null pointer). -/
structure PendingCall where
  id : Nat
  checkResult : Bool
  result : Option Dest
deriving DecidableEq

/-- Mirror of `veda::Stream`: the VEO thread context and the pending calls. -/
structure Stream where
  m_ctx : Nat
  m_calls : List PendingCall
deriving DecidableEq

/-- The members of `veda::Device` the context reads. -/
structure Device where
  vedaId : Nat
  aveoId : Int
  cores : Int
  memorySize : Nat
deriving DecidableEq

/-- Mirror of `VEDAcontext_mode`, which the API receives as an `int`. -/
inductive VEDAcontext_mode where
  | VEDA_CONTEXT_MODE_OMP
  | VEDA_CONTEXT_MODE_SCALAR
  | invalid (value : Nat)
deriving DecidableEq

/-- Mirror of `veda::Context` (the mutexes left out), with the transport log. -/
structure Context where
  m_mode : VEDAcontext_mode
  m_modules : List Nat
  m_ptrs : Ptrs
  m_kernels : List Nat
  m_streams : List Stream
  m_device : Device
  m_handle : Nat
  m_aveoProcId : Int
  m_lib : Nat
  m_memidx : Nat
  m_memOverride : Nat
  veo : Veo
deriving DecidableEq

/-- Result of a call and the context as the call left it. -/
structure Outcome (α : Type) where
  res : Res α
  ctx : Context

/-- Constructor `Context::Context(Device&)`. -/
def Context.new (device : Device) : Context :=
  { m_mode := .VEDA_CONTEXT_MODE_OMP
    m_modules := []
    m_ptrs := []
    m_kernels := List.replicate VEDA_KERNEL_CNT 0
    m_streams := []
    m_device := device
    m_handle := 0
    m_aveoProcId := -1
    m_lib := 0
    m_memidx := 1
    m_memOverride := 0
    veo := { issued := [], waited := [], stored := [] } }

/-- Mirror of `Context::isActive`. -/
def Context.isActive (c : Context) : Bool := c.m_handle != 0

/-- Mirror of `Context::streamCount`. -/
def Context.streamCount (c : Context) : Int := c.m_streams.length

/-- Mirror of `Context::stream`: the position in `m_streams` of the stream it
returns. The guard accepts `stream == m_streams.size()`, for which the vector
access that follows is past the end. -/
def Context.stream (c : Context) (stream : Int) : Res Nat :=
  if 0 ≤ stream ∧ stream ≤ (c.m_streams.length : Int) then
    if stream.toNat < c.m_streams.length then .ok stream.toNat else .fail .undefined
  else .fail (.thrown .VEDA_ERROR_UNKNOWN_STREAM)

/-- Mirror of `Context::kernel`. -/
def Context.kernel (c : Context) (kernel : Kernel) : Res Nat :=
  if VEDA_KERNEL_CNT ≤ kernel.toNat then .fail (.thrown .VEDA_ERROR_UNKNOWN_KERNEL)
  else
    match c.m_kernels[kernel.toNat]? with
    | some f => .ok f
    | none => .fail .undefined

/-- Append a pending call to the stream at position `s`. -/
def appendCall (streams : List Stream) (s : Nat) (e : PendingCall) : List Stream :=
  match streams, s with
  | [], _ => []
  | st :: rest, 0 => { st with m_calls := st.m_calls ++ [e] } :: rest
  | st :: rest, n + 1 => st :: appendCall rest n e

/-- Modelled from the spec: the `Stream::enqueue` template is declared in a
header that is not part of the sources. It issues the call to the transport on
the stream's thread context and appends
`(request id, checkResult, result destination)` to the pending list. -/
def Context.enqueue (c : Context) (s : Nat) (call : Call) (checkResult : Bool)
    (result : Option Dest) : Context :=
  let ctx := match c.m_streams[s]? with
    | some st => st.m_ctx
    | none => 0
  { c with
    m_streams := appendCall c.m_streams s ⟨c.veo.issued.length, checkResult, result⟩
    veo := { c.veo with issued := c.veo.issued ++ [(ctx, call)] } }

/-- Mirror of `Context::incMemIdx` applied to the cursor value. -/
def incMemIdx (L : Layout) (m_memidx : Nat) : Nat :=
  if (m_memidx + 1) &&& VEDA_CNT_IDX L = 0 then 1 else (m_memidx + 1) &&& VEDA_CNT_IDX L

/-! ## Synchronisation -/

/-- The store `*result = res` with its entry in the log; `none` when the
destination is a member of a deleted record. -/
def Context.storeResult (c : Context) (d : Dest) (res : Nat) : Option Context :=
  match Ptrs.store c.m_ptrs d res with
  | some m => some { c with m_ptrs := m, veo := { c.veo with stored := c.veo.stored ++ [(d, res)] } }
  | none => none

/-- The loop of `Stream::sync` over the pending calls `calls`: wait
(`Stream::wait`, which throws through `TVEO` when the transport reports a
failed command), store the raw result if a destination is given, then, if
`checkResult` is set, cast the result to `VEDAresult` and throw that status
if it is not `VEDA_SUCCESS`. -/
def syncCalls (T : Transport) : List PendingCall → Context → Outcome Unit
  | [], c => ⟨.ok (), c⟩
  | e :: es, c =>
    let c1 := { c with veo := { c.veo with waited := c.veo.waited ++ [e.id] } }
    if T.waitStatus e.id ≠ .VEO_COMMAND_OK then
      ⟨.fail (.thrown (VEOtoVEDA (T.waitStatus e.id))), c1⟩
    else
      let res := T.waitResult e.id
      let stored := match e.result with
        | none => some c1
        | some d => c1.storeResult d res
      match stored with
      | none => ⟨.fail .undefined, c1⟩
      | some c2 =>
        if e.checkResult = true ∧ VEDAresult.ofRaw T.statusValue res ≠ .VEDA_SUCCESS then
          ⟨.fail (.thrown (VEDAresult.ofRaw T.statusValue res)), c2⟩
        else syncCalls T es c2

/-- Empty the pending list of the stream at position `s` (`m_calls.clear()`). -/
def clearCalls (streams : List Stream) (s : Nat) : List Stream :=
  match streams, s with
  | [], _ => []
  | st :: rest, 0 => { st with m_calls := [] } :: rest
  | st :: rest, n + 1 => st :: clearCalls rest n

/-- Mirror of `Stream::sync` on the stream at position `s`: the pending list is
cleared only when the loop ran to its end. -/
def Stream.sync (T : Transport) (c : Context) (s : Nat) : Outcome Unit :=
  match c.m_streams[s]? with
  | none => ⟨.fail .undefined, c⟩
  | some st =>
    let o := syncCalls T st.m_calls c
    match o.res with
    | .ok _ => ⟨.ok (), { o.ctx with m_streams := clearCalls o.ctx.m_streams s }⟩
    | .fail f => ⟨.fail f, o.ctx⟩

/-- Mirror of `Context::sync(VEDAstream)`. -/
def Context.syncStream (T : Transport) (c : Context) (stream : Int) : Outcome Unit :=
  match c.stream stream with
  | .fail f => ⟨.fail f, c⟩
  | .ok s => Stream.sync T c s

/-- The loop of `Context::sync(void)` over the stream numbers `is`. -/
def Context.syncLoop (T : Transport) : List Nat → Context → Outcome Unit
  | [], c => ⟨.ok (), c⟩
  | i :: is, c =>
    let o := c.syncStream T (i : Int)
    match o.res with
    | .ok _ => Context.syncLoop T is o.ctx
    | .fail f => ⟨.fail f, o.ctx⟩

/-- Mirror of `Context::sync(void)`: every stream in turn. -/
def Context.sync (T : Transport) (c : Context) : Outcome Unit :=
  Context.syncLoop T (List.range c.m_streams.length) c

/-- The loop of `Context::syncPtrs` over the bindings `m` of the table, `syn`
being the flag set so far. -/
def Context.syncPtrsLoop (L : Layout) : Ptrs → Context → Bool → Outcome Bool
  | [], c, syn => ⟨.ok syn, c⟩
  | (idx, r) :: m, c, syn =>
    if r.info.ptr = 0 then
      if r.info.size = 0 then
        let vptr := VEDA_SET_PTR L c.m_device.vedaId idx 0
        match c.stream 0 with
        | .fail f => ⟨.fail f, c⟩
        | .ok s =>
          match c.kernel .VEDA_KERNEL_MEM_PTR with
          | .fail f => ⟨.fail f, c⟩
          | .ok fptr =>
            let c1 := c.enqueue s (.veo_call_async fptr [vptr]) false (some (.ptr r.addr))
            match c1.kernel .VEDA_KERNEL_MEM_SIZE with
            | .fail f => ⟨.fail f, c1⟩
            | .ok fsize =>
              let c2 := c1.enqueue s (.veo_call_async fsize [vptr]) false (some (.size r.addr))
              Context.syncPtrsLoop L m c2 true
      else Context.syncPtrsLoop L m c true
    else Context.syncPtrsLoop L m c syn

/-- Mirror of `Context::syncPtrs`. -/
def Context.syncPtrs (L : Layout) (T : Transport) (c : Context) : Outcome Unit :=
  let o := Context.syncPtrsLoop L c.m_ptrs c false
  match o.res with
  | .fail f => ⟨.fail f, o.ctx⟩
  | .ok syn => if syn = true then o.ctx.sync T else ⟨.ok (), o.ctx⟩

/-! ## Allocation, swap, free -/

/-- The loop `while(m_ptrs.find(m_memidx) != m_ptrs.end()) incMemIdx();` run for
at most `fuel` tests: the cursor it stops at, `none` if every test found the
index in use. -/
def findFreeIdx (L : Layout) : Nat → Ptrs → Nat → Option Nat
  | 0, _, _ => none
  | fuel + 1, m, m_memidx =>
    match Ptrs.find m m_memidx with
    | none => some m_memidx
    | some _ => findFreeIdx L fuel m (incMemIdx L m_memidx)

/-- Mirror of `Context::memAlloc`. The search loop is given
`VEDA_CNT_IDX + 1` tests, after which the cursor has been on every index from
1 to `VEDA_CNT_IDX`: if none was free the loop of the source never ends. -/
def Context.memAlloc (L : Layout) (T : Transport) (c : Context) (size : Nat) (_stream : Int) :
    Outcome Nat :=
  let o := if c.m_memOverride ≠ 0 then c.syncPtrs L T else ⟨.ok (), c⟩
  match o.res with
  | .fail f => ⟨.fail f, o.ctx⟩
  | .ok _ =>
    let c := o.ctx
    if c.m_ptrs.length = VEDA_CNT_IDX L then ⟨.fail (.thrown .VEDA_ERROR_OUT_OF_MEMORY), c⟩
    else if c.m_memOverride ≠ 0 then
      let dev := VEDA_GET_DEVICE L c.m_memOverride
      if dev ≠ c.m_device.vedaId then ⟨.fail .assertion, c⟩
      else
        let idx := VEDA_GET_IDX L c.m_memOverride
        let c1 := { c with m_memOverride := 0 }
        match Ptrs.find c1.m_ptrs idx with
        | none => ⟨.fail (.thrown .VEDA_ERROR_UNKNOWN_VPTR), c1⟩
        | some info =>
          if info.info.size ≠ size then ⟨.fail (.thrown .VEDA_ERROR_INVALID_VALUE), c1⟩
          else if info.info.ptr = 0 then ⟨.fail (.thrown .VEDA_ERROR_UNKNOWN_PPTR), c1⟩
          else ⟨.ok (VEDA_SET_PTR L dev idx 0), c1⟩
    else
      match findFreeIdx L (VEDA_CNT_IDX L + 1) c.m_ptrs c.m_memidx with
      | none => ⟨.fail .diverged, c⟩
      | some idx =>
        let ins := Ptrs.emplace c.m_ptrs idx ⟨Ptrs.newAddr c.m_ptrs, ⟨0, size⟩⟩
        let info := ins.2
        let vptr := VEDA_SET_PTR L c.m_device.vedaId idx 0
        let c1 := { c with m_ptrs := ins.1, m_memidx := incMemIdx L idx }
        if size ≠ 0 then
          match c1.stream _stream with
          | .fail f => ⟨.fail f, c1⟩
          | .ok s =>
            let c2 := c1.enqueue s (.veo_alloc_mem_async size) false none
            match c2.kernel .VEDA_KERNEL_MEM_ASSIGN with
            | .fail f => ⟨.fail f, c2⟩
            | .ok assign =>
              ⟨.ok vptr, c2.enqueue s (.veo_call_async assign [vptr, size]) false
                (some (.ptr info.addr))⟩
        else ⟨.ok vptr, c1⟩

/-- Mirror of `Context::memSwap`. -/
def Context.memSwap (L : Layout) (c : Context) (A B : Nat) (_stream : Int) : Outcome Unit :=
  match Ptrs.find c.m_ptrs (VEDA_GET_IDX L A), Ptrs.find c.m_ptrs (VEDA_GET_IDX L B) with
  | some a, some b =>
    let c1 := { c with
      m_ptrs := Ptrs.assign (Ptrs.assign c.m_ptrs (VEDA_GET_IDX L A) b) (VEDA_GET_IDX L B) a }
    match c1.stream _stream with
    | .fail f => ⟨.fail f, c1⟩
    | .ok s =>
      match c1.kernel .VEDA_KERNEL_MEM_SWAP with
      | .fail f => ⟨.fail f, c1⟩
      | .ok swap => ⟨.ok (), c1.enqueue s (.veo_call_async swap [A, B]) true none⟩
  | _, _ => ⟨.fail (.thrown .VEDA_ERROR_UNKNOWN_VPTR), c⟩

/-- Mirror of `Context::memFree`. After the synchronisation the record is read
again through the iterator, which still designates the binding of the index. -/
def Context.memFree (L : Layout) (T : Transport) (c : Context) (vptr : Nat) (_stream : Int) :
    Outcome Unit :=
  if VEDA_GET_DEVICE L vptr ≠ c.m_device.vedaId then ⟨.fail .assertion, c⟩
  else if c.isActive = false then ⟨.ok (), c⟩
  else if VEDA_GET_OFFSET L vptr ≠ 0 then
    ⟨.fail (.thrown .VEDA_ERROR_OFFSETTED_VPTR_NOT_ALLOWED), c⟩
  else
    match Ptrs.find c.m_ptrs (VEDA_GET_IDX L vptr) with
    | none => ⟨.fail (.thrown .VEDA_ERROR_UNKNOWN_VPTR), c⟩
    | some info0 =>
      let o := if info0.info.ptr = 0 ∧ info0.info.size ≠ 0 then c.sync T else ⟨.ok (), c⟩
      match o.res with
      | .fail f => ⟨.fail f, o.ctx⟩
      | .ok _ =>
        let c1 := o.ctx
        match Ptrs.find c1.m_ptrs (VEDA_GET_IDX L vptr) with
        | none => ⟨.fail .undefined, c1⟩
        | some info =>
          let erased (c2 : Context) : Context :=
            { c2 with m_ptrs := Ptrs.erase c2.m_ptrs (VEDA_GET_IDX L vptr) }
          if info.info.size ≠ 0 then
            match c1.stream _stream with
            | .fail f => ⟨.fail f, c1⟩
            | .ok s =>
              match c1.kernel .VEDA_KERNEL_MEM_REMOVE with
              | .fail f => ⟨.fail f, c1⟩
              | .ok remove =>
                let c2 := c1.enqueue s (.veo_call_async remove [vptr]) true none
                ⟨.ok (), erased (c2.enqueue s (.veo_free_mem_async info.info.ptr) false none)⟩
          else ⟨.ok (), erased c1⟩

/-! ## Pointer resolution and host copies -/

/-- The value of an expression of type `size_t`: unsigned, 64 bits wide. -/
def size_t (n : Nat) : Nat := n % 2 ^ 64

/-- Mirror of `Context::getPtr`. After `syncPtrs` the record is read again
through `info`, which still points to the record bound to the index. Device
addresses are natural numbers here and `(char*)info->ptr + offset` is their
sum. -/
def Context.getPtr (L : Layout) (T : Transport) (c : Context) (vptr : Nat) :
    Outcome VEDAdeviceptrInfo :=
  if VEDA_GET_DEVICE L vptr ≠ c.m_device.vedaId then ⟨.fail .assertion, c⟩
  else
    match Ptrs.find c.m_ptrs (VEDA_GET_IDX L vptr) with
    | none => ⟨.fail (.thrown .VEDA_ERROR_UNKNOWN_VPTR), c⟩
    | some info0 =>
      let o := if info0.info.ptr = 0 then c.syncPtrs L T else ⟨.ok (), c⟩
      match o.res with
      | .fail f => ⟨.fail f, o.ctx⟩
      | .ok _ =>
        let c1 := o.ctx
        match Ptrs.find c1.m_ptrs (VEDA_GET_IDX L vptr) with
        | none => ⟨.fail .undefined, c1⟩
        | some info =>
          if info.info.ptr = 0 then ⟨.ok info.info, c1⟩
          else ⟨.ok ⟨info.info.ptr + VEDA_GET_OFFSET L vptr, info.info.size⟩, c1⟩

/-- Mirror of `Context::memcpyD2H`; `dst` is the host address, `bytes` the
`size_t` byte count. -/
def Context.memcpyD2H (L : Layout) (T : Transport) (c : Context) (dst src bytes : Nat)
    (_stream : Int) : Outcome Unit :=
  if dst = 0 ∨ src = 0 then ⟨.fail (.thrown .VEDA_ERROR_INVALID_VALUE), c⟩
  else
    let o := c.getPtr L T src
    match o.res with
    | .fail f => ⟨.fail f, o.ctx⟩
    | .ok info =>
      let c1 := o.ctx
      if info.ptr = 0 ∨ info.size = 0 then ⟨.fail .message, c1⟩
      else if size_t (bytes + VEDA_GET_OFFSET L src) > info.size then
        ⟨.fail (.thrown .VEDA_ERROR_OUT_OF_BOUNDS), c1⟩
      else
        match c1.stream _stream with
        | .fail f => ⟨.fail f, c1⟩
        | .ok s => ⟨.ok (), c1.enqueue s (.veo_async_read_mem dst info.ptr bytes) false none⟩

/-- Mirror of `Context::memcpyH2D`; `src` is the host address, `bytes` the
`size_t` byte count. -/
def Context.memcpyH2D (L : Layout) (T : Transport) (c : Context) (dst src bytes : Nat)
    (_stream : Int) : Outcome Unit :=
  if dst = 0 ∨ src = 0 then ⟨.fail (.thrown .VEDA_ERROR_INVALID_VALUE), c⟩
  else
    let o := c.getPtr L T dst
    match o.res with
    | .fail f => ⟨.fail f, o.ctx⟩
    | .ok res =>
      let c1 := o.ctx
      if res.ptr = 0 then ⟨.fail .assertion, c1⟩
      else if res.size = 0 then ⟨.fail .assertion, c1⟩
      else if ¬ size_t (bytes + VEDA_GET_OFFSET L dst) ≤ res.size then
        ⟨.fail (.thrown .VEDA_ERROR_OUT_OF_BOUNDS), c1⟩
      else
        match c1.stream _stream with
        | .fail f => ⟨.fail f, c1⟩
        | .ok s => ⟨.ok (), c1.enqueue s (.veo_async_write_mem res.ptr src bytes) false none⟩

/-! ## Override, usage and pitched allocation -/

/-- Mirror of `Context::setMemOverride`. -/
def Context.setMemOverride (L : Layout) (c : Context) (vptr : Nat) : Outcome Unit :=
  if vptr ≠ 0 then
    if VEDA_GET_OFFSET L vptr ≠ 0 then ⟨.fail (.thrown .VEDA_ERROR_OFFSET_NOT_ALLOWED), c⟩
    else if VEDA_GET_DEVICE L vptr ≠ c.m_device.vedaId then
      ⟨.fail (.thrown .VEDA_ERROR_INVALID_DEVICE), c⟩
    else ⟨.ok (), { c with m_memOverride := vptr }⟩
  else ⟨.ok (), { c with m_memOverride := vptr }⟩

/-- Mirror of `Context::memUsed`: after `syncPtrs` the sizes of the records are
added up in the `size_t` variable `used`. -/
def Context.memUsed (L : Layout) (T : Transport) (c : Context) : Outcome Nat :=
  let o := c.syncPtrs L T
  match o.res with
  | .fail f => ⟨.fail f, o.ctx⟩
  | .ok _ => ⟨.ok (o.ctx.m_ptrs.foldl (fun used e => size_t (used + e.2.info.size)) 0), o.ctx⟩

/-- Mirror of `vedaMemGetInfo` for the current context `c`: the pair
`(*free, *total)`, the difference being taken in `size_t`. How the current
context is found (`Contexts::current`) is not part of the sources. -/
def vedaMemGetInfo (L : Layout) (T : Transport) (c : Context) : Outcome (Nat × Nat) :=
  let total := c.m_device.memorySize
  let o := c.memUsed L T
  match o.res with
  | .fail f => ⟨.fail f, o.ctx⟩
  | .ok used => ⟨.ok (size_t (total + (2 ^ 64 - used)), total), o.ctx⟩

/-- Mirror of `Context::memAllocPitch`: the product `w_bytes * h` is a `size_t`;
`elementSize` is not used. -/
def Context.memAllocPitch (L : Layout) (T : Transport) (c : Context) (w_bytes h : Nat)
    (_elementSize : Nat) (stream : Int) : Outcome (Nat × Nat) :=
  let o := c.memAlloc L T (size_t (w_bytes * h)) stream
  match o.res with
  | .fail f => ⟨.fail f, o.ctx⟩
  | .ok vptr => ⟨.ok (vptr, w_bytes), o.ctx⟩

/-! ## Life cycle -/

/-- Mirror of `Context::kernelName(Kernel)`. -/
def Context.kernelName : Kernel → String
  | .VEDA_KERNEL_MEMCPY_D2D => "veda_memcpy_d2d"
  | .VEDA_KERNEL_MEMSET_U128 => "veda_memset_u128"
  | .VEDA_KERNEL_MEMSET_U128_2D => "veda_memset_u128_2d"
  | .VEDA_KERNEL_MEMSET_U16 => "veda_memset_u16"
  | .VEDA_KERNEL_MEMSET_U16_2D => "veda_memset_u16_2d"
  | .VEDA_KERNEL_MEMSET_U32 => "veda_memset_u32"
  | .VEDA_KERNEL_MEMSET_U32_2D => "veda_memset_u32_2d"
  | .VEDA_KERNEL_MEMSET_U64 => "veda_memset_u64"
  | .VEDA_KERNEL_MEMSET_U64_2D => "veda_memset_u64_2d"
  | .VEDA_KERNEL_MEMSET_U8 => "veda_memset_u8"
  | .VEDA_KERNEL_MEMSET_U8_2D => "veda_memset_u8_2d"
  | .VEDA_KERNEL_RAW_MEMCPY_D2D => "veda_raw_memcpy_d2d"
  | .VEDA_KERNEL_RAW_MEMSET_U128 => "veda_raw_memset_u128"
  | .VEDA_KERNEL_RAW_MEMSET_U128_2D => "veda_raw_memset_u128_2d"
  | .VEDA_KERNEL_RAW_MEMSET_U16 => "veda_raw_memset_u16"
  | .VEDA_KERNEL_RAW_MEMSET_U16_2D => "veda_raw_memset_u16_2d"
  | .VEDA_KERNEL_RAW_MEMSET_U32 => "veda_raw_memset_u32"
  | .VEDA_KERNEL_RAW_MEMSET_U32_2D => "veda_raw_memset_u32_2d"
  | .VEDA_KERNEL_RAW_MEMSET_U64 => "veda_raw_memset_u64"
  | .VEDA_KERNEL_RAW_MEMSET_U64_2D => "veda_raw_memset_u64_2d"
  | .VEDA_KERNEL_RAW_MEMSET_U8 => "veda_raw_memset_u8"
  | .VEDA_KERNEL_RAW_MEMSET_U8_2D => "veda_raw_memset_u8_2d"
  | .VEDA_KERNEL_MEM_PTR => "veda_mem_ptr"
  | .VEDA_KERNEL_MEM_ASSIGN => "veda_mem_assign"
  | .VEDA_KERNEL_MEM_REMOVE => "veda_mem_remove"
  | .VEDA_KERNEL_MEM_SIZE => "veda_mem_size"
  | .VEDA_KERNEL_MEM_SWAP => "veda_mem_swap"

/-- Mirror of `Context::moduleGetFunction(mod, name)` for a non-null `name`;
`lib` is `mod->lib()`, 0 for a null module. -/
def Context.moduleGetFunction (T : Transport) (c : Context) (lib : Nat) (name : String) :
    Res Nat :=
  if T.veo_get_sym c.m_handle lib name = 0 then .fail (.thrown .VEDA_ERROR_FUNCTION_NOT_FOUND)
  else .ok (T.veo_get_sym c.m_handle lib name)

/-- Mirror of `Context::moduleLoad(name)` for a non-null `name`; the module is
designated by its library handle, the key of `m_modules`. -/
def Context.moduleLoad (T : Transport) (c : Context) (name : String) : Outcome Nat :=
  if name = "" then ⟨.fail (.thrown .VEDA_ERROR_INVALID_VALUE), c⟩
  else if T.veo_load_library c.m_handle name = 0 then
    ⟨.fail (.thrown .VEDA_ERROR_MODULE_NOT_FOUND), c⟩
  else
    let lib := T.veo_load_library c.m_handle name
    ⟨.ok lib, { c with m_modules := if lib ∈ c.m_modules then c.m_modules else c.m_modules ++ [lib] }⟩

/-- The loop of `Context::init` that stores the helper handles:
`m_kernels[i] = moduleGetFunction(m_lib, kernelName((Kernel)i))`. -/
def Context.loadKernels (T : Transport) : List Kernel → Context → Outcome Unit
  | [], c => ⟨.ok (), c⟩
  | k :: ks, c =>
    match c.moduleGetFunction T c.m_lib (Context.kernelName k) with
    | .fail f => ⟨.fail f, c⟩
    | .ok func =>
      if k.toNat < c.m_kernels.length then
        Context.loadKernels T ks { c with m_kernels := c.m_kernels.set k.toNat func }
      else ⟨.fail .undefined, c⟩

/-- The loop of `Context::init` that opens `n` more streams:
`m_streams.emplace_back(veo_context_open(m_handle))`, the `Stream` constructor
refusing a null thread context. -/
def Context.openStreams (T : Transport) : Nat → Context → Outcome Unit
  | 0, c => ⟨.ok (), c⟩
  | n + 1, c =>
    let ctx := T.veo_context_open c.m_handle c.m_streams.length
    if ctx = 0 then ⟨.fail (.thrown .VEDA_ERROR_CANNOT_CREATE_STREAM), c⟩
    else Context.openStreams T n { c with m_streams := c.m_streams ++ [⟨ctx, []⟩] }

/-- Mirror of `Context::init`. The environment variable it sets and the
registration in the device registry are outside the context and left out. -/
def Context.init (T : Transport) (c : Context) (mode : VEDAcontext_mode) : Outcome Unit :=
  if c.isActive = true then ⟨.fail (.thrown .VEDA_ERROR_CANNOT_CREATE_CONTEXT), c⟩
  else
    let c1 := { c with m_mode := mode }
    let cores := if T.ompThreads ≠ 0 then min c1.m_device.cores T.ompThreads else c1.m_device.cores
    let numStreams : Option Int := match mode with
      | .VEDA_CONTEXT_MODE_OMP => some 1
      | .VEDA_CONTEXT_MODE_SCALAR => some cores
      | .invalid _ => none
    match numStreams with
    | none => ⟨.fail (.thrown .VEDA_ERROR_INVALID_VALUE), c1⟩
    | some numStreams =>
      if numStreams = 0 then ⟨.fail .assertion, c1⟩
      else
        let c2 := { c1 with m_handle := T.veo_proc_create c1.m_device.aveoId }
        if c2.m_handle = 0 then ⟨.fail (.thrown .VEDA_ERROR_CANNOT_CREATE_CONTEXT), c2⟩
        else
          let o3 := c2.moduleLoad T T.stdLib
          match o3.res with
          | .fail f => ⟨.fail f, o3.ctx⟩
          | .ok lib =>
            let o4 := Context.loadKernels T Kernel.all { o3.ctx with m_lib := lib }
            match o4.res with
            | .fail f => ⟨.fail f, o4.ctx⟩
            | .ok _ =>
              if numStreams < 0 then ⟨.fail .stdException, o4.ctx⟩
              else
                let o5 := Context.openStreams T numStreams.toNat o4.ctx
                match o5.res with
                | .fail f => ⟨.fail f, o5.ctx⟩
                | .ok _ =>
                  ⟨.ok (), { o5.ctx with m_aveoProcId := T.veo_proc_identifier o5.ctx.m_handle }⟩

/-- Mirror of `Context::destroy`. The leak report is output only and the device
registry is outside the context; both are left out. -/
def Context.destroy (L : Layout) (T : Transport) (c : Context) : Outcome Unit :=
  if c.isActive = false then ⟨.fail (.thrown .VEDA_ERROR_CONTEXT_IS_DESTROYED), c⟩
  else
    let o := c.syncPtrs L T
    match o.res with
    | .fail f => ⟨.fail f, o.ctx⟩
    | .ok _ =>
      let c1 := o.ctx
      let o2 : Outcome Unit :=
        if c1.m_handle ≠ 0 then
          if T.veo_proc_destroy c1.m_handle ≠ .VEO_COMMAND_OK then
            ⟨.fail (.thrown (VEOtoVEDA (T.veo_proc_destroy c1.m_handle))), c1⟩
          else ⟨.ok (), { c1 with m_handle := 0, m_aveoProcId := 0 }⟩
        else ⟨.ok (), c1⟩
      match o2.res with
      | .fail f => ⟨.fail f, o2.ctx⟩
      | .ok _ =>
        ⟨.ok (), { o2.ctx with
          m_streams := []
          m_modules := []
          m_kernels := []
          m_ptrs := []
          m_lib := 0
          m_mode := .VEDA_CONTEXT_MODE_OMP
          m_memidx := 0 }⟩

/-! ## Sequences of calls -/

/-- A call of the memory interface of a context. -/
inductive MemOp where
  | alloc (size : Nat) (stream : Int)
  | free (vptr : Nat) (stream : Int)
deriving DecidableEq

/-- Run a sequence of `memAlloc` / `memFree` calls, whatever their results.
The second component lists the pointers handed out by `memAlloc` whose record
has not been released by a successful `memFree` since. -/
def runMem (L : Layout) (T : Transport) : List MemOp → Context → List Nat → Context × List Nat
  | [], c, held => (c, held)
  | .alloc size stream :: ops, c, held =>
    let o := c.memAlloc L T size stream
    match o.res with
    | .ok vptr => runMem L T ops o.ctx (vptr :: held)
    | .fail _ => runMem L T ops o.ctx held
  | .free vptr stream :: ops, c, held =>
    let o := c.memFree L T vptr stream
    match o.res with
    | .ok _ =>
      runMem L T ops o.ctx (held.filter (fun p => VEDA_GET_IDX L p != VEDA_GET_IDX L vptr))
    | .fail _ => runMem L T ops o.ctx held

/-- A call of the context interface. -/
inductive Op where
  | init (mode : VEDAcontext_mode)
  | memAlloc (size : Nat) (stream : Int)
  | memFree (vptr : Nat) (stream : Int)
  | memSwap (A : Nat) (B : Nat) (stream : Int)
  | destroy
deriving DecidableEq

/-- One call: its result (the pointer for `memAlloc`) and the context after it. -/
def Context.step (L : Layout) (T : Transport) (c : Context) : Op → Outcome (Option Nat)
  | .init mode => let o := c.init T mode
    ⟨match o.res with | .ok _ => .ok none | .fail f => .fail f, o.ctx⟩
  | .memAlloc size stream => let o := c.memAlloc L T size stream
    ⟨match o.res with | .ok p => .ok (some p) | .fail f => .fail f, o.ctx⟩
  | .memFree vptr stream => let o := c.memFree L T vptr stream
    ⟨match o.res with | .ok _ => .ok none | .fail f => .fail f, o.ctx⟩
  | .memSwap A B stream => let o := c.memSwap L A B stream
    ⟨match o.res with | .ok _ => .ok none | .fail f => .fail f, o.ctx⟩
  | .destroy => let o := c.destroy L T
    ⟨match o.res with | .ok _ => .ok none | .fail f => .fail f, o.ctx⟩

/-- Run a sequence of calls. A thrown `VEDAresult` is caught by the caller and
the run goes on from the context as the call left it; any other fault ends the
run. The result is the final context with the results of the calls, oldest
first, or `none` when the run was ended by a fault. -/
def Context.run (L : Layout) (T : Transport) :
    List Op → Context → Option (Context × List (Res (Option Nat)))
  | [], c => some (c, [])
  | op :: ops, c =>
    let o := c.step L T op
    match o.res with
    | .fail (.thrown r) =>
      (Context.run L T ops o.ctx).map (fun p => (p.1, .fail (.thrown r) :: p.2))
    | .fail _ => none
    | .ok v => (Context.run L T ops o.ctx).map (fun p => (p.1, .ok v :: p.2))

/-! ## Auxiliary notions for the statements -/

/-- Effect on one record of the store of `res` through the destination `d`. -/
def InfoRef.store (r : InfoRef) (d : Option Dest) (res : Nat) : InfoRef :=
  match d with
  | some (.ptr a) => if r.addr = a then { r with info := { r.info with ptr := res } } else r
  | some (.size a) => if r.addr = a then { r with info := { r.info with size := res } } else r
  | _ => r

/-- Effect on one record of the stores made for the calls `calls`, in order. -/
def InfoRef.resolve (T : Transport) : List PendingCall → InfoRef → InfoRef
  | [], r => r
  | e :: es, r => InfoRef.resolve T es (r.store e.result (T.waitResult e.id))

/-- The pending calls of the streams, in the order `Context::sync` takes them. -/
def allCalls : List Stream → List PendingCall
  | [] => []
  | st :: rest => st.m_calls ++ allCalls rest

/-- The destination is not a member of a deleted record. -/
def Dest.liveIn (m : Ptrs) : Dest → Prop
  | .ptr a => Ptrs.live m a = true
  | .size a => Ptrs.live m a = true
  | .host _ => True

/-- The calls complete with the raw result 0 where it is checked: every wait
succeeds and every checked raw result is 0, which the cast makes
`VEDA_SUCCESS`. -/
def Transport.completes (T : Transport) (calls : List PendingCall) : Prop :=
  ∀ e ∈ calls, T.waitStatus e.id = .VEO_COMMAND_OK ∧ (e.checkResult = true → T.waitResult e.id = 0)

/-- The calls complete successfully: every wait succeeds and the raw result of
every checked call, cast to `VEDAresult`, is the status `VEDA_SUCCESS`. -/
def Transport.succeeds (T : Transport) (calls : List PendingCall) : Prop :=
  ∀ e ∈ calls, T.waitStatus e.id = .VEO_COMMAND_OK ∧
    (e.checkResult = true →
      VEDAresult.ofRaw T.statusValue (T.waitResult e.id) = .VEDA_SUCCESS)

/-- No result destination of the calls is a member of a deleted record. -/
def destsLive (m : Ptrs) (calls : List PendingCall) : Prop :=
  ∀ e ∈ calls, ∀ d, e.result = some d → d.liveIn m

/-- The log entries for the stores of the calls. -/
def storesOf (T : Transport) (calls : List PendingCall) : List (Dest × Nat) :=
  calls.filterMap (fun e => e.result.map (fun d => (d, T.waitResult e.id)))

/-- The streams with the pending lists emptied from position `i` on. -/
def clearFrom : Nat → List Stream → List Stream
  | _, [] => []
  | 0, st :: rest => { st with m_calls := [] } :: clearFrom 0 rest
  | i + 1, st :: rest => st :: clearFrom i rest

/-- The indices of the table with the heap address of the record under each. -/
def Ptrs.shape (m : Ptrs) : List (Nat × Nat) := m.map (fun b => (b.1, b.2.addr))

/-- What a synchronisation never touches: it only changes the contents of
records, empties pending lists and extends the log of waits and stores. -/
structure SyncFrame (c c' : Context) : Prop where
  m_mode : c'.m_mode = c.m_mode
  m_modules : c'.m_modules = c.m_modules
  m_kernels : c'.m_kernels = c.m_kernels
  m_device : c'.m_device = c.m_device
  m_handle : c'.m_handle = c.m_handle
  m_aveoProcId : c'.m_aveoProcId = c.m_aveoProcId
  m_lib : c'.m_lib = c.m_lib
  m_memidx : c'.m_memidx = c.m_memidx
  m_memOverride : c'.m_memOverride = c.m_memOverride
  shape : Ptrs.shape c'.m_ptrs = Ptrs.shape c.m_ptrs
  streams : c'.m_streams.map Stream.m_ctx = c.m_streams.map Stream.m_ctx
  issued : c'.veo.issued = c.veo.issued

/-- Invariant of a run of `memAlloc` / `memFree` calls: no override pending,
cursor and table size within the index space, and the pointers held have
pairwise different indices, each the key of a record of the table. -/
structure HeldInv (L : Layout) (c : Context) (held : List Nat) : Prop where
  m_memOverride : c.m_memOverride = 0
  m_memidx : c.m_memidx ≤ VEDA_CNT_IDX L
  length : c.m_ptrs.length ≤ VEDA_CNT_IDX L
  nodup : (held.map (VEDA_GET_IDX L)).Nodup
  present : ∀ p ∈ held, Ptrs.find c.m_ptrs (VEDA_GET_IDX L p) ≠ none

/-- What the memory operations never touch: the helper table, the process
handle, the device and the number of streams. -/
structure OpFrame (c c' : Context) : Prop where
  m_kernels : c'.m_kernels = c.m_kernels
  m_handle : c'.m_handle = c.m_handle
  m_device : c'.m_device = c.m_device
  streams : c'.m_streams.length = c.m_streams.length

/-- Invariant of the contexts reached from a new one by `init`, `memAlloc`,
`memFree`, `memSwap` and `destroy`: a context that is not active has no stream,
the helper table is either complete or (after `destroy`) empty and it is
complete whenever a stream exists, the cursor and the size of the table are
within the index space, and no override is pending. -/
structure Context.Inv (L : Layout) (c : Context) : Prop where
  inactive : c.isActive = false → c.m_streams = []
  kernels : c.m_kernels.length = VEDA_KERNEL_CNT ∨ c.m_kernels.length = 0
  loaded : c.m_streams ≠ [] → c.m_kernels.length = VEDA_KERNEL_CNT
  m_memidx : c.m_memidx ≤ VEDA_CNT_IDX L
  length : c.m_ptrs.length ≤ VEDA_CNT_IDX L
  m_memOverride : c.m_memOverride = 0

/-- The context a sequence of calls ends in (the starting context when the run
is ended by a fault). -/
def Context.after (L : Layout) (T : Transport) (ops : List Op) (c : Context) : Context :=
  match Context.run L T ops c with
  | some p => p.1
  | none => c

/-- A call as `syncPtrs` enqueues them for the table `m`: `checkResult` is not
set and the result goes to the `ptr` or the `size` member of a record of `m`
whose address and size are both 0. -/
def queryOf (m : Ptrs) (e : PendingCall) : Prop :=
  e.checkResult = false ∧ ∃ b ∈ m, b.2.info.ptr = 0 ∧ b.2.info.size = 0 ∧
    (e.result = some (.ptr b.2.addr) ∨ e.result = some (.size b.2.addr))

/-- The requests the lazy resolution is expected to issue for the table `m`, in
the order of the table: for each record whose address and size are both 0, a
call of the helper `fptr` and a call of the helper `fsize` with the pointer of
the record, both on the thread context `ctx`; nothing for the other records. -/
def queriesFor (L : Layout) (dev ctx fptr fsize : Nat) : Ptrs → List (Nat × Call)
  | [] => []
  | (idx, r) :: m =>
    (if r.info.ptr = 0 ∧ r.info.size = 0 then
      [(ctx, Call.veo_call_async fptr [VEDA_SET_PTR L dev idx 0]),
       (ctx, Call.veo_call_async fsize [VEDA_SET_PTR L dev idx 0])]
     else []) ++ queriesFor L dev ctx fptr fsize m

/-- Where a status thrown during a synchronisation comes from: the stream
lookup (`VEDA_ERROR_UNKNOWN_STREAM`), the helper lookup
(`VEDA_ERROR_UNKNOWN_KERNEL`), a wait that the transport reports as failed
(a status in the range of `VEOtoVEDA`), or the raw result of one of the calls
`calls` with `checkResult` set, cast to `VEDAresult`. -/
def thrownFrom (T : Transport) (calls : List PendingCall) (r : VEDAresult) : Prop :=
  r = .VEDA_ERROR_UNKNOWN_STREAM ∨ r = .VEDA_ERROR_UNKNOWN_KERNEL ∨
  (∃ v : VeoStatus, r = VEOtoVEDA v) ∨
  ∃ e ∈ calls, e.checkResult = true ∧
    VEDAresult.ofRaw T.statusValue (T.waitResult e.id) = r

/-! ## Concrete instances -/

namespace Example

/-- A layout with 2 device bits, 2 index bits (3 indices) and 4 offset bits. -/
def layout : Layout := ⟨2, 2, 4⟩

/-- A layout whose index space holds a single index. -/
def layout1 : Layout := ⟨2, 1, 4⟩

/-- A numbering of the statuses for the instances below: `VEDA_SUCCESS` is 0
and the named errors are numbered from 16 on, the values 1 to 15 being left to
statuses the context and stream code does not name. -/
def statusValue : VEDAresult → Nat
  | .VEDA_SUCCESS => 0
  | .VEDA_ERROR_CANNOT_CREATE_CONTEXT => 16
  | .VEDA_ERROR_CANNOT_CREATE_STREAM => 17
  | .VEDA_ERROR_CONTEXT_IS_DESTROYED => 18
  | .VEDA_ERROR_FUNCTION_NOT_FOUND => 19
  | .VEDA_ERROR_INVALID_DEVICE => 20
  | .VEDA_ERROR_INVALID_VALUE => 21
  | .VEDA_ERROR_MODULE_NOT_FOUND => 22
  | .VEDA_ERROR_OFFSET_NOT_ALLOWED => 23
  | .VEDA_ERROR_OFFSETTED_VPTR_NOT_ALLOWED => 24
  | .VEDA_ERROR_OUT_OF_BOUNDS => 25
  | .VEDA_ERROR_OUT_OF_MEMORY => 26
  | .VEDA_ERROR_UNKNOWN_KERNEL => 27
  | .VEDA_ERROR_UNKNOWN_PPTR => 28
  | .VEDA_ERROR_UNKNOWN_STREAM => 29
  | .VEDA_ERROR_UNKNOWN_VPTR => 30
  | .VEDA_ERROR_VEO_COMMAND_ERROR => 31
  | .VEDA_ERROR_VEO_COMMAND_EXCEPTION => 32
  | .VEDA_ERROR_VEO_COMMAND_UNFINISHED => 33
  | .VEDA_ERROR_VEO_COMMAND_UNKNOWN_ERROR => 34
  | .code v => v

/-- A transport on which every call succeeds; requests with an odd id (the
`veda_mem_assign` calls of the runs below) report a device address, the others
report 0, which is also the status `VEDA_SUCCESS`. -/
def transport : Transport :=
  { veo_proc_create := fun _ => 7
    veo_load_library := fun _ _ => 3
    veo_get_sym := fun _ _ _ => 5
    veo_context_open := fun _ n => 9 + n
    veo_proc_identifier := fun _ => 11
    veo_proc_destroy := fun _ => .VEO_COMMAND_OK
    waitStatus := fun _ => .VEO_COMMAND_OK
    waitResult := fun id => if id % 2 = 1 then 4096 + id else 0
    ompThreads := 0
    stdLib := "libveda.vso"
    statusValue := statusValue }

/-- Device 1 with two cores and 4096 bytes of memory. -/
def device : Device := ⟨1, 0, 2, 4096⟩

/-- An active context with two streams and an empty table. -/
def ctx : Context :=
  Context.after layout transport [.init .VEDA_CONTEXT_MODE_SCALAR] (Context.new device)

/-- An active context with two streams and one allocation of 8 bytes pending on
stream 1 (index 1, pointer 80). -/
def ctxPending : Context :=
  Context.after layout transport [.memAlloc 8 1] ctx

/-- An active context with two allocations, both still pending: 16 bytes at
index 1 (pointer 80) on stream 0, 8 bytes at index 2 (pointer 96) on stream 1. -/
def ctxTwo : Context :=
  Context.after layout transport [.memAlloc 16 0, .memAlloc 8 1] ctx

/-- An active context of the one-index layout whose table is full. -/
def ctxFull : Context :=
  Context.after layout1 transport [.init .VEDA_CONTEXT_MODE_OMP, .memAlloc 0 0]
    (Context.new device)

/-- A context that was initialised and destroyed. -/
def ctxDestroyed : Context :=
  Context.after layout transport [.init .VEDA_CONTEXT_MODE_OMP, .destroy] (Context.new device)

/-- An active context with two streams and one allocation of 16 bytes (index 1,
pointer 80) whose address has been resolved to 4097 by a synchronisation. -/
def ctxResolved : Context :=
  (Context.sync transport (Context.after layout transport [.memAlloc 16 0] ctx)).ctx

/-- Largest byte count a `size_t` holds. -/
def SIZE_MAX : Nat := 2 ^ 64 - 1

/-- An active context with two streams and calls pending on both. Stream 0
holds, in the order they were enqueued, requests 0 and 1 (the allocation of 16
bytes and its `veda_mem_assign`), request 4 (the `veda_mem_swap` of pointers 80
and 96, with `checkResult` set) and requests 5 and 6 (the allocation of 4 bytes
and its `veda_mem_assign`); stream 1 holds requests 2 and 3. -/
def ctxMixed : Context :=
  Context.after layout transport
    [.memAlloc 16 0, .memAlloc 8 1, .memSwap 80 96 0, .memAlloc 4 0] ctx

/-- The transport `transport`, except that the wait for request 5 is reported
as failed (`VEO_COMMAND_ERROR`). -/
def transportLost : Transport :=
  { transport with
    waitStatus := fun id => if id = 5 then .VEO_COMMAND_ERROR else .VEO_COMMAND_OK }

/-- The transport `transport`, except that request 4 completes with the raw
result 7, a status other than `VEDA_SUCCESS`. -/
def transportRejected : Transport :=
  { transport with waitResult := fun id => if id = 4 then 7 else transport.waitResult id }

/-- The transport `transport`, except that request 4 completes with the raw
result `2^32`, which the cast to the 4-byte `VEDAresult` makes
`VEDA_SUCCESS`. -/
def transportWide : Transport :=
  { transport with waitResult := fun id => if id = 4 then 2 ^ 32 else transport.waitResult id }

/-- The transport `transport`, except that request 4 completes with the raw
result `2^32 + 7`, which the cast to the 4-byte `VEDAresult` makes the
status 7. -/
def transportRejectedWide : Transport :=
  { transport with
    waitResult := fun id => if id = 4 then 2 ^ 32 + 7 else transport.waitResult id }

/-- The transport `transport`, except that request 4 completes with the value
of the status `VEDA_ERROR_CONTEXT_IS_DESTROYED`. -/
def transportDestroyed : Transport :=
  { transport with
    waitResult := fun id =>
      if id = 4 then statusValue .VEDA_ERROR_CONTEXT_IS_DESTROYED else transport.waitResult id }

/-- The transport `transport`, except that no process can be created. -/
def transportNoProc : Transport := { transport with veo_proc_create := fun _ => 0 }

/-- The transport `transport`, except that no library can be loaded. -/
def transportNoLib : Transport := { transport with veo_load_library := fun _ _ => 0 }

/-- The transport `transport`, except that the symbol `veda_mem_swap` is not
found. -/
def transportNoSym : Transport :=
  { transport with veo_get_sym := fun _ _ name => if name = "veda_mem_swap" then 0 else 5 }

/-- The transport `transport`, except that only one thread context can be
opened. -/
def transportOneStream : Transport :=
  { transport with veo_context_open := fun _ n => if n = 0 then 9 else 0 }

/-- The transport `transport` with the global worker count set to 1. -/
def transportOmp1 : Transport := { transport with ompThreads := 1 }

/-- The transport `transport`, except that every request completes with the
raw result 0: an allocation reports no address. -/
def transportNoMem : Transport := { transport with waitResult := fun _ => 0 }

/-- An active context with one record of 8192 bytes (index 1, pointer 80),
twice the memory of the device, still pending on stream 0. -/
def ctxBig : Context :=
  Context.after layout transport [.memAlloc 8192 0] ctx

/-- The context `ctxResolved` (record of index 1 resolved, 16 bytes) after a
second allocation, of 8 bytes on stream 1 (index 2, pointer 96), still
pending. -/
def ctxResolvedPending : Context :=
  Context.after layout transport [.memAlloc 8 1] ctxResolved

/-- The context `ctxResolvedPending` with pointer 80 as pending override. -/
def ctxOverride : Context :=
  (Context.setMemOverride layout ctxResolvedPending 80).ctx

/-- An active context of the one-index layout whose table is full, its one
record (index 1, pointer 48, 16 bytes) resolved. -/
def ctxFullResolved : Context :=
  (Context.sync transport (Context.after layout1 transport
    [.init .VEDA_CONTEXT_MODE_OMP, .memAlloc 16 0] (Context.new device))).ctx

/-- The context `ctxFullResolved` with pointer 48 as pending override. -/
def ctxFullOverride : Context :=
  (Context.setMemOverride layout1 ctxFullResolved 48).ctx

/-- An active context with two streams and two records without address: index
1 (pointer 80) of size 0, for which nothing was enqueued, and index 2 (pointer
96) of 8 bytes, whose allocation is pending on stream 1. -/
def ctxLazy : Context :=
  Context.after layout transport [.memAlloc 0 0, .memAlloc 8 1] ctx

end Example

/-! ## Lemmas: pointer encoding -/

theorem testBit_of_lt {x n j : Nat} (h : x < 2 ^ n) (hj : n ≤ j) : x.testBit j = false :=
  Nat.testBit_lt_two_pow (lt_of_lt_of_le h (Nat.pow_le_pow_right (by decide) hj))

theorem VEDA_SET_PTR_testBit (L : Layout) (d i o j : Nat) :
    (VEDA_SET_PTR L d i o).testBit j =
      (decide (j < L.devBits + L.idxBits + L.offBits) &&
        ((decide (L.idxBits + L.offBits ≤ j) && d.testBit (j - (L.idxBits + L.offBits))) ||
         (decide (L.offBits ≤ j) && i.testBit (j - L.offBits)) || o.testBit j)) := by
  simp [VEDA_SET_PTR, Nat.testBit_mod_two_pow, Nat.testBit_or, Nat.testBit_shiftLeft]

theorem get_idx_set_ptr (L : Layout) (d i o : Nat)
    (hi : i < 2 ^ L.idxBits) (ho : o < 2 ^ L.offBits) :
    VEDA_GET_IDX L (VEDA_SET_PTR L d i o) = i := by
  apply Nat.eq_of_testBit_eq
  intro j
  simp only [VEDA_GET_IDX, VEDA_CNT_IDX, Nat.testBit_and, Nat.testBit_shiftRight,
    Nat.testBit_two_pow_sub_one, VEDA_SET_PTR_testBit]
  by_cases hj : j < L.idxBits
  · have h1 : ¬ (L.idxBits + L.offBits ≤ L.offBits + j) := by omega
    have h2 : L.offBits + j < L.devBits + L.idxBits + L.offBits := by omega
    have h3 : o.testBit (L.offBits + j) = false := testBit_of_lt ho (by omega)
    simp [hj, h1, h2, h3]
  · have h3 : i.testBit j = false := testBit_of_lt hi (by omega)
    simp [hj, h3]

theorem get_offset_set_ptr (L : Layout) (d i o : Nat) (ho : o < 2 ^ L.offBits) :
    VEDA_GET_OFFSET L (VEDA_SET_PTR L d i o) = o := by
  apply Nat.eq_of_testBit_eq
  intro j
  simp only [VEDA_GET_OFFSET, Nat.testBit_and,
    Nat.testBit_two_pow_sub_one, VEDA_SET_PTR_testBit]
  by_cases hj : j < L.offBits
  · have h1 : ¬ (L.idxBits + L.offBits ≤ j) := by omega
    have h2 : j < L.devBits + L.idxBits + L.offBits := by omega
    have h3 : ¬ (L.offBits ≤ j) := by omega
    simp [hj, h1, h2, h3]
  · have h3 : o.testBit j = false := testBit_of_lt ho (by omega)
    simp [hj, h3]

theorem get_device_set_ptr (L : Layout) (d i o : Nat) (hd : d < 2 ^ L.devBits)
    (hi : i < 2 ^ L.idxBits) (ho : o < 2 ^ L.offBits) :
    VEDA_GET_DEVICE L (VEDA_SET_PTR L d i o) = d := by
  apply Nat.eq_of_testBit_eq
  intro j
  simp only [VEDA_GET_DEVICE, Nat.testBit_and, Nat.testBit_shiftRight,
    Nat.testBit_two_pow_sub_one, VEDA_SET_PTR_testBit]
  by_cases hj : j < L.devBits
  · have h2 : L.idxBits + L.offBits + j < L.devBits + L.idxBits + L.offBits := by omega
    have h3 : o.testBit (L.idxBits + L.offBits + j) = false := testBit_of_lt ho (by omega)
    have h4 : i.testBit (L.idxBits + L.offBits + j - L.offBits) = false :=
      testBit_of_lt hi (by omega)
    simp [hj, h2, h3, h4]
  · have h3 : d.testBit j = false := testBit_of_lt hd (by omega)
    simp [hj, h3]

theorem lt_two_pow_of_le_cnt (L : Layout) {i : Nat} (h : i ≤ VEDA_CNT_IDX L) :
    i < 2 ^ L.idxBits := by
  have : 0 < 2 ^ L.idxBits := Nat.pow_pos (by decide)
  unfold VEDA_CNT_IDX at h
  omega

/-! ## Lemmas: the allocation table -/

theorem Ptrs.find_insert_self (m : Ptrs) (i : Nat) (v : InfoRef) :
    Ptrs.find (Ptrs.insert i v m) i = some v := by
  induction m with
  | nil => simp [Ptrs.insert, Ptrs.find]
  | cons e m ih =>
    obtain ⟨k, w⟩ := e
    by_cases h : i ≤ k
    · simp [Ptrs.insert, Ptrs.find, h]
    · have hk : k ≠ i := by omega
      simp [Ptrs.insert, Ptrs.find, h, hk, ih]

theorem Ptrs.find_insert_ne (m : Ptrs) (i j : Nat) (v : InfoRef) (h : j ≠ i) :
    Ptrs.find (Ptrs.insert i v m) j = Ptrs.find m j := by
  induction m with
  | nil => simp [Ptrs.insert, Ptrs.find, Ne.symm h]
  | cons e m ih =>
    obtain ⟨k, w⟩ := e
    by_cases hik : i ≤ k
    · simp [Ptrs.insert, Ptrs.find, hik, Ne.symm h]
    · by_cases hkj : k = j
      · subst hkj
        simp [Ptrs.insert, Ptrs.find, hik]
      · simp [Ptrs.insert, Ptrs.find, hik, hkj, ih]

theorem Ptrs.length_insert (m : Ptrs) (i : Nat) (v : InfoRef) :
    (Ptrs.insert i v m).length = m.length + 1 := by
  induction m with
  | nil => simp [Ptrs.insert]
  | cons e m ih =>
    obtain ⟨k, w⟩ := e
    by_cases hik : i ≤ k
    · simp [Ptrs.insert, hik]
    · simp [Ptrs.insert, hik, ih]

theorem Ptrs.find_erase_self (m : Ptrs) (i : Nat) : Ptrs.find (Ptrs.erase m i) i = none := by
  induction m with
  | nil => simp [Ptrs.erase, Ptrs.find]
  | cons e m ih =>
    obtain ⟨k, w⟩ := e
    by_cases hk : k = i
    · have : Ptrs.erase ((k, w) :: m) i = Ptrs.erase m i := by simp [Ptrs.erase, hk]
      rw [this]; exact ih
    · have : Ptrs.erase ((k, w) :: m) i = (k, w) :: Ptrs.erase m i := by simp [Ptrs.erase, hk]
      rw [this]; simp [Ptrs.find, hk, ih]

theorem Ptrs.find_erase_ne (m : Ptrs) (i j : Nat) (h : j ≠ i) :
    Ptrs.find (Ptrs.erase m i) j = Ptrs.find m j := by
  induction m with
  | nil => simp [Ptrs.erase, Ptrs.find]
  | cons e m ih =>
    obtain ⟨k, w⟩ := e
    by_cases hk : k = i
    · have : Ptrs.erase ((k, w) :: m) i = Ptrs.erase m i := by simp [Ptrs.erase, hk]
      rw [this, ih]
      have hkj : k ≠ j := by omega
      simp [Ptrs.find, hkj]
    · have : Ptrs.erase ((k, w) :: m) i = (k, w) :: Ptrs.erase m i := by simp [Ptrs.erase, hk]
      rw [this]
      by_cases hkj : k = j
      · simp [Ptrs.find, hkj]
      · simp [Ptrs.find, hkj, ih]

theorem Ptrs.length_erase_le (m : Ptrs) (i : Nat) : (Ptrs.erase m i).length ≤ m.length := by
  unfold Ptrs.erase
  exact List.length_filter_le _ _

theorem Ptrs.find_assign_self (m : Ptrs) (i : Nat) (v : InfoRef) :
    Ptrs.find (Ptrs.assign m i v) i = (Ptrs.find m i).map (fun _ => v) := by
  induction m with
  | nil => simp [Ptrs.assign, Ptrs.find]
  | cons e m ih =>
    obtain ⟨k, w⟩ := e
    by_cases hk : k = i
    · simp [Ptrs.assign, Ptrs.find, hk]
    · simp [Ptrs.assign, Ptrs.find, hk, ih]

theorem Ptrs.find_assign_ne (m : Ptrs) (i j : Nat) (v : InfoRef) (h : j ≠ i) :
    Ptrs.find (Ptrs.assign m i v) j = Ptrs.find m j := by
  induction m with
  | nil => simp [Ptrs.assign, Ptrs.find]
  | cons e m ih =>
    obtain ⟨k, w⟩ := e
    by_cases hk : k = i
    · subst hk
      have hkj : ¬ k = j := fun h' => h h'.symm
      simp [Ptrs.assign, Ptrs.find, hkj]
    · by_cases hkj : k = j
      · subst hkj
        simp [Ptrs.assign, Ptrs.find, hk]
      · simp [Ptrs.assign, Ptrs.find, hk, hkj, ih]

theorem Ptrs.find_eq_none_iff (m : Ptrs) (i : Nat) :
    Ptrs.find m i = none ↔ i ∉ m.map Prod.fst := by
  induction m with
  | nil => simp [Ptrs.find]
  | cons e m ih =>
    obtain ⟨k, w⟩ := e
    by_cases hk : k = i
    · simp [Ptrs.find, hk]
    · have hik : ¬ i = k := fun h => hk h.symm
      simp [Ptrs.find, hk, hik, ih]

/-! ## Lemmas: the free-index cursor -/

theorem incMemIdx_eq (L : Layout) (x : Nat) :
    incMemIdx L x = if (x + 1) % 2 ^ L.idxBits = 0 then 1 else (x + 1) % 2 ^ L.idxBits := by
  simp [incMemIdx, VEDA_CNT_IDX, Nat.and_pow_two_sub_one_eq_mod]

theorem incMemIdx_range (L : Layout) (x : Nat) (hc : 1 ≤ VEDA_CNT_IDX L) :
    1 ≤ incMemIdx L x ∧ incMemIdx L x ≤ VEDA_CNT_IDX L := by
  have hpos : 0 < 2 ^ L.idxBits := Nat.pow_pos (by decide)
  have hlt : (x + 1) % 2 ^ L.idxBits < 2 ^ L.idxBits := Nat.mod_lt _ hpos
  rw [incMemIdx_eq]
  unfold VEDA_CNT_IDX at hc ⊢
  split <;> omega

theorem incMemIdx_step (L : Layout) (x : Nat) (h2 : x ≤ VEDA_CNT_IDX L) :
    incMemIdx L x = x % VEDA_CNT_IDX L + 1 := by
  have hpos : 0 < 2 ^ L.idxBits := Nat.pow_pos (by decide)
  rw [incMemIdx_eq]
  unfold VEDA_CNT_IDX at h2 ⊢
  by_cases hx : x = 2 ^ L.idxBits - 1
  · have e1 : x + 1 = 2 ^ L.idxBits := by omega
    rw [e1, Nat.mod_self, ← hx, Nat.mod_self]
    simp
  · have hlt : x + 1 < 2 ^ L.idxBits := by omega
    rw [Nat.mod_eq_of_lt hlt, Nat.mod_eq_of_lt (by omega : x < 2 ^ L.idxBits - 1)]
    simp

theorem incMemIdx_iterate (L : Layout) (x k : Nat) (h1 : 1 ≤ x) (h2 : x ≤ VEDA_CNT_IDX L) :
    (incMemIdx L)^[k] x = (x - 1 + k) % VEDA_CNT_IDX L + 1 := by
  have hc : 0 < VEDA_CNT_IDX L := by omega
  induction k with
  | zero =>
    by_cases hx : x = VEDA_CNT_IDX L
    · have e : x - 1 + 0 = VEDA_CNT_IDX L - 1 := by omega
      rw [Function.iterate_zero, id, e, Nat.mod_eq_of_lt (by omega)]
      omega
    · rw [Function.iterate_zero, id, Nat.mod_eq_of_lt (by omega)]
      omega
  | succ k ih =>
    rw [Function.iterate_succ_apply', ih]
    have hlt : (x - 1 + k) % VEDA_CNT_IDX L < VEDA_CNT_IDX L := Nat.mod_lt _ hc
    rw [incMemIdx_step L _ (by omega), Nat.mod_add_mod]
    rfl

theorem findFreeIdx_none (L : Layout) (m : Ptrs) :
    ∀ (fuel x : Nat), findFreeIdx L fuel m x = none →
      ∀ k, k < fuel → Ptrs.find m ((incMemIdx L)^[k] x) ≠ none := by
  intro fuel
  induction fuel with
  | zero => intro x _ k hk; omega
  | succ fuel ih =>
    intro x h k hk
    unfold findFreeIdx at h
    cases hf : Ptrs.find m x with
    | none => simp [hf] at h
    | some v =>
      simp only [hf] at h
      cases k with
      | zero => simp [hf]
      | succ k =>
        rw [Function.iterate_succ_apply]
        exact ih _ h k (by omega)

theorem findFreeIdx_some (L : Layout) (m : Ptrs) :
    ∀ (fuel x idx : Nat), findFreeIdx L fuel m x = some idx →
      Ptrs.find m idx = none ∧ (idx = x ∨ (1 ≤ VEDA_CNT_IDX L → 1 ≤ idx ∧ idx ≤ VEDA_CNT_IDX L)) := by
  intro fuel
  induction fuel with
  | zero => intro x idx h; simp [findFreeIdx] at h
  | succ fuel ih =>
    intro x idx h
    unfold findFreeIdx at h
    cases hf : Ptrs.find m x with
    | none =>
      simp only [hf, Option.some.injEq] at h
      subst h
      exact ⟨hf, Or.inl rfl⟩
    | some v =>
      simp only [hf] at h
      obtain ⟨h1, h2⟩ := ih _ _ h
      refine ⟨h1, Or.inr ?_⟩
      intro hc
      rcases h2 with h2 | h2
      · rw [h2]; exact incMemIdx_range L x hc
      · exact h2 hc

theorem length_ge_of_range_subset (m : Ptrs) (n : Nat)
    (h : ∀ t, 1 ≤ t → t ≤ n → Ptrs.find m t ≠ none) : n ≤ m.length := by
  have hsub : List.range' 1 n ⊆ m.map Prod.fst := by
    intro t ht
    rw [List.mem_range'_1] at ht
    have := h t ht.1 (by omega)
    rw [Ne, Ptrs.find_eq_none_iff] at this
    exact not_not.mp this
  have := (List.subperm_of_subset (List.nodup_range' 1 n) hsub).length_le
  simpa using this

theorem findFreeIdx_terminates (L : Layout) (m : Ptrs) (x : Nat)
    (hlen : m.length < VEDA_CNT_IDX L) :
    ∃ idx, findFreeIdx L (VEDA_CNT_IDX L + 1) m x = some idx := by
  cases hf : findFreeIdx L (VEDA_CNT_IDX L + 1) m x with
  | some idx => exact ⟨idx, rfl⟩
  | none =>
    exfalso
    have hc : 1 ≤ VEDA_CNT_IDX L := by omega
    have hall := findFreeIdx_none L m _ _ hf
    have hr := incMemIdx_range L x hc
    have hcover : ∀ t, 1 ≤ t → t ≤ VEDA_CNT_IDX L → Ptrs.find m t ≠ none := by
      intro t ht1 ht2
      let j := (t - 1 + VEDA_CNT_IDX L - (incMemIdx L x - 1)) % VEDA_CNT_IDX L
      have hj : j < VEDA_CNT_IDX L := Nat.mod_lt _ (by omega)
      have hk := hall (j + 1) (by omega)
      rw [Function.iterate_succ_apply, incMemIdx_iterate L _ j hr.1 hr.2] at hk
      have e : (incMemIdx L x - 1 + j) % VEDA_CNT_IDX L = t - 1 := by
        show (incMemIdx L x - 1 + (t - 1 + VEDA_CNT_IDX L - (incMemIdx L x - 1)) % VEDA_CNT_IDX L)
          % VEDA_CNT_IDX L = t - 1
        rw [Nat.add_mod_mod]
        have e2 : incMemIdx L x - 1 + (t - 1 + VEDA_CNT_IDX L - (incMemIdx L x - 1))
            = t - 1 + VEDA_CNT_IDX L := by omega
        rw [e2, Nat.add_mod_right, Nat.mod_eq_of_lt (by omega)]
      rw [e] at hk
      have e3 : t - 1 + 1 = t := by omega
      rwa [e3] at hk
    have := length_ge_of_range_subset m _ hcover
    omega

/-! ## Lemmas: streams and helper handles -/

theorem appendCall_length (ss : List Stream) (s : Nat) (e : PendingCall) :
    (appendCall ss s e).length = ss.length := by
  induction ss generalizing s with
  | nil => simp [appendCall]
  | cons st rest ih => cases s <;> simp [appendCall, ih]

theorem appendCall_getElem?_self (ss : List Stream) (s : Nat) (e : PendingCall) :
    (appendCall ss s e)[s]? = ss[s]?.map (fun st => { st with m_calls := st.m_calls ++ [e] }) := by
  induction ss generalizing s with
  | nil => simp [appendCall]
  | cons st rest ih => cases s <;> simp [appendCall, ih]

theorem appendCall_getElem?_ne (ss : List Stream) (s t : Nat) (e : PendingCall) (h : t ≠ s) :
    (appendCall ss s e)[t]? = ss[t]? := by
  induction ss generalizing s t with
  | nil => simp [appendCall]
  | cons st rest ih =>
    cases s with
    | zero =>
      cases t with
      | zero => exact absurd rfl h
      | succ t => simp [appendCall]
    | succ s =>
      cases t with
      | zero => simp [appendCall]
      | succ t => simp [appendCall, ih s t (by omega)]

theorem appendCall_getElem_self (ss : List Stream) (s : Nat) (e : PendingCall)
    (h : s < ss.length) (h2 : s < (appendCall ss s e).length) :
    (appendCall ss s e)[s] = { ss[s] with m_calls := ss[s].m_calls ++ [e] } := by
  have := appendCall_getElem?_self ss s e
  rw [List.getElem?_eq_getElem h2, List.getElem?_eq_getElem h] at this
  simpa using this

theorem Context.stream_ok (c : Context) (stream : Int)
    (h : 0 ≤ stream ∧ stream < (c.m_streams.length : Int)) :
    c.stream stream = .ok stream.toNat := by
  have h1 : stream.toNat < c.m_streams.length := by omega
  have h2 : 0 ≤ stream ∧ stream ≤ (c.m_streams.length : Int) := by omega
  simp [Context.stream, h1, h2]

theorem Context.kernel_ok (c : Context) (k : Kernel) (h : c.m_kernels.length = VEDA_KERNEL_CNT) :
    ∃ f, c.kernel k = .ok f := by
  have hk : k.toNat < VEDA_KERNEL_CNT := by cases k <;> decide
  have hk2 : k.toNat < c.m_kernels.length := by omega
  refine ⟨c.m_kernels[k.toNat], ?_⟩
  simp [Context.kernel, Nat.not_le.mpr hk, List.getElem?_eq_getElem hk2]

@[simp] theorem Context.enqueue_m_ptrs (c : Context) (s : Nat) (call : Call) (b : Bool)
    (d : Option Dest) : (c.enqueue s call b d).m_ptrs = c.m_ptrs := rfl

@[simp] theorem Context.enqueue_m_kernels (c : Context) (s : Nat) (call : Call) (b : Bool)
    (d : Option Dest) : (c.enqueue s call b d).m_kernels = c.m_kernels := rfl

@[simp] theorem Context.enqueue_m_memidx (c : Context) (s : Nat) (call : Call) (b : Bool)
    (d : Option Dest) : (c.enqueue s call b d).m_memidx = c.m_memidx := rfl

@[simp] theorem Context.enqueue_m_memOverride (c : Context) (s : Nat) (call : Call) (b : Bool)
    (d : Option Dest) : (c.enqueue s call b d).m_memOverride = c.m_memOverride := rfl

@[simp] theorem Context.enqueue_m_handle (c : Context) (s : Nat) (call : Call) (b : Bool)
    (d : Option Dest) : (c.enqueue s call b d).m_handle = c.m_handle := rfl

@[simp] theorem Context.enqueue_m_device (c : Context) (s : Nat) (call : Call) (b : Bool)
    (d : Option Dest) : (c.enqueue s call b d).m_device = c.m_device := rfl

theorem Context.kernel_congr (c c' : Context) (k : Kernel) (h : c'.m_kernels = c.m_kernels) :
    c'.kernel k = c.kernel k := by
  simp [Context.kernel, h]

/-! ## Lemmas: synchronisation -/

theorem InfoRef.store_addr (r : InfoRef) (d : Option Dest) (v : Nat) :
    (r.store d v).addr = r.addr := by
  unfold InfoRef.store
  split
  · split <;> rfl
  · split <;> rfl
  · rfl

theorem InfoRef.resolve_addr (T : Transport) (es : List PendingCall) (r : InfoRef) :
    (InfoRef.resolve T es r).addr = r.addr := by
  induction es generalizing r with
  | nil => rfl
  | cons e es ih => simp [InfoRef.resolve, ih, InfoRef.store_addr]

theorem InfoRef.resolve_append (T : Transport) (es fs : List PendingCall) (r : InfoRef) :
    InfoRef.resolve T (es ++ fs) r = InfoRef.resolve T fs (InfoRef.resolve T es r) := by
  induction es generalizing r with
  | nil => rfl
  | cons e es ih => simp [InfoRef.resolve, ih]

theorem Ptrs.find_map (m : Ptrs) (f : InfoRef → InfoRef) (j : Nat) :
    Ptrs.find (m.map (fun b => (b.1, f b.2))) j = (Ptrs.find m j).map f := by
  induction m with
  | nil => simp [Ptrs.find]
  | cons e m ih =>
    obtain ⟨k, w⟩ := e
    by_cases hk : k = j
    · simp [Ptrs.find, hk]
    · simp [Ptrs.find, hk, ih]

theorem Ptrs.live_map (m : Ptrs) (f : InfoRef → InfoRef) (hf : ∀ r, (f r).addr = r.addr)
    (a : Nat) : Ptrs.live (m.map (fun b => (b.1, f b.2))) a = Ptrs.live m a := by
  induction m with
  | nil => rfl
  | cons e m ih =>
    simp only [Ptrs.live, List.map_cons, List.any_cons, hf] at ih ⊢
    rw [ih]

theorem Ptrs.update_eq_map (m : Ptrs) (a : Nat) (f : VEDAdeviceptrInfo → VEDAdeviceptrInfo) :
    Ptrs.update m a f =
      m.map (fun b => (b.1, if b.2.addr = a then { b.2 with info := f b.2.info } else b.2)) := by
  unfold Ptrs.update
  apply List.map_congr_left
  intro b _
  split <;> rfl

theorem Ptrs.store_eq_map (m : Ptrs) (d : Dest) (v : Nat) (h : d.liveIn m) :
    Ptrs.store m d v = some (m.map (fun b => (b.1, b.2.store (some d) v))) := by
  cases d with
  | ptr a =>
    have h' : Ptrs.live m a = true := h
    simp only [Ptrs.store, h', if_true, Ptrs.update_eq_map, InfoRef.store]
  | size a =>
    have h' : Ptrs.live m a = true := h
    simp only [Ptrs.store, h', if_true, Ptrs.update_eq_map, InfoRef.store]
  | host a =>
    simp [Ptrs.store, InfoRef.store]

theorem Dest.liveIn_map (m : Ptrs) (f : InfoRef → InfoRef) (hf : ∀ r, (f r).addr = r.addr)
    (d : Dest) : d.liveIn (m.map (fun b => (b.1, f b.2))) ↔ d.liveIn m := by
  cases d <;> simp [Dest.liveIn, Ptrs.live_map m f hf]

theorem VEDAresult.ofRaw_zero (value : VEDAresult → Nat) :
    VEDAresult.ofRaw value 0 = .VEDA_SUCCESS := by
  simp [VEDAresult.ofRaw]

/-- The cast gives `VEDA_SUCCESS` exactly for the raw results that are 0
modulo `2^32`. -/
theorem VEDAresult.ofRaw_eq_success (value : VEDAresult → Nat) (res : Nat) :
    VEDAresult.ofRaw value res = .VEDA_SUCCESS ↔ res % 2 ^ 32 = 0 := by
  unfold VEDAresult.ofRaw
  simp only
  split
  · next h => exact ⟨fun _ => h, fun _ => rfl⟩
  · next h =>
    simp only [h, iff_false]
    split
    · next r hr =>
      have hmem := List.mem_of_find?_eq_some hr
      intro heq
      rw [heq] at hmem
      simp [VEDAresult.errors] at hmem
    · intro heq
      cases heq

theorem Transport.succeeds_of_completes (T : Transport) (es : List PendingCall)
    (h : T.completes es) : T.succeeds es :=
  fun e he => ⟨(h e he).1, fun hc => by rw [(h e he).2 hc]; exact VEDAresult.ofRaw_zero _⟩

/-- The loop of `Stream::sync` on calls that all succeed: it runs to its end,
having waited on each call and stored each result that has a destination. -/
theorem syncCalls_succeeds (T : Transport) (es : List PendingCall) (c : Context)
    (hT : T.succeeds es) (hl : destsLive c.m_ptrs es) :
    (syncCalls T es c).res = .ok () ∧
    (syncCalls T es c).ctx =
      { c with
        m_ptrs := c.m_ptrs.map (fun b => (b.1, InfoRef.resolve T es b.2))
        veo := { c.veo with
          waited := c.veo.waited ++ es.map PendingCall.id
          stored := c.veo.stored ++ storesOf T es } } := by
  induction es generalizing c with
  | nil => simp [syncCalls, InfoRef.resolve, storesOf]
  | cons e es ih =>
    have hTe := hT e (List.mem_cons_self _ _)
    have hT' : T.succeeds es := fun x hx => hT x (List.mem_cons_of_mem _ hx)
    have hck : ¬ (e.checkResult = true ∧
        VEDAresult.ofRaw T.statusValue (T.waitResult e.id) ≠ .VEDA_SUCCESS) := by
      rintro ⟨h1, h2⟩
      exact h2 (hTe.2 h1)
    cases hres : e.result with
    | none =>
      have hl' : destsLive c.m_ptrs es := fun x hx => hl x (List.mem_cons_of_mem _ hx)
      have := ih { c with veo := { c.veo with waited := c.veo.waited ++ [e.id] } } hT' hl'
      simp only [syncCalls, hTe.1, hres, ne_eq, not_true_eq_false, if_false, hck]
      refine ⟨this.1, ?_⟩
      rw [this.2]
      simp [InfoRef.resolve, InfoRef.store, hres, storesOf]
    | some d =>
      have hd : d.liveIn c.m_ptrs := hl e (List.mem_cons_self _ _) d hres
      have hl' : destsLive (c.m_ptrs.map (fun b => (b.1, b.2.store (some d) (T.waitResult e.id)))) es := by
        intro x hx d' hd'
        rw [Dest.liveIn_map _ _ (fun r => InfoRef.store_addr r _ _)]
        exact hl x (List.mem_cons_of_mem _ hx) d' hd'
      have := ih { c with
        m_ptrs := c.m_ptrs.map (fun b => (b.1, b.2.store (some d) (T.waitResult e.id)))
        veo := { c.veo with waited := c.veo.waited ++ [e.id],
                            stored := c.veo.stored ++ [(d, T.waitResult e.id)] } } hT' hl'
      simp only [syncCalls, hTe.1, hres, ne_eq, not_true_eq_false, if_false, hck,
        Context.storeResult, Ptrs.store_eq_map _ _ _ hd]
      refine ⟨this.1, ?_⟩
      rw [this.2]
      simp [InfoRef.resolve, hres, storesOf, List.map_map, Function.comp_def]

theorem syncCalls_ok (T : Transport) (es : List PendingCall) (c : Context)
    (hT : T.completes es) (hl : destsLive c.m_ptrs es) :
    (syncCalls T es c).res = .ok () ∧
    (syncCalls T es c).ctx =
      { c with
        m_ptrs := c.m_ptrs.map (fun b => (b.1, InfoRef.resolve T es b.2))
        veo := { c.veo with
          waited := c.veo.waited ++ es.map PendingCall.id
          stored := c.veo.stored ++ storesOf T es } } :=
  syncCalls_succeeds T es c (Transport.succeeds_of_completes T es hT) hl

theorem clearCalls_length (ss : List Stream) (s : Nat) : (clearCalls ss s).length = ss.length := by
  induction ss generalizing s with
  | nil => simp [clearCalls]
  | cons st rest ih => cases s <;> simp [clearCalls, ih]

theorem clearFrom_length (ss : List Stream) (i : Nat) : (clearFrom i ss).length = ss.length := by
  induction ss generalizing i with
  | nil => simp [clearFrom]
  | cons st rest ih => cases i <;> simp [clearFrom, ih]

theorem clearFrom_of_le (ss : List Stream) (i : Nat) (h : ss.length ≤ i) : clearFrom i ss = ss := by
  induction ss generalizing i with
  | nil => simp [clearFrom]
  | cons st rest ih =>
    cases i with
    | zero => simp at h
    | succ i => simp [clearFrom, ih i (by simpa using h)]

theorem clearFrom_clearCalls (ss : List Stream) (i : Nat) :
    clearFrom (i + 1) (clearCalls ss i) = clearFrom i ss := by
  induction ss generalizing i with
  | nil => simp [clearFrom, clearCalls]
  | cons st rest ih =>
    cases i with
    | zero =>
      simp only [clearCalls, clearFrom]
    | succ i => simp [clearFrom, clearCalls, ih]

theorem drop_clearCalls (ss : List Stream) (i : Nat) :
    (clearCalls ss i).drop (i + 1) = ss.drop (i + 1) := by
  induction ss generalizing i with
  | nil => simp [clearCalls]
  | cons st rest ih => cases i <;> simp [clearCalls, ih]

theorem allCalls_drop (ss : List Stream) (i : Nat) (h : i < ss.length) :
    allCalls (ss.drop i) = ss[i].m_calls ++ allCalls (ss.drop (i + 1)) := by
  rw [List.drop_eq_getElem_cons h]
  rfl

theorem Transport.completes_append (T : Transport) (es fs : List PendingCall) :
    T.completes (es ++ fs) ↔ T.completes es ∧ T.completes fs := by
  simp only [Transport.completes, List.mem_append]
  constructor
  · intro h
    exact ⟨fun e he => h e (Or.inl he), fun e he => h e (Or.inr he)⟩
  · rintro ⟨h1, h2⟩ e (he | he)
    · exact h1 e he
    · exact h2 e he

theorem destsLive_append (m : Ptrs) (es fs : List PendingCall) :
    destsLive m (es ++ fs) ↔ destsLive m es ∧ destsLive m fs := by
  simp only [destsLive, List.mem_append]
  constructor
  · intro h
    exact ⟨fun e he => h e (Or.inl he), fun e he => h e (Or.inr he)⟩
  · rintro ⟨h1, h2⟩ e (he | he)
    · exact h1 e he
    · exact h2 e he

theorem destsLive_map (m : Ptrs) (f : InfoRef → InfoRef) (hf : ∀ r, (f r).addr = r.addr)
    (es : List PendingCall) :
    destsLive (m.map (fun b => (b.1, f b.2))) es ↔ destsLive m es := by
  simp only [destsLive, Dest.liveIn_map m f hf]

theorem storesOf_append (T : Transport) (es fs : List PendingCall) :
    storesOf T (es ++ fs) = storesOf T es ++ storesOf T fs := by
  simp [storesOf]

theorem Ptrs.map_id_snd (m : Ptrs) : m.map (fun b => (b.1, b.2)) = m := by
  simp

theorem Stream.sync_stream_succeeds (T : Transport) (c : Context) (s : Nat) (st : Stream)
    (hst : c.m_streams[s]? = some st)
    (hT : T.succeeds st.m_calls) (hl : destsLive c.m_ptrs st.m_calls) :
    (Stream.sync T c s).res = .ok () ∧
    (Stream.sync T c s).ctx =
      { c with
        m_ptrs := c.m_ptrs.map (fun b => (b.1, InfoRef.resolve T st.m_calls b.2))
        m_streams := clearCalls c.m_streams s
        veo := { c.veo with
          waited := c.veo.waited ++ st.m_calls.map PendingCall.id
          stored := c.veo.stored ++ storesOf T st.m_calls } } := by
  obtain ⟨h1, h2⟩ := syncCalls_succeeds T st.m_calls c hT hl
  simp only [Stream.sync, hst, h1, h2]
  exact ⟨trivial, trivial⟩

theorem Stream.sync_stream_ok (T : Transport) (c : Context) (s : Nat) (st : Stream)
    (hst : c.m_streams[s]? = some st)
    (hT : T.completes st.m_calls) (hl : destsLive c.m_ptrs st.m_calls) :
    (Stream.sync T c s).res = .ok () ∧
    (Stream.sync T c s).ctx =
      { c with
        m_ptrs := c.m_ptrs.map (fun b => (b.1, InfoRef.resolve T st.m_calls b.2))
        m_streams := clearCalls c.m_streams s
        veo := { c.veo with
          waited := c.veo.waited ++ st.m_calls.map PendingCall.id
          stored := c.veo.stored ++ storesOf T st.m_calls } } :=
  Stream.sync_stream_succeeds T c s st hst (Transport.succeeds_of_completes T _ hT) hl

theorem Context.syncLoop_ok (T : Transport) :
    ∀ (k i : Nat) (c : Context), i + k = c.m_streams.length →
      T.completes (allCalls (c.m_streams.drop i)) →
      destsLive c.m_ptrs (allCalls (c.m_streams.drop i)) →
      (Context.syncLoop T (List.range' i k) c).res = .ok () ∧
      (Context.syncLoop T (List.range' i k) c).ctx =
        { c with
          m_ptrs := c.m_ptrs.map
            (fun b => (b.1, InfoRef.resolve T (allCalls (c.m_streams.drop i)) b.2))
          m_streams := clearFrom i c.m_streams
          veo := { c.veo with
            waited := c.veo.waited ++ (allCalls (c.m_streams.drop i)).map PendingCall.id
            stored := c.veo.stored ++ storesOf T (allCalls (c.m_streams.drop i)) } } := by
  intro k
  induction k with
  | zero =>
    intro i c hi _ _
    have hd : c.m_streams.drop i = [] := List.drop_eq_nil_of_le (by omega)
    simp [Context.syncLoop, hd, allCalls, InfoRef.resolve, storesOf,
      clearFrom_of_le c.m_streams i (by omega)]
  | succ k ih =>
    intro i c hi hT hl
    have hlt : i < c.m_streams.length := by omega
    have hst : c.m_streams[i]? = some c.m_streams[i] := List.getElem?_eq_getElem hlt
    rw [allCalls_drop _ _ hlt] at hT hl ⊢
    rw [Transport.completes_append] at hT
    rw [destsLive_append] at hl
    obtain ⟨h1, h2⟩ := Stream.sync_stream_ok T c i _ hst hT.1 hl.1
    have hstream : c.stream (i : Int) = .ok i := by
      have := Context.stream_ok c (i : Int) (by omega)
      simpa using this
    have hstep : c.syncStream T (i : Int) = Stream.sync T c i := by
      simp [Context.syncStream, hstream]
    have hl2 : destsLive (Stream.sync T c i).ctx.m_ptrs
        (allCalls ((Stream.sync T c i).ctx.m_streams.drop (i + 1))) := by
      rw [h2]
      simp only [drop_clearCalls]
      rw [destsLive_map _ _ (fun r => InfoRef.resolve_addr T _ r)]
      exact hl.2
    have hT2 : T.completes (allCalls ((Stream.sync T c i).ctx.m_streams.drop (i + 1))) := by
      rw [h2]
      simp only [drop_clearCalls]
      exact hT.2
    have hlen : i + 1 + k = (Stream.sync T c i).ctx.m_streams.length := by
      rw [h2]; simp only [clearCalls_length]; omega
    obtain ⟨h3, h4⟩ := ih (i + 1) _ hlen hT2 hl2
    simp only [List.range'_succ, Context.syncLoop, hstep, h1]
    refine ⟨h3, ?_⟩
    rw [h4, h2]
    simp [drop_clearCalls, clearFrom_clearCalls, List.map_map, Function.comp_def,
      InfoRef.resolve_append, storesOf_append]

theorem Context.sync_ok (T : Transport) (c : Context)
    (hT : T.completes (allCalls c.m_streams)) (hl : destsLive c.m_ptrs (allCalls c.m_streams)) :
    (c.sync T).res = .ok () ∧
    (c.sync T).ctx =
      { c with
        m_ptrs := c.m_ptrs.map (fun b => (b.1, InfoRef.resolve T (allCalls c.m_streams) b.2))
        m_streams := clearFrom 0 c.m_streams
        veo := { c.veo with
          waited := c.veo.waited ++ (allCalls c.m_streams).map PendingCall.id
          stored := c.veo.stored ++ storesOf T (allCalls c.m_streams) } } := by
  have := Context.syncLoop_ok T c.m_streams.length 0 c (by simp) (by simpa using hT)
    (by simpa using hl)
  simpa [Context.sync, List.range_eq_range'] using this

theorem SyncFrame.refl (c : Context) : SyncFrame c c :=
  ⟨rfl, rfl, rfl, rfl, rfl, rfl, rfl, rfl, rfl, rfl, rfl, rfl⟩

theorem SyncFrame.trans {c₁ c₂ c₃ : Context} (h₁ : SyncFrame c₁ c₂) (h₂ : SyncFrame c₂ c₃) :
    SyncFrame c₁ c₃ :=
  ⟨h₂.m_mode.trans h₁.m_mode, h₂.m_modules.trans h₁.m_modules, h₂.m_kernels.trans h₁.m_kernels,
   h₂.m_device.trans h₁.m_device, h₂.m_handle.trans h₁.m_handle,
   h₂.m_aveoProcId.trans h₁.m_aveoProcId, h₂.m_lib.trans h₁.m_lib,
   h₂.m_memidx.trans h₁.m_memidx, h₂.m_memOverride.trans h₁.m_memOverride,
   h₂.shape.trans h₁.shape, h₂.streams.trans h₁.streams, h₂.issued.trans h₁.issued⟩

theorem Ptrs.shape_update (m : Ptrs) (a : Nat) (f : VEDAdeviceptrInfo → VEDAdeviceptrInfo) :
    Ptrs.shape (Ptrs.update m a f) = Ptrs.shape m := by
  unfold Ptrs.shape Ptrs.update
  rw [List.map_map]
  apply List.map_congr_left
  intro b _
  simp only [Function.comp]
  split <;> rfl

theorem Ptrs.shape_store (m m' : Ptrs) (d : Dest) (v : Nat) (h : Ptrs.store m d v = some m') :
    Ptrs.shape m' = Ptrs.shape m := by
  cases d with
  | ptr a =>
    simp only [Ptrs.store] at h
    split at h
    · simp only [Option.some.injEq] at h; rw [← h, Ptrs.shape_update]
    · simp at h
  | size a =>
    simp only [Ptrs.store] at h
    split at h
    · simp only [Option.some.injEq] at h; rw [← h, Ptrs.shape_update]
    · simp at h
  | host a =>
    simp only [Ptrs.store, Option.some.injEq] at h
    rw [h]

theorem Context.storeResult_frame (c c' : Context) (d : Dest) (v : Nat)
    (h : c.storeResult d v = some c') : SyncFrame c c' ∧ c'.m_streams = c.m_streams := by
  unfold Context.storeResult at h
  cases hs : Ptrs.store c.m_ptrs d v with
  | none => simp [hs] at h
  | some m =>
    simp only [hs, Option.some.injEq] at h
    subst h
    exact ⟨⟨rfl, rfl, rfl, rfl, rfl, rfl, rfl, rfl, rfl, Ptrs.shape_store _ _ _ _ hs, rfl, rfl⟩, rfl⟩

theorem syncCalls_frame (T : Transport) (es : List PendingCall) (c : Context) :
    SyncFrame c (syncCalls T es c).ctx ∧ (syncCalls T es c).ctx.m_streams = c.m_streams := by
  induction es generalizing c with
  | nil => exact ⟨SyncFrame.refl c, rfl⟩
  | cons e es ih =>
    have hw : SyncFrame c { c with veo := { c.veo with waited := c.veo.waited ++ [e.id] } } :=
      ⟨rfl, rfl, rfl, rfl, rfl, rfl, rfl, rfl, rfl, rfl, rfl, rfl⟩
    unfold syncCalls
    simp only
    split
    · exact ⟨hw, rfl⟩
    · split
      · exact ⟨hw, rfl⟩
      · next c2 hc2 =>
        have hf : SyncFrame c c2 ∧ c2.m_streams = c.m_streams := by
          cases hr : e.result with
          | none =>
            simp only [hr, Option.some.injEq] at hc2
            subst hc2
            exact ⟨hw, rfl⟩
          | some d =>
            simp only [hr] at hc2
            have := Context.storeResult_frame _ _ _ _ hc2
            exact ⟨hw.trans this.1, this.2⟩
        split
        · exact hf
        · exact ⟨hf.1.trans (ih c2).1, (ih c2).2.trans hf.2⟩

theorem clearCalls_map_ctx (ss : List Stream) (s : Nat) :
    (clearCalls ss s).map Stream.m_ctx = ss.map Stream.m_ctx := by
  induction ss generalizing s with
  | nil => simp [clearCalls]
  | cons st rest ih => cases s <;> simp [clearCalls, ih]

theorem Stream.sync_stream_frame (T : Transport) (c : Context) (s : Nat) :
    SyncFrame c (Stream.sync T c s).ctx := by
  unfold Stream.sync
  split
  · exact SyncFrame.refl c
  · next st hst =>
    have hf := syncCalls_frame T st.m_calls c
    simp only
    split
    · refine hf.1.trans ⟨rfl, rfl, rfl, rfl, rfl, rfl, rfl, rfl, rfl, rfl, ?_, rfl⟩
      exact clearCalls_map_ctx _ _
    · exact hf.1

theorem Context.syncStream_frame (T : Transport) (c : Context) (stream : Int) :
    SyncFrame c (c.syncStream T stream).ctx := by
  unfold Context.syncStream
  split
  · exact SyncFrame.refl c
  · exact Stream.sync_stream_frame T c _

theorem Context.syncLoop_frame (T : Transport) (is : List Nat) (c : Context) :
    SyncFrame c (Context.syncLoop T is c).ctx := by
  induction is generalizing c with
  | nil => exact SyncFrame.refl c
  | cons i is ih =>
    unfold Context.syncLoop
    simp only
    split
    · exact (Context.syncStream_frame T c i).trans (ih _)
    · exact Context.syncStream_frame T c i

theorem Context.sync_frame (T : Transport) (c : Context) : SyncFrame c (c.sync T).ctx :=
  Context.syncLoop_frame T _ c

theorem Ptrs.find_addr_of_shape (m m' : Ptrs) (h : Ptrs.shape m' = Ptrs.shape m) (j : Nat) :
    (Ptrs.find m' j).map InfoRef.addr = (Ptrs.find m j).map InfoRef.addr := by
  induction m generalizing m' with
  | nil =>
    cases m' with
    | nil => rfl
    | cons e m' => simp [Ptrs.shape] at h
  | cons e m ih =>
    cases m' with
    | nil => simp [Ptrs.shape] at h
    | cons e' m' =>
      obtain ⟨k, w⟩ := e
      obtain ⟨k', w'⟩ := e'
      simp only [Ptrs.shape, List.map_cons, List.cons.injEq, Prod.mk.injEq] at h
      obtain ⟨⟨hk, hw⟩, ht⟩ := h
      subst hk
      by_cases hkj : k' = j
      · simp [Ptrs.find, hkj, hw]
      · simp [Ptrs.find, hkj, ih m' ht]

theorem Ptrs.find_none_of_shape (m m' : Ptrs) (h : Ptrs.shape m' = Ptrs.shape m) (j : Nat) :
    Ptrs.find m' j = none ↔ Ptrs.find m j = none := by
  have := Ptrs.find_addr_of_shape m m' h j
  cases h1 : Ptrs.find m' j <;> cases h2 : Ptrs.find m j <;> simp [h1, h2] at this ⊢

theorem Ptrs.length_of_shape (m m' : Ptrs) (h : Ptrs.shape m' = Ptrs.shape m) :
    m'.length = m.length := by
  have := congrArg List.length h
  simpa [Ptrs.shape] using this

/-! ## Lemmas: allocation and release, whatever their outcome -/

/-- What the normal path of `memAlloc` does, whatever the result: nothing
when it stops before the insertion; otherwise a record at a free index. -/
theorem Context.memAlloc_cases (L : Layout) (T : Transport) (c : Context) (size : Nat)
    (stream : Int) (hover : c.m_memOverride = 0) (hidx : c.m_memidx ≤ VEDA_CNT_IDX L)
    (hlen : c.m_ptrs.length ≤ VEDA_CNT_IDX L) :
    ((c.memAlloc L T size stream).ctx = c ∧ ∀ p, (c.memAlloc L T size stream).res ≠ .ok p) ∨
    ∃ idx, Ptrs.find c.m_ptrs idx = none ∧ idx ≤ VEDA_CNT_IDX L ∧
      (c.memAlloc L T size stream).ctx.m_ptrs
        = Ptrs.insert idx ⟨Ptrs.newAddr c.m_ptrs, ⟨0, size⟩⟩ c.m_ptrs ∧
      (c.memAlloc L T size stream).ctx.m_memidx = incMemIdx L idx ∧
      (c.memAlloc L T size stream).ctx.m_memOverride = 0 ∧
      c.m_ptrs.length < VEDA_CNT_IDX L ∧
      ∀ p, (c.memAlloc L T size stream).res = .ok p →
        p = VEDA_SET_PTR L c.m_device.vedaId idx 0 := by
  by_cases hfull : c.m_ptrs.length = VEDA_CNT_IDX L
  · left
    simp [Context.memAlloc, hover, hfull]
  · have hlt : c.m_ptrs.length < VEDA_CNT_IDX L := by omega
    obtain ⟨idx, hfind⟩ := findFreeIdx_terminates L c.m_ptrs c.m_memidx hlt
    obtain ⟨hfree, hrange⟩ := findFreeIdx_some L c.m_ptrs _ _ _ hfind
    have hle : idx ≤ VEDA_CNT_IDX L := by
      rcases hrange with h | h
      · omega
      · exact (h (by omega)).2
    right
    refine ⟨idx, hfree, hle, ?_⟩
    simp only [Context.memAlloc, hover, hfull, hfind, Ptrs.emplace, hfree, ne_eq,
      not_true_eq_false, if_false]
    split
    · split
      · simp [hover, hlt]
      · split
        · simp [hover, hlt]
        · simp [hover, hlt]
    · simp [hover, hlt]

/-- What `memFree` does to the table and the cursor, whatever the result. -/
theorem Context.memFree_cases (L : Layout) (T : Transport) (c : Context) (vptr : Nat)
    (stream : Int) :
    (c.memFree L T vptr stream).ctx.m_memOverride = c.m_memOverride ∧
    (c.memFree L T vptr stream).ctx.m_memidx = c.m_memidx ∧
    (c.memFree L T vptr stream).ctx.m_ptrs.length ≤ c.m_ptrs.length ∧
    ∀ j, (j ≠ VEDA_GET_IDX L vptr ∨ (c.memFree L T vptr stream).res ≠ .ok ()) →
      (Ptrs.find (c.memFree L T vptr stream).ctx.m_ptrs j = none ↔ Ptrs.find c.m_ptrs j = none) := by
  unfold Context.memFree
  split
  · simp
  · split
    · simp
    · split
      · simp
      · split
        · simp
        · next info0 hinfo0 =>
          have hframe : SyncFrame c
              (if info0.info.ptr = 0 ∧ info0.info.size ≠ 0 then c.sync T else ⟨.ok (), c⟩).ctx := by
            split
            · exact Context.sync_frame T c
            · exact SyncFrame.refl c
          generalize (if info0.info.ptr = 0 ∧ info0.info.size ≠ 0 then c.sync T
            else ⟨.ok (), c⟩) = o at hframe
          have hkeys := Ptrs.find_none_of_shape _ _ hframe.shape
          have hlen := Ptrs.length_of_shape _ _ hframe.shape
          have hbase : o.ctx.m_memOverride = c.m_memOverride ∧ o.ctx.m_memidx = c.m_memidx ∧
              o.ctx.m_ptrs.length ≤ c.m_ptrs.length ∧
              ∀ j, (Ptrs.find o.ctx.m_ptrs j = none ↔ Ptrs.find c.m_ptrs j = none) :=
            ⟨hframe.m_memOverride, hframe.m_memidx, by omega, hkeys⟩
          have herase : ∀ j, j ≠ VEDA_GET_IDX L vptr →
              (Ptrs.find (Ptrs.erase o.ctx.m_ptrs (VEDA_GET_IDX L vptr)) j = none ↔
                Ptrs.find c.m_ptrs j = none) := by
            intro j hj
            rw [Ptrs.find_erase_ne _ _ _ hj]
            exact hkeys j
          have hel : (Ptrs.erase o.ctx.m_ptrs (VEDA_GET_IDX L vptr)).length ≤ c.m_ptrs.length :=
            le_trans (Ptrs.length_erase_le _ _) (by omega)
          simp only
          split
          · exact ⟨hbase.1, hbase.2.1, hbase.2.2.1, fun j _ => hbase.2.2.2 j⟩
          · split
            · exact ⟨hbase.1, hbase.2.1, hbase.2.2.1, fun j _ => hbase.2.2.2 j⟩
            · split
              · split
                · exact ⟨hbase.1, hbase.2.1, hbase.2.2.1, fun j _ => hbase.2.2.2 j⟩
                · split
                  · exact ⟨hbase.1, hbase.2.1, hbase.2.2.1, fun j _ => hbase.2.2.2 j⟩
                  · refine ⟨hbase.1, hbase.2.1, hel, fun j hj => ?_⟩
                    rcases hj with hj | hj
                    · exact herase j hj
                    · exact absurd rfl hj
              · refine ⟨hbase.1, hbase.2.1, hel, fun j hj => ?_⟩
                rcases hj with hj | hj
                · exact herase j hj
                · exact absurd rfl hj

/-! ## Lemmas: an allocation followed by the synchronisation of all streams -/

theorem Ptrs.addr_le_foldr (m : Ptrs) :
    ∀ b ∈ m, b.2.addr ≤ (m.map (fun e => e.2.addr)).foldr max 0 := by
  induction m with
  | nil => intro b hb; simp at hb
  | cons e m ih =>
    intro b hb
    simp only [List.map_cons, List.foldr_cons]
    rcases List.mem_cons.mp hb with h | h
    · rw [h]; exact le_max_left _ _
    · exact le_trans (ih b h) (le_max_right _ _)

theorem Ptrs.live_iff (m : Ptrs) (a : Nat) : Ptrs.live m a = true ↔ ∃ b ∈ m, b.2.addr = a := by
  simp [Ptrs.live]

theorem Ptrs.newAddr_not_live (m : Ptrs) : ¬ Ptrs.live m (Ptrs.newAddr m) = true := by
  rw [Ptrs.live_iff]
  rintro ⟨b, hb, hba⟩
  have := Ptrs.addr_le_foldr m b hb
  unfold Ptrs.newAddr at hba
  omega

theorem Ptrs.mem_of_find (m : Ptrs) (j : Nat) (r : InfoRef) (h : Ptrs.find m j = some r) :
    (j, r) ∈ m := by
  induction m with
  | nil => simp [Ptrs.find] at h
  | cons e m ih =>
    obtain ⟨k, w⟩ := e
    by_cases hk : k = j
    · simp only [Ptrs.find, hk, if_true, Option.some.injEq] at h
      subst hk h
      exact List.mem_cons_self _ _
    · simp only [Ptrs.find, hk, if_false] at h
      exact List.mem_cons_of_mem _ (ih h)

theorem Ptrs.live_of_find (m : Ptrs) (j : Nat) (r : InfoRef) (h : Ptrs.find m j = some r) :
    Ptrs.live m r.addr = true :=
  (Ptrs.live_iff m r.addr).mpr ⟨(j, r), Ptrs.mem_of_find m j r h, rfl⟩

theorem Ptrs.mem_insert (m : Ptrs) (i : Nat) (v : InfoRef) (b : Nat × InfoRef) :
    b ∈ Ptrs.insert i v m ↔ b = (i, v) ∨ b ∈ m := by
  induction m with
  | nil => simp [Ptrs.insert]
  | cons e m ih =>
    obtain ⟨k, w⟩ := e
    by_cases hik : i ≤ k
    · simp [Ptrs.insert, hik]
    · simp only [Ptrs.insert, hik, if_false, List.mem_cons, ih]
      tauto

theorem Ptrs.live_insert (m : Ptrs) (i : Nat) (v : InfoRef) (a : Nat) :
    Ptrs.live (Ptrs.insert i v m) a = true ↔ v.addr = a ∨ Ptrs.live m a = true := by
  rw [Ptrs.live_iff, Ptrs.live_iff]
  constructor
  · rintro ⟨b, hb, hba⟩
    rcases (Ptrs.mem_insert m i v b).mp hb with h | h
    · left; rw [h] at hba; exact hba
    · right; exact ⟨b, h, hba⟩
  · rintro (h | ⟨b, hb, hba⟩)
    · exact ⟨(i, v), (Ptrs.mem_insert m i v _).mpr (Or.inl rfl), h⟩
    · exact ⟨b, (Ptrs.mem_insert m i v b).mpr (Or.inr hb), hba⟩

theorem Dest.liveIn_insert (m : Ptrs) (i : Nat) (v : InfoRef) (d : Dest) (h : d.liveIn m) :
    d.liveIn (Ptrs.insert i v m) := by
  cases d with
  | ptr a => exact (Ptrs.live_insert m i v a).mpr (Or.inr h)
  | size a => exact (Ptrs.live_insert m i v a).mpr (Or.inr h)
  | host a => trivial

theorem mem_allCalls_appendCall (ss : List Stream) (s : Nat) (e x : PendingCall)
    (h : x ∈ allCalls (appendCall ss s e)) : x ∈ allCalls ss ∨ x = e := by
  induction ss generalizing s with
  | nil => simp [appendCall, allCalls] at h
  | cons st rest ih =>
    cases s with
    | zero =>
      simp only [appendCall, allCalls, List.mem_append, List.mem_singleton] at h ⊢
      tauto
    | succ s =>
      simp only [appendCall, allCalls, List.mem_append] at h ⊢
      rcases h with h | h
      · exact Or.inl (Or.inl h)
      · rcases ih s h with h | h
        · exact Or.inl (Or.inr h)
        · exact Or.inr h

/-- The calls leave the record at address `a` alone. -/
theorem InfoRef.resolve_untargeted (T : Transport) (es : List PendingCall) (r : InfoRef)
    (h : ∀ e ∈ es, e.result ≠ some (.ptr r.addr) ∧ e.result ≠ some (.size r.addr)) :
    InfoRef.resolve T es r = r := by
  induction es with
  | nil => rfl
  | cons e es ih =>
    have he := h e (List.mem_cons_self _ _)
    have hstore : r.store e.result (T.waitResult e.id) = r := by
      unfold InfoRef.store
      split
      · next a hr =>
        have : r.addr ≠ a := fun h' => he.1 (by rw [hr, h'])
        simp [this]
      · next a hr =>
        have : r.addr ≠ a := fun h' => he.2 (by rw [hr, h'])
        simp [this]
      · rfl
    simp only [InfoRef.resolve, hstore]
    exact ih (fun x hx => h x (List.mem_cons_of_mem _ hx))

theorem InfoRef.resolve_allCalls_appendCall_other (T : Transport) (ss : List Stream) (s : Nat)
    (e : PendingCall) (a : Nat)
    (he : e.result ≠ some (.ptr a) ∧ e.result ≠ some (.size a)) :
    ∀ r : InfoRef, r.addr = a →
      InfoRef.resolve T (allCalls (appendCall ss s e)) r = InfoRef.resolve T (allCalls ss) r := by
  induction ss generalizing s with
  | nil => intro r _; simp [appendCall]
  | cons st rest ih =>
    intro r hr
    cases s with
    | zero =>
      simp only [appendCall, allCalls, InfoRef.resolve_append]
      congr 1
      have : (InfoRef.resolve T st.m_calls r).addr = a := by rw [InfoRef.resolve_addr, hr]
      exact InfoRef.resolve_untargeted T [e] _ (by
        intro x hx
        rw [List.mem_singleton] at hx
        rw [hx, this]; exact he)
    | succ s =>
      simp only [appendCall, allCalls, InfoRef.resolve_append]
      exact ih s _ (by rw [InfoRef.resolve_addr, hr])

theorem InfoRef.resolve_allCalls_appendCall_target (T : Transport) (ss : List Stream) (s : Nat)
    (e : PendingCall) (r : InfoRef) (hs : s < ss.length)
    (h : ∀ x ∈ allCalls ss, x.result ≠ some (.ptr r.addr) ∧ x.result ≠ some (.size r.addr)) :
    InfoRef.resolve T (allCalls (appendCall ss s e)) r = r.store e.result (T.waitResult e.id) := by
  induction ss generalizing s with
  | nil => simp at hs
  | cons st rest ih =>
    have h1 : ∀ x ∈ st.m_calls, x.result ≠ some (.ptr r.addr) ∧ x.result ≠ some (.size r.addr) :=
      fun x hx => h x (by simp [allCalls, hx])
    have h2 : ∀ x ∈ allCalls rest,
        x.result ≠ some (.ptr r.addr) ∧ x.result ≠ some (.size r.addr) :=
      fun x hx => h x (by simp [allCalls, hx])
    cases s with
    | zero =>
      simp only [appendCall, allCalls, InfoRef.resolve_append,
        InfoRef.resolve_untargeted T _ r h1, InfoRef.resolve]
      exact InfoRef.resolve_untargeted T _ _ (by
        rw [InfoRef.store_addr]; exact h2)
    | succ s =>
      simp only [appendCall, allCalls, InfoRef.resolve_append,
        InfoRef.resolve_untargeted T _ r h1]
      exact ih s (by simpa using hs) h2

theorem clearFrom_zero_appendCall (ss : List Stream) (s : Nat) (e : PendingCall) :
    clearFrom 0 (appendCall ss s e) = clearFrom 0 ss := by
  induction ss generalizing s with
  | nil => simp [appendCall]
  | cons st rest ih => cases s <;> simp [appendCall, clearFrom, ih]

theorem clearFrom_zero_getElem? (ss : List Stream) (i : Nat) :
    (clearFrom 0 ss)[i]? = ss[i]?.map (fun st => { st with m_calls := [] }) := by
  induction ss generalizing i with
  | nil => simp [clearFrom]
  | cons st rest ih => cases i <;> simp [clearFrom, ih]

theorem mem_allCalls_appendCall_self (ss : List Stream) (s : Nat) (e : PendingCall)
    (hs : s < ss.length) : e ∈ allCalls (appendCall ss s e) := by
  induction ss generalizing s with
  | nil => simp at hs
  | cons st rest ih =>
    cases s with
    | zero => simp [appendCall, allCalls]
    | succ s =>
      simp only [appendCall, allCalls, List.mem_append]
      exact Or.inr (ih s (by simpa using hs))

/-- What a successful `memFree` on an active context went through. -/
theorem Context.memFree_ok_cases (L : Layout) (T : Transport) (c : Context) (vptr : Nat)
    (stream : Int) (hactive : c.isActive = true)
    (hok : (c.memFree L T vptr stream).res = .ok ()) :
    VEDA_GET_DEVICE L vptr = c.m_device.vedaId ∧ VEDA_GET_OFFSET L vptr = 0 ∧
    ∃ info0, Ptrs.find c.m_ptrs (VEDA_GET_IDX L vptr) = some info0 ∧
      ((info0.info.ptr = 0 ∧ info0.info.size ≠ 0) → (c.sync T).res = .ok ()) ∧
      (c.memFree L T vptr stream).ctx.m_ptrs =
        Ptrs.erase (if info0.info.ptr = 0 ∧ info0.info.size ≠ 0 then (c.sync T).ctx else c).m_ptrs
          (VEDA_GET_IDX L vptr) ∧
      (c.memFree L T vptr stream).ctx.m_handle = c.m_handle ∧
      (c.memFree L T vptr stream).ctx.m_device = c.m_device := by
  by_cases hdev : VEDA_GET_DEVICE L vptr = c.m_device.vedaId
  swap
  · simp [Context.memFree, hdev] at hok
  by_cases hoff : VEDA_GET_OFFSET L vptr = 0
  swap
  · simp [Context.memFree, hdev, hactive, hoff] at hok
  cases hfind : Ptrs.find c.m_ptrs (VEDA_GET_IDX L vptr) with
  | none => simp [Context.memFree, hdev, hactive, hoff, hfind] at hok
  | some info0 =>
    refine ⟨hdev, hoff, info0, rfl, ?_⟩
    have hframe : SyncFrame c (c.sync T).ctx := Context.sync_frame T c
    by_cases hneed : info0.info.ptr = 0 ∧ info0.info.size ≠ 0
    · have hn1 := hneed.1
      have hn2 := hneed.2
      cases hsync : (c.sync T).res with
      | fail f => simp [Context.memFree, hdev, hactive, hoff, hfind, hn1, hn2, hsync] at hok
      | ok u =>
        cases hfind1 : Ptrs.find (c.sync T).ctx.m_ptrs (VEDA_GET_IDX L vptr) with
        | none =>
          simp [Context.memFree, hdev, hactive, hoff, hfind, hn1, hn2, hsync, hfind1] at hok
        | some info =>
          by_cases hsz : info.info.size = 0
          · simp [Context.memFree, hdev, hactive, hoff, hfind, hn1, hn2, hsync, hfind1, hsz,
              hframe.m_handle, hframe.m_device]
          · cases hstream : (c.sync T).ctx.stream stream with
            | fail f =>
              simp [Context.memFree, hdev, hactive, hoff, hfind, hn1, hn2, hsync, hfind1, hsz,
                hstream] at hok
            | ok s =>
              cases hkern : (c.sync T).ctx.kernel .VEDA_KERNEL_MEM_REMOVE with
              | fail f =>
                simp [Context.memFree, hdev, hactive, hoff, hfind, hn1, hn2, hsync, hfind1, hsz,
                  hstream, hkern] at hok
              | ok remove =>
                simp [Context.memFree, hdev, hactive, hoff, hfind, hn1, hn2, hsync, hfind1, hsz,
                  hstream, hkern, hframe.m_handle, hframe.m_device]
    · by_cases hsz : info0.info.size = 0
      · simp [Context.memFree, hdev, hactive, hoff, hfind, hneed, hsz]
      · have hp : ¬ info0.info.ptr = 0 := fun h => hneed ⟨h, hsz⟩
        cases hstream : c.stream stream with
        | fail f =>
          simp [Context.memFree, hdev, hactive, hoff, hfind, hp, hsz, hstream] at hok
        | ok s =>
          cases hkern : c.kernel .VEDA_KERNEL_MEM_REMOVE with
          | fail f =>
            simp [Context.memFree, hdev, hactive, hoff, hfind, hp, hsz, hstream, hkern] at hok
          | ok remove =>
            simp [Context.memFree, hdev, hactive, hoff, hfind, hp, hsz, hstream, hkern]

/-- The outcome of `memAlloc` of a non-zero size on its normal path. -/
theorem Context.memAlloc_pos_eq (L : Layout) (T : Transport) (c : Context) (size : Nat)
    (stream : Int) (hover : c.m_memOverride = 0) (hcnt : c.m_ptrs.length < VEDA_CNT_IDX L)
    (hidx : c.m_memidx ≤ VEDA_CNT_IDX L)
    (hstream : 0 ≤ stream ∧ stream < (c.m_streams.length : Int))
    (hkern : c.m_kernels.length = VEDA_KERNEL_CNT) (hpos : 0 < size) :
    ∃ idx assign, Ptrs.find c.m_ptrs idx = none ∧ idx ≤ VEDA_CNT_IDX L ∧
      c.kernel .VEDA_KERNEL_MEM_ASSIGN = .ok assign ∧
      c.memAlloc L T size stream =
        ⟨.ok (VEDA_SET_PTR L c.m_device.vedaId idx 0),
         (({ c with
              m_ptrs := Ptrs.insert idx ⟨Ptrs.newAddr c.m_ptrs, ⟨0, size⟩⟩ c.m_ptrs
              m_memidx := incMemIdx L idx }.enqueue stream.toNat
                (.veo_alloc_mem_async size) false none).enqueue stream.toNat
                (.veo_call_async assign [VEDA_SET_PTR L c.m_device.vedaId idx 0, size]) false
                (some (.ptr (Ptrs.newAddr c.m_ptrs))))⟩ := by
  obtain ⟨idx, hfind⟩ := findFreeIdx_terminates L c.m_ptrs c.m_memidx hcnt
  obtain ⟨hfree, hrange⟩ := findFreeIdx_some L c.m_ptrs _ _ _ hfind
  have hle : idx ≤ VEDA_CNT_IDX L := by
    rcases hrange with h | h
    · omega
    · exact (h (by omega)).2
  have hne : c.m_ptrs.length ≠ VEDA_CNT_IDX L := by omega
  have hsz : size ≠ 0 := by omega
  have hs1 : stream.toNat < c.m_streams.length := by omega
  have hs2 : 0 ≤ stream ∧ stream ≤ (c.m_streams.length : Int) := by omega
  obtain ⟨assign, hassign⟩ := Context.kernel_ok c .VEDA_KERNEL_MEM_ASSIGN hkern
  have hk2 : ¬ VEDA_KERNEL_CNT ≤ Kernel.toNat .VEDA_KERNEL_MEM_ASSIGN := by decide
  have hk : c.m_kernels[Kernel.toNat .VEDA_KERNEL_MEM_ASSIGN]? = some assign := by
    simp only [Context.kernel, hk2, if_false] at hassign
    split at hassign
    · next f hf => simp at hassign; rw [hf, hassign]
    · simp at hassign
  refine ⟨idx, assign, hfree, hle, hassign, ?_⟩
  simp [Context.memAlloc, hover, hne, hfind, Ptrs.emplace, hfree, hsz, Context.stream, hs1, hs2,
    Context.kernel, hk, hk2]

/-- The outcome of `memFree` when the record is still unresolved and both the
synchronisation and the two calls it enqueues go through. -/
theorem Context.memFree_sync_eq (L : Layout) (T : Transport) (c : Context) (vptr : Nat)
    (stream : Int) (info0 info : InfoRef) (s remove : Nat)
    (hdev : VEDA_GET_DEVICE L vptr = c.m_device.vedaId) (hactive : c.isActive = true)
    (hoff : VEDA_GET_OFFSET L vptr = 0)
    (hfind : Ptrs.find c.m_ptrs (VEDA_GET_IDX L vptr) = some info0)
    (hp : info0.info.ptr = 0) (hs : info0.info.size ≠ 0)
    (hsync : (c.sync T).res = .ok ())
    (hfind1 : Ptrs.find (c.sync T).ctx.m_ptrs (VEDA_GET_IDX L vptr) = some info)
    (hsz : info.info.size ≠ 0)
    (hstream : (c.sync T).ctx.stream stream = .ok s)
    (hkern : (c.sync T).ctx.kernel .VEDA_KERNEL_MEM_REMOVE = .ok remove) :
    c.memFree L T vptr stream =
      ⟨.ok (),
       { ((c.sync T).ctx.enqueue s (.veo_call_async remove [vptr]) true none).enqueue s
            (.veo_free_mem_async info.info.ptr) false none with
         m_ptrs := Ptrs.erase (c.sync T).ctx.m_ptrs (VEDA_GET_IDX L vptr) }⟩ := by
  simp [Context.memFree, hdev, hactive, hoff, hfind, hp, hs, hsync, hfind1, hsz, hstream, hkern]

theorem HeldInv.held_after_memAlloc (L : Layout) (T : Transport) (c : Context) (held : List Nat)
    (size : Nat) (stream : Int) (h : HeldInv L c held) :
    HeldInv L (c.memAlloc L T size stream).ctx held ∧
    ∀ p, (c.memAlloc L T size stream).res = .ok p →
      Ptrs.find c.m_ptrs (VEDA_GET_IDX L p) = none ∧
      HeldInv L (c.memAlloc L T size stream).ctx (p :: held) := by
  rcases Context.memAlloc_cases L T c size stream h.m_memOverride h.m_memidx h.length with
    ⟨hc, hno⟩ | ⟨idx, hfree, hle, hptrs, hmem, hov, hlt, hp⟩
  · rw [hc]
    exact ⟨h, fun p hp => absurd hp (hno p)⟩
  · have hmono : ∀ j, Ptrs.find c.m_ptrs j ≠ none →
        Ptrs.find (c.memAlloc L T size stream).ctx.m_ptrs j ≠ none := by
      intro j hj
      rw [hptrs]
      by_cases hji : j = idx
      · subst hji; exact absurd hfree hj
      · rw [Ptrs.find_insert_ne _ _ _ _ hji]; exact hj
    have hbase : HeldInv L (c.memAlloc L T size stream).ctx held :=
      ⟨hov, by rw [hmem]; exact (incMemIdx_range L idx (by omega)).2,
       by rw [hptrs, Ptrs.length_insert]; omega, h.nodup,
       fun p hp => hmono _ (h.present p hp)⟩
    refine ⟨hbase, fun p hres => ?_⟩
    have hpi : VEDA_GET_IDX L p = idx := by
      rw [hp p hres]
      exact get_idx_set_ptr L _ _ _ (lt_two_pow_of_le_cnt L hle) (Nat.pow_pos (by decide))
    refine ⟨by rw [hpi]; exact hfree, hbase.m_memOverride, hbase.m_memidx, hbase.length, ?_, ?_⟩
    · rw [List.map_cons, List.nodup_cons]
      refine ⟨?_, h.nodup⟩
      intro hmem'
      obtain ⟨q, hq, hqi⟩ := List.mem_map.mp hmem'
      have := h.present q hq
      rw [hqi, hpi] at this
      exact this hfree
    · intro q hq
      rcases List.mem_cons.mp hq with hq | hq
      · rw [hq, hpi, hptrs, Ptrs.find_insert_self]; simp
      · exact hbase.present q hq

theorem HeldInv.held_after_memFree (L : Layout) (T : Transport) (c : Context) (held : List Nat)
    (vptr : Nat) (stream : Int) (h : HeldInv L c held) :
    ((c.memFree L T vptr stream).res ≠ .ok () → HeldInv L (c.memFree L T vptr stream).ctx held) ∧
    HeldInv L (c.memFree L T vptr stream).ctx
      (held.filter (fun p => VEDA_GET_IDX L p != VEDA_GET_IDX L vptr)) := by
  obtain ⟨h1, h2, h3, h4⟩ := Context.memFree_cases L T c vptr stream
  constructor
  · intro hres
    exact ⟨h1.trans h.m_memOverride, by rw [h2]; exact h.m_memidx, le_trans h3 h.length, h.nodup,
      fun p hp => by rw [Ne, h4 _ (Or.inr hres)]; exact h.present p hp⟩
  · refine ⟨h1.trans h.m_memOverride, by rw [h2]; exact h.m_memidx, le_trans h3 h.length, ?_, ?_⟩
    · exact h.nodup.sublist ((List.filter_sublist _).map _)
    · intro p hp
      rw [List.mem_filter] at hp
      have hne : VEDA_GET_IDX L p ≠ VEDA_GET_IDX L vptr := by simpa using hp.2
      rw [Ne, h4 _ (Or.inl hne)]
      exact h.present p hp.1

theorem HeldInv.after_runMem (L : Layout) (T : Transport) (ops : List MemOp) :
    ∀ (c : Context) (held : List Nat), HeldInv L c held →
      HeldInv L (runMem L T ops c held).1 (runMem L T ops c held).2 := by
  induction ops with
  | nil => intro c held h; exact h
  | cons op ops ih =>
    intro c held h
    cases op with
    | alloc size stream =>
      obtain ⟨h1, h2⟩ := HeldInv.held_after_memAlloc L T c held size stream h
      cases hres : (c.memAlloc L T size stream).res with
      | ok p =>
        have e : runMem L T (.alloc size stream :: ops) c held
            = runMem L T ops (c.memAlloc L T size stream).ctx (p :: held) := by
          rw [runMem]; simp only [hres]
        rw [e]; exact ih _ _ (h2 p hres).2
      | fail f =>
        have e : runMem L T (.alloc size stream :: ops) c held
            = runMem L T ops (c.memAlloc L T size stream).ctx held := by
          rw [runMem]; simp only [hres]
        rw [e]; exact ih _ _ h1
    | free vptr stream =>
      obtain ⟨h1, h2⟩ := HeldInv.held_after_memFree L T c held vptr stream h
      cases hres : (c.memFree L T vptr stream).res with
      | ok u =>
        have e : runMem L T (.free vptr stream :: ops) c held
            = runMem L T ops (c.memFree L T vptr stream).ctx
                (held.filter (fun p => VEDA_GET_IDX L p != VEDA_GET_IDX L vptr)) := by
          rw [runMem]; simp only [hres]
        rw [e]; exact ih _ _ h2
      | fail f =>
        have e : runMem L T (.free vptr stream :: ops) c held
            = runMem L T ops (c.memFree L T vptr stream).ctx held := by
          rw [runMem]; simp only [hres]
        rw [e]; exact ih _ _ (h1 (by rw [hres]; simp))

/-! ## Lemmas: the invariant of reachable contexts -/

theorem OpFrame.op_refl (c : Context) : OpFrame c c := ⟨rfl, rfl, rfl, rfl⟩

theorem OpFrame.op_trans {c₁ c₂ c₃ : Context} (h₁ : OpFrame c₁ c₂) (h₂ : OpFrame c₂ c₃) :
    OpFrame c₁ c₃ :=
  ⟨h₂.m_kernels.trans h₁.m_kernels, h₂.m_handle.trans h₁.m_handle,
   h₂.m_device.trans h₁.m_device, h₂.streams.trans h₁.streams⟩

theorem SyncFrame.toOpFrame {c c' : Context} (h : SyncFrame c c') : OpFrame c c' :=
  ⟨h.m_kernels, h.m_handle, h.m_device, by
    have := congrArg List.length h.streams
    simpa using this⟩

theorem Context.enqueue_frame (c : Context) (s : Nat) (call : Call) (b : Bool)
    (d : Option Dest) : OpFrame c (c.enqueue s call b d) :=
  ⟨rfl, rfl, rfl, by simp [Context.enqueue, appendCall_length]⟩

theorem Context.syncPtrsLoop_frame (L : Layout) (m : Ptrs) :
    ∀ (c : Context) (syn : Bool),
      OpFrame c (Context.syncPtrsLoop L m c syn).ctx ∧
      (Context.syncPtrsLoop L m c syn).ctx.m_ptrs = c.m_ptrs ∧
      (Context.syncPtrsLoop L m c syn).ctx.m_memidx = c.m_memidx ∧
      (Context.syncPtrsLoop L m c syn).ctx.m_memOverride = c.m_memOverride := by
  induction m with
  | nil => intro c syn; exact ⟨OpFrame.op_refl c, rfl, rfl, rfl⟩
  | cons e m ih =>
    intro c syn
    obtain ⟨idx, r⟩ := e
    unfold Context.syncPtrsLoop
    split
    · split
      · simp only
        split
        · exact ⟨OpFrame.op_refl c, rfl, rfl, rfl⟩
        · split
          · exact ⟨OpFrame.op_refl c, rfl, rfl, rfl⟩
          · split
            · exact ⟨Context.enqueue_frame _ _ _ _ _, rfl, rfl, rfl⟩
            · refine ⟨OpFrame.op_trans ?_ (ih _ _).1, (ih _ _).2.1, (ih _ _).2.2.1, (ih _ _).2.2.2⟩
              exact (Context.enqueue_frame _ _ _ _ _).op_trans (Context.enqueue_frame _ _ _ _ _)
      · exact ih c true
    · exact ih c syn

theorem Context.syncPtrs_frame (L : Layout) (T : Transport) (c : Context) :
    OpFrame c (c.syncPtrs L T).ctx ∧
    Ptrs.shape (c.syncPtrs L T).ctx.m_ptrs = Ptrs.shape c.m_ptrs ∧
    (c.syncPtrs L T).ctx.m_memidx = c.m_memidx ∧
    (c.syncPtrs L T).ctx.m_memOverride = c.m_memOverride := by
  obtain ⟨h1, h2, h3, h4⟩ := Context.syncPtrsLoop_frame L c.m_ptrs c false
  unfold Context.syncPtrs
  simp only
  split
  · exact ⟨h1, by rw [h2], h3, h4⟩
  · split
    · have hf := Context.sync_frame T (Context.syncPtrsLoop L c.m_ptrs c false).ctx
      exact ⟨h1.op_trans hf.toOpFrame, by rw [hf.shape, h2], hf.m_memidx.trans h3,
        hf.m_memOverride.trans h4⟩
    · exact ⟨h1, by rw [h2], h3, h4⟩

theorem Context.memAlloc_frame (L : Layout) (T : Transport) (c : Context) (size : Nat)
    (stream : Int) (hover : c.m_memOverride = 0) :
    OpFrame c (c.memAlloc L T size stream).ctx := by
  simp only [Context.memAlloc, hover, ne_eq, not_true_eq_false, if_false]
  repeat' split
  all_goals exact ⟨rfl, rfl, rfl, by simp [Context.enqueue, appendCall_length]⟩

theorem Context.memFree_frame (L : Layout) (T : Transport) (c : Context) (vptr : Nat)
    (stream : Int) : OpFrame c (c.memFree L T vptr stream).ctx := by
  unfold Context.memFree
  split
  · exact OpFrame.op_refl c
  · split
    · exact OpFrame.op_refl c
    · split
      · exact OpFrame.op_refl c
      · split
        · exact OpFrame.op_refl c
        · next info0 hinfo0 =>
          have hframe : OpFrame c
              (if info0.info.ptr = 0 ∧ info0.info.size ≠ 0 then c.sync T else ⟨.ok (), c⟩).ctx := by
            split
            · exact (Context.sync_frame T c).toOpFrame
            · exact OpFrame.op_refl c
          generalize (if info0.info.ptr = 0 ∧ info0.info.size ≠ 0 then c.sync T
            else ⟨.ok (), c⟩) = o at hframe
          simp only
          repeat' split
          all_goals
            first
            | exact hframe
            | exact hframe.op_trans ⟨rfl, rfl, rfl, by simp [Context.enqueue, appendCall_length]⟩

theorem Ptrs.length_assign (m : Ptrs) (i : Nat) (v : InfoRef) :
    (Ptrs.assign m i v).length = m.length := by
  induction m with
  | nil => rfl
  | cons e m ih =>
    obtain ⟨k, w⟩ := e
    by_cases hk : k = i
    · simp [Ptrs.assign, hk]
    · simp [Ptrs.assign, hk, ih]

theorem Context.memSwap_frame (L : Layout) (c : Context) (A B : Nat) (stream : Int) :
    OpFrame c (c.memSwap L A B stream).ctx ∧
    (c.memSwap L A B stream).ctx.m_ptrs.length = c.m_ptrs.length ∧
    (c.memSwap L A B stream).ctx.m_memidx = c.m_memidx ∧
    (c.memSwap L A B stream).ctx.m_memOverride = c.m_memOverride := by
  unfold Context.memSwap
  split
  · simp only
    repeat' split
    all_goals
      exact ⟨⟨rfl, rfl, rfl, by simp [Context.enqueue, appendCall_length]⟩,
        by simp [Ptrs.length_assign], rfl, rfl⟩
  · exact ⟨OpFrame.op_refl c, rfl, rfl, rfl⟩

theorem Context.Inv.of_frame {L : Layout} {c c' : Context} (h : Context.Inv L c)
    (hf : OpFrame c c') (hidx : c'.m_memidx ≤ VEDA_CNT_IDX L)
    (hlen : c'.m_ptrs.length ≤ VEDA_CNT_IDX L) (hover : c'.m_memOverride = 0) :
    Context.Inv L c' := by
  have hs : c'.m_streams = [] ↔ c.m_streams = [] := by
    rw [← List.length_eq_zero, ← List.length_eq_zero, hf.streams]
  refine ⟨fun ha => ?_, by rw [hf.m_kernels]; exact h.kernels, fun hne => ?_, hidx, hlen, hover⟩
  · rw [hs]
    apply h.inactive
    simpa [Context.isActive, hf.m_handle] using ha
  · rw [hf.m_kernels]
    exact h.loaded (fun h' => hne (hs.mpr h'))

theorem Context.Inv.after_memAlloc (L : Layout) (T : Transport) (c : Context) (size : Nat)
    (stream : Int) (h : Context.Inv L c) : Context.Inv L (c.memAlloc L T size stream).ctx := by
  have hf := Context.memAlloc_frame L T c size stream h.m_memOverride
  rcases Context.memAlloc_cases L T c size stream h.m_memOverride h.m_memidx h.length with
    ⟨hc, -⟩ | ⟨idx, -, -, hptrs, hmem, hov, hlt, -⟩
  · rw [hc]; exact h
  · exact h.of_frame hf (by rw [hmem]; exact (incMemIdx_range L idx (by omega)).2)
      (by rw [hptrs, Ptrs.length_insert]; omega) hov

theorem Context.Inv.after_memFree (L : Layout) (T : Transport) (c : Context) (vptr : Nat)
    (stream : Int) (h : Context.Inv L c) : Context.Inv L (c.memFree L T vptr stream).ctx := by
  obtain ⟨h1, h2, h3, -⟩ := Context.memFree_cases L T c vptr stream
  exact h.of_frame (Context.memFree_frame L T c vptr stream) (by rw [h2]; exact h.m_memidx)
    (le_trans h3 h.length) (h1.trans h.m_memOverride)

theorem Context.Inv.after_memSwap (L : Layout) (c : Context) (A B : Nat) (stream : Int)
    (h : Context.Inv L c) : Context.Inv L (c.memSwap L A B stream).ctx := by
  obtain ⟨h1, h2, h3, h4⟩ := Context.memSwap_frame L c A B stream
  exact h.of_frame h1 (by rw [h3]; exact h.m_memidx) (by rw [h2]; exact h.length)
    (h4.trans h.m_memOverride)

theorem Context.Inv.after_destroy (L : Layout) (T : Transport) (c : Context) (h : Context.Inv L c) :
    Context.Inv L (c.destroy L T).ctx := by
  obtain ⟨h1, h2, h3, h4⟩ := Context.syncPtrs_frame L T c
  have hsync : Context.Inv L (c.syncPtrs L T).ctx :=
    h.of_frame h1 (by rw [h3]; exact h.m_memidx)
      (by rw [Ptrs.length_of_shape _ _ h2]; exact h.length) (h4.trans h.m_memOverride)
  by_cases hact : c.isActive = false
  · simp only [Context.destroy, hact, if_true]
    exact h
  · cases hres : (c.syncPtrs L T).res with
    | fail f =>
      simp only [Context.destroy, hact, if_false, hres]
      exact hsync
    | ok u =>
      by_cases hh : (c.syncPtrs L T).ctx.m_handle = 0
      · simp only [Context.destroy, hact, if_false, hres, hh, ne_eq, not_true_eq_false]
        exact ⟨fun _ => rfl, Or.inr rfl, fun hne => absurd rfl hne, Nat.zero_le _,
          Nat.zero_le _, hsync.m_memOverride⟩
      · by_cases hd : T.veo_proc_destroy (c.syncPtrs L T).ctx.m_handle = .VEO_COMMAND_OK
        · simp only [Context.destroy, hact, if_false, hres, hh, hd, ne_eq, not_true_eq_false,
            not_false_eq_true, if_true]
          exact ⟨fun _ => rfl, Or.inr rfl, fun hne => absurd rfl hne, Nat.zero_le _,
            Nat.zero_le _, hsync.m_memOverride⟩
        · simp only [Context.destroy, hact, if_false, hres, hh, hd, ne_eq, not_false_eq_true,
            if_true]
          exact hsync

theorem Context.loadKernels_spec (T : Transport) (ks : List Kernel) :
    ∀ c : Context,
      (Context.loadKernels T ks c).ctx.m_ptrs = c.m_ptrs ∧
      (Context.loadKernels T ks c).ctx.m_memidx = c.m_memidx ∧
      (Context.loadKernels T ks c).ctx.m_memOverride = c.m_memOverride ∧
      (Context.loadKernels T ks c).ctx.m_handle = c.m_handle ∧
      (Context.loadKernels T ks c).ctx.m_streams = c.m_streams ∧
      (Context.loadKernels T ks c).ctx.m_kernels.length = c.m_kernels.length ∧
      ((Context.loadKernels T ks c).res = .ok () → ∀ k ∈ ks, k.toNat < c.m_kernels.length) := by
  induction ks with
  | nil => intro c; exact ⟨rfl, rfl, rfl, rfl, rfl, rfl, fun _ k hk => by simp at hk⟩
  | cons k ks ih =>
    intro c
    unfold Context.loadKernels
    split
    · exact ⟨rfl, rfl, rfl, rfl, rfl, rfl, fun h => by simp at h⟩
    · split
      · next func _ hlt =>
        obtain ⟨h1, h2, h3, h4, h5, h6, h7⟩ :=
          ih { c with m_kernels := c.m_kernels.set k.toNat func }
        refine ⟨h1, h2, h3, h4, h5, by rw [h6]; simp, fun hok x hx => ?_⟩
        rcases List.mem_cons.mp hx with hx | hx
        · rw [hx]; exact hlt
        · have := h7 hok x hx
          simpa using this
      · exact ⟨rfl, rfl, rfl, rfl, rfl, rfl, fun h => by simp at h⟩

theorem Context.openStreams_spec (T : Transport) (n : Nat) :
    ∀ c : Context,
      (Context.openStreams T n c).ctx.m_ptrs = c.m_ptrs ∧
      (Context.openStreams T n c).ctx.m_memidx = c.m_memidx ∧
      (Context.openStreams T n c).ctx.m_memOverride = c.m_memOverride ∧
      (Context.openStreams T n c).ctx.m_handle = c.m_handle ∧
      (Context.openStreams T n c).ctx.m_kernels = c.m_kernels := by
  induction n with
  | zero => intro c; exact ⟨rfl, rfl, rfl, rfl, rfl⟩
  | succ n ih =>
    intro c
    unfold Context.openStreams
    simp only
    split
    · exact ⟨rfl, rfl, rfl, rfl, rfl⟩
    · exact ih _

theorem Context.moduleLoad_spec (T : Transport) (c : Context) (name : String) :
    (c.moduleLoad T name).ctx.m_ptrs = c.m_ptrs ∧
    (c.moduleLoad T name).ctx.m_memidx = c.m_memidx ∧
    (c.moduleLoad T name).ctx.m_memOverride = c.m_memOverride ∧
    (c.moduleLoad T name).ctx.m_kernels = c.m_kernels ∧
    (c.moduleLoad T name).ctx.m_handle = c.m_handle ∧
    (c.moduleLoad T name).ctx.m_streams = c.m_streams := by
  unfold Context.moduleLoad
  split
  · exact ⟨rfl, rfl, rfl, rfl, rfl, rfl⟩
  · split
    · exact ⟨rfl, rfl, rfl, rfl, rfl, rfl⟩
    · exact ⟨rfl, rfl, rfl, rfl, rfl, rfl⟩

/-- What `init` on a context that is not active leaves alone. -/
theorem Context.init_shape (T : Transport) (c : Context) (mode : VEDAcontext_mode)
    (hinact : c.isActive = false) :
    (c.init T mode).ctx.m_ptrs = c.m_ptrs ∧
    (c.init T mode).ctx.m_memidx = c.m_memidx ∧
    (c.init T mode).ctx.m_memOverride = c.m_memOverride ∧
    (c.init T mode).ctx.m_kernels.length = c.m_kernels.length ∧
    ((c.init T mode).ctx.m_handle = 0 → (c.init T mode).ctx.m_streams = c.m_streams) ∧
    ((c.init T mode).ctx.m_streams ≠ c.m_streams → 26 < c.m_kernels.length) := by
  have tail : ∀ numStreams : Int,
      let o : Outcome Unit :=
        if numStreams = 0 then ⟨.fail .assertion, { c with m_mode := mode }⟩
        else
          let c2 := { c with m_mode := mode, m_handle := T.veo_proc_create c.m_device.aveoId }
          if c2.m_handle = 0 then ⟨.fail (.thrown .VEDA_ERROR_CANNOT_CREATE_CONTEXT), c2⟩
          else
            let o3 := c2.moduleLoad T T.stdLib
            match o3.res with
            | .fail f => ⟨.fail f, o3.ctx⟩
            | .ok lib =>
              let o4 := Context.loadKernels T Kernel.all { o3.ctx with m_lib := lib }
              match o4.res with
              | .fail f => ⟨.fail f, o4.ctx⟩
              | .ok _ =>
                if numStreams < 0 then ⟨.fail .stdException, o4.ctx⟩
                else
                  let o5 := Context.openStreams T numStreams.toNat o4.ctx
                  match o5.res with
                  | .fail f => ⟨.fail f, o5.ctx⟩
                  | .ok _ =>
                    ⟨.ok (), { o5.ctx with
                      m_aveoProcId := T.veo_proc_identifier o5.ctx.m_handle }⟩
      o.ctx.m_ptrs = c.m_ptrs ∧ o.ctx.m_memidx = c.m_memidx ∧
      o.ctx.m_memOverride = c.m_memOverride ∧
      o.ctx.m_kernels.length = c.m_kernels.length ∧
      (o.ctx.m_handle = 0 → o.ctx.m_streams = c.m_streams) ∧
      (o.ctx.m_streams ≠ c.m_streams → 26 < c.m_kernels.length) := by
    intro numStreams
    simp only
    split
    · exact ⟨rfl, rfl, rfl, rfl, fun _ => rfl, fun h => absurd rfl h⟩
    · split
      · exact ⟨rfl, rfl, rfl, rfl, fun _ => rfl, fun h => absurd rfl h⟩
      · next hh =>
        obtain ⟨m1, m2, m3, m4, m5, m6⟩ := Context.moduleLoad_spec T
          { c with m_mode := mode, m_handle := T.veo_proc_create c.m_device.aveoId } T.stdLib
        simp only at m1 m2 m3 m4 m5 m6
        generalize Context.moduleLoad T
          { c with m_mode := mode, m_handle := T.veo_proc_create c.m_device.aveoId } T.stdLib = o3
          at m1 m2 m3 m4 m5 m6 ⊢
        split
        · exact ⟨m1, m2, m3, by rw [m4], fun h => absurd (m5 ▸ h) hh, fun h => absurd m6 h⟩
        · next lib _ =>
          obtain ⟨k1, k2, k3, k4, k5, k6, k7⟩ :=
            Context.loadKernels_spec T Kernel.all { o3.ctx with m_lib := lib }
          generalize Context.loadKernels T Kernel.all { o3.ctx with m_lib := lib } = o4
            at k1 k2 k3 k4 k5 k6 k7 ⊢
          have hk4 : o4.ctx.m_handle ≠ 0 := by rw [k4]; show o3.ctx.m_handle ≠ 0; rw [m5]; exact hh
          have hk5 : o4.ctx.m_streams = c.m_streams := by rw [k5]; exact m6
          have hk6 : o4.ctx.m_kernels.length = c.m_kernels.length := by
            rw [k6]; show o3.ctx.m_kernels.length = _; rw [m4]
          split
          · exact ⟨k1.trans m1, k2.trans m2, k3.trans m3, hk6, fun h => absurd h hk4,
              fun h => absurd hk5 h⟩
          · next hok =>
            have h26 : 26 < c.m_kernels.length := by
              have := k7 (by rw [hok]) .VEDA_KERNEL_MEM_SWAP (by decide)
              have e : o3.ctx.m_kernels.length = c.m_kernels.length := by rw [m4]
              simpa [Kernel.toNat, e] using this
            split
            · exact ⟨k1.trans m1, k2.trans m2, k3.trans m3, hk6, fun h => absurd h hk4,
                fun _ => h26⟩
            · obtain ⟨s1, s2, s3, s4, s5⟩ := Context.openStreams_spec T numStreams.toNat o4.ctx
              generalize Context.openStreams T numStreams.toNat o4.ctx = o5 at s1 s2 s3 s4 s5 ⊢
              split
              · exact ⟨s1.trans (k1.trans m1), s2.trans (k2.trans m2), s3.trans (k3.trans m3),
                  by rw [s5, hk6], fun h => absurd (s4 ▸ h) hk4, fun _ => h26⟩
              · exact ⟨s1.trans (k1.trans m1), s2.trans (k2.trans m2), s3.trans (k3.trans m3),
                  by show o5.ctx.m_kernels.length = _; rw [s5, hk6],
                  fun h => absurd (s4 ▸ h) hk4, fun _ => h26⟩
  unfold Context.init
  simp only [hinact, Bool.false_eq_true, if_false]
  cases mode with
  | invalid v => exact ⟨rfl, rfl, rfl, rfl, fun _ => rfl, fun h => absurd rfl h⟩
  | VEDA_CONTEXT_MODE_OMP => exact tail 1
  | VEDA_CONTEXT_MODE_SCALAR => exact tail _

theorem Context.Inv.after_init (L : Layout) (T : Transport) (c : Context) (mode : VEDAcontext_mode)
    (h : Context.Inv L c) : Context.Inv L (c.init T mode).ctx := by
  by_cases hact : c.isActive = true
  · simp only [Context.init, hact, if_true]
    exact h
  · have hinact : c.isActive = false := by simpa using hact
    have hs := h.inactive hinact
    obtain ⟨h1, h2, h3, h4, h5, h6⟩ := Context.init_shape T c mode hinact
    refine ⟨fun ha => ?_, by rw [h4]; exact h.kernels, fun hne => ?_, by rw [h2]; exact h.m_memidx,
      by rw [h1]; exact h.length, h3.trans h.m_memOverride⟩
    · rw [h5 (by simpa [Context.isActive] using ha), hs]
    · have h26 := h6 (by rw [hs]; exact hne)
      rw [h4]
      rcases h.kernels with hk | hk
      · exact hk
      · omega

theorem Context.Inv.of_new (L : Layout) (device : Device) (hL : 1 ≤ VEDA_CNT_IDX L) :
    Context.Inv L (Context.new device) :=
  ⟨fun _ => rfl, Or.inl (by simp [Context.new]), fun h => absurd rfl h, hL, Nat.zero_le _, rfl⟩

theorem Context.Inv.after_step (L : Layout) (T : Transport) (c : Context) (op : Op)
    (h : Context.Inv L c) : Context.Inv L (c.step L T op).ctx := by
  cases op with
  | init mode => exact h.after_init L T c mode
  | memAlloc size stream => exact h.after_memAlloc L T c size stream
  | memFree vptr stream => exact h.after_memFree L T c vptr stream
  | memSwap A B stream => exact h.after_memSwap L c A B stream
  | destroy => exact h.after_destroy L T c

/-- Every context reached by a run of calls from a context that satisfies the
invariant satisfies it. -/
theorem Context.Inv.after_run (L : Layout) (T : Transport) (ops : List Op) :
    ∀ (c c' : Context) (rs : List (Res (Option Nat))), Context.Inv L c →
      Context.run L T ops c = some (c', rs) → Context.Inv L c' := by
  induction ops with
  | nil =>
    intro c c' rs h hrun
    simp only [Context.run, Option.some.injEq, Prod.mk.injEq] at hrun
    rw [← hrun.1]; exact h
  | cons op ops ih =>
    intro c c' rs h hrun
    have hstep := h.after_step L T c op
    rw [Context.run] at hrun
    split at hrun
    · cases hr : Context.run L T ops (c.step L T op).ctx with
      | none => simp [hr] at hrun
      | some p =>
        obtain ⟨c'', rs''⟩ := p
        simp only [hr, Option.map_some', Option.some.injEq, Prod.mk.injEq] at hrun
        rw [← hrun.1]
        exact ih _ _ _ hstep hr
    · simp at hrun
    · cases hr : Context.run L T ops (c.step L T op).ctx with
      | none => simp [hr] at hrun
      | some p =>
        obtain ⟨c'', rs''⟩ := p
        simp only [hr, Option.map_some', Option.some.injEq, Prod.mk.injEq] at hrun
        rw [← hrun.1]
        exact ih _ _ _ hstep hr

/-- In a context that satisfies the invariant, the helper table is complete as
soon as there is a valid stream number. -/
theorem Context.Inv.kernels_loaded {L : Layout} {c : Context} (h : Context.Inv L c) (stream : Int)
    (hstream : 0 ≤ stream ∧ stream < (c.m_streams.length : Int)) :
    c.m_kernels.length = VEDA_KERNEL_CNT := by
  apply h.loaded
  intro hnil
  rw [hnil] at hstream
  simp at hstream
  omega

/-! ## Lemmas: the concrete instances -/

theorem Example.ctxPending_calls :
    allCalls Example.ctxPending.m_streams = [⟨0, false, none⟩, ⟨1, false, some (.ptr 1)⟩] := by
  decide

theorem Example.ctxPending_completes :
    Example.transport.completes (allCalls Example.ctxPending.m_streams) := by
  rw [Example.ctxPending_calls]
  intro e he
  simp only [List.mem_cons, List.mem_singleton, List.not_mem_nil, or_false] at he
  rcases he with h | h <;> subst h <;> exact ⟨rfl, by simp⟩

theorem Example.ctxPending_destsLive :
    destsLive Example.ctxPending.m_ptrs (allCalls Example.ctxPending.m_streams) := by
  rw [Example.ctxPending_calls]
  intro e he d hd
  simp only [List.mem_cons, List.mem_singleton, List.not_mem_nil, or_false] at he
  rcases he with h | h <;> subst h
  · simp at hd
  · simp only [Option.some.injEq] at hd
    subst hd
    show Ptrs.live Example.ctxPending.m_ptrs 1 = true
    decide

/-! ## Claims -/

/-- C1. Round trip of the pointer encoding: for a device id, an allocation index
and a byte offset that fit the widths of their fields, `VEDA_GET_DEVICE`,
`VEDA_GET_IDX` and `VEDA_GET_OFFSET` applied to `VEDA_SET_PTR(d, i, o)` give back
`d`, `i` and `o`. -/
theorem VEDA_SET_PTR_roundtrip (L : Layout) (d i o : Nat)
    (hd : d < 2 ^ L.devBits) (hi : i < 2 ^ L.idxBits) (ho : o < 2 ^ L.offBits) :
    VEDA_GET_DEVICE L (VEDA_SET_PTR L d i o) = d ∧
    VEDA_GET_IDX L (VEDA_SET_PTR L d i o) = i ∧
    VEDA_GET_OFFSET L (VEDA_SET_PTR L d i o) = o :=
  ⟨get_device_set_ptr L d i o hd hi ho, get_idx_set_ptr L d i o hi ho,
   get_offset_set_ptr L d i o ho⟩

/-- C1, instance: device 2, index 5, offset 100 in a layout of 8, 24 and 32 bits. -/
theorem VEDA_SET_PTR_roundtrip_witness :
    (2 < 2 ^ 8 ∧ 5 < 2 ^ 24 ∧ 100 < 2 ^ 32) ∧
    (VEDA_GET_DEVICE ⟨8, 24, 32⟩ (VEDA_SET_PTR ⟨8, 24, 32⟩ 2 5 100) = 2 ∧
     VEDA_GET_IDX ⟨8, 24, 32⟩ (VEDA_SET_PTR ⟨8, 24, 32⟩ 2 5 100) = 5 ∧
     VEDA_GET_OFFSET ⟨8, 24, 32⟩ (VEDA_SET_PTR ⟨8, 24, 32⟩ 2 5 100) = 100) :=
  ⟨⟨by decide, by decide, by decide⟩,
   VEDA_SET_PTR_roundtrip ⟨8, 24, 32⟩ 2 5 100 (by decide) (by decide) (by decide)⟩

/-- C2. Normal allocation path: on a context with no override pending and fewer
than `VEDA_CNT_IDX` records, `memAlloc(size, s)` for a valid stream `s` returns
`VEDA_SET_PTR(device id, idx, 0)` for an index `idx` that was not in the table;
afterwards the table holds at `idx` a record with address 0 and the requested
size, every other index has the record it had, every other stream is
unchanged, and stream `s` has gained nothing when `size = 0` and, when
`size > 0`, exactly two pending entries: the transport allocation call and the
`veda_mem_assign` call whose result goes to the address of the new record. -/
theorem memAlloc_reserves_fresh_index (L : Layout) (T : Transport) (c : Context) (size : Nat)
    (stream : Int)
    (hover : c.m_memOverride = 0) (hcnt : c.m_ptrs.length < VEDA_CNT_IDX L)
    (hstream : 0 ≤ stream ∧ stream < (c.m_streams.length : Int))
    (hkern : c.m_kernels.length = VEDA_KERNEL_CNT) :
    ∃ idx info,
      Ptrs.find c.m_ptrs idx = none ∧
      (c.memAlloc L T size stream).res = .ok (VEDA_SET_PTR L c.m_device.vedaId idx 0) ∧
      Ptrs.find (c.memAlloc L T size stream).ctx.m_ptrs idx = some info ∧
      info.info = ⟨0, size⟩ ∧
      (∀ j, j ≠ idx →
        Ptrs.find (c.memAlloc L T size stream).ctx.m_ptrs j = Ptrs.find c.m_ptrs j) ∧
      (∀ t, t ≠ stream.toNat →
        (c.memAlloc L T size stream).ctx.m_streams[t]? = c.m_streams[t]?) ∧
      (size = 0 → (c.memAlloc L T size stream).ctx.m_streams = c.m_streams ∧
        (c.memAlloc L T size stream).ctx.veo = c.veo) ∧
      (0 < size → ∃ st assign,
        c.m_streams[stream.toNat]? = some st ∧
        c.kernel .VEDA_KERNEL_MEM_ASSIGN = .ok assign ∧
        (c.memAlloc L T size stream).ctx.m_streams[stream.toNat]? =
          some { st with m_calls := st.m_calls ++
            [⟨c.veo.issued.length, false, none⟩,
             ⟨c.veo.issued.length + 1, false, some (.ptr info.addr)⟩] } ∧
        (c.memAlloc L T size stream).ctx.veo.issued = c.veo.issued ++
          [(st.m_ctx, .veo_alloc_mem_async size),
           (st.m_ctx, .veo_call_async assign
              [VEDA_SET_PTR L c.m_device.vedaId idx 0, size])]) := by
  obtain ⟨idx, hidx⟩ := findFreeIdx_terminates L c.m_ptrs c.m_memidx hcnt
  obtain ⟨hfree, -⟩ := findFreeIdx_some L c.m_ptrs _ _ _ hidx
  have hne : c.m_ptrs.length ≠ VEDA_CNT_IDX L := by omega
  have hs1 : stream.toNat < c.m_streams.length := by omega
  obtain ⟨assign, hassign⟩ := Context.kernel_ok c .VEDA_KERNEL_MEM_ASSIGN hkern
  refine ⟨idx, ⟨Ptrs.newAddr c.m_ptrs, ⟨0, size⟩⟩, hfree, ?_⟩
  by_cases hsz : size = 0
  · subst hsz
    simp [Context.memAlloc, hover, hne, hidx, Ptrs.emplace, hfree, Ptrs.find_insert_self]
    intro j hj
    exact Ptrs.find_insert_ne _ _ _ _ hj
  · have hpos : 0 < size := Nat.pos_of_ne_zero hsz
    have hs2 : 0 ≤ stream ∧ stream ≤ (c.m_streams.length : Int) := by omega
    have hst : c.m_streams[stream.toNat]? = some c.m_streams[stream.toNat] :=
      List.getElem?_eq_getElem hs1
    have hk : c.m_kernels[Kernel.toNat .VEDA_KERNEL_MEM_ASSIGN]? = some assign := by
      simp only [Context.kernel] at hassign
      split at hassign
      · simp at hassign
      · split at hassign
        · next f hf => simp at hassign; rw [hf, hassign]
        · simp at hassign
    have hk2 : ¬ VEDA_KERNEL_CNT ≤ Kernel.toNat .VEDA_KERNEL_MEM_ASSIGN := by decide
    simp [Context.memAlloc, hover, hne, hidx, Ptrs.emplace, hfree, hsz, Context.stream, hs1, hs2,
      Context.kernel, hk, hk2, Context.enqueue, hst, Ptrs.find_insert_self,
      appendCall_getElem?_self, appendCall_length]
    refine ⟨fun j hj => Ptrs.find_insert_ne _ _ _ _ hj, fun t ht => ?_, ?_⟩
    · rw [appendCall_getElem?_ne _ _ _ _ ht, appendCall_getElem?_ne _ _ _ _ ht]
    · intro _
      have hl1 : stream.toNat < (appendCall c.m_streams stream.toNat
          { id := c.veo.issued.length, checkResult := false, result := none }).length := by
        rw [appendCall_length]; exact hs1
      rw [appendCall_getElem_self _ _ _ hl1, appendCall_getElem_self _ _ _ hs1]
      simp

/-- C2, instance: 8 bytes on stream 1 of the context `Example.ctx`. -/
theorem memAlloc_reserves_fresh_index_witness :
    (Example.ctx.isActive = true ∧ Example.ctx.m_memOverride = 0 ∧
     Example.ctx.m_ptrs.length < VEDA_CNT_IDX Example.layout ∧
     (0 ≤ (1 : Int) ∧ (1 : Int) < (Example.ctx.m_streams.length : Int)) ∧
     Example.ctx.m_kernels.length = VEDA_KERNEL_CNT) ∧
    ∃ idx info,
      Ptrs.find Example.ctx.m_ptrs idx = none ∧
      (Example.ctx.memAlloc Example.layout Example.transport 8 1).res
        = .ok (VEDA_SET_PTR Example.layout Example.ctx.m_device.vedaId idx 0) ∧
      Ptrs.find (Example.ctx.memAlloc Example.layout Example.transport 8 1).ctx.m_ptrs idx
        = some info ∧
      info.info = ⟨0, 8⟩ ∧
      (∀ j, j ≠ idx →
        Ptrs.find (Example.ctx.memAlloc Example.layout Example.transport 8 1).ctx.m_ptrs j
          = Ptrs.find Example.ctx.m_ptrs j) ∧
      (∀ t, t ≠ (1 : Int).toNat →
        (Example.ctx.memAlloc Example.layout Example.transport 8 1).ctx.m_streams[t]?
          = Example.ctx.m_streams[t]?) ∧
      (8 = 0 →
        (Example.ctx.memAlloc Example.layout Example.transport 8 1).ctx.m_streams
          = Example.ctx.m_streams ∧
        (Example.ctx.memAlloc Example.layout Example.transport 8 1).ctx.veo = Example.ctx.veo) ∧
      (0 < 8 → ∃ st assign,
        Example.ctx.m_streams[(1 : Int).toNat]? = some st ∧
        Example.ctx.kernel .VEDA_KERNEL_MEM_ASSIGN = .ok assign ∧
        (Example.ctx.memAlloc Example.layout Example.transport 8 1).ctx.m_streams[(1 : Int).toNat]? =
          some { st with m_calls := st.m_calls ++
            [⟨Example.ctx.veo.issued.length, false, none⟩,
             ⟨Example.ctx.veo.issued.length + 1, false, some (.ptr info.addr)⟩] } ∧
        (Example.ctx.memAlloc Example.layout Example.transport 8 1).ctx.veo.issued =
          Example.ctx.veo.issued ++
          [(st.m_ctx, .veo_alloc_mem_async 8),
           (st.m_ctx, .veo_call_async assign
              [VEDA_SET_PTR Example.layout Example.ctx.m_device.vedaId idx 0, 8])]) :=
  ⟨⟨by decide, by decide, by decide, by decide, by decide⟩,
   memAlloc_reserves_fresh_index Example.layout Example.transport Example.ctx 8 1
     (by decide) (by decide) (by decide) (by decide)⟩

/-- C3. Indices in use are never handed out twice: start from a context with no
override pending whose cursor and table size are within the index space, and
run any sequence of `memAlloc` and `memFree` calls (whatever their arguments
and results). Then the pointers returned by `memAlloc` whose record has not
been freed since have pairwise different indices, each of them is the key of a
record of the table, and a further `memAlloc` never returns a pointer whose
index is the key of a record of the table. -/
theorem memAlloc_never_reuses_live_index (L : Layout) (T : Transport) (ops : List MemOp)
    (c : Context) (hover : c.m_memOverride = 0) (hidx : c.m_memidx ≤ VEDA_CNT_IDX L)
    (hlen : c.m_ptrs.length ≤ VEDA_CNT_IDX L) :
    ((runMem L T ops c []).2.map (VEDA_GET_IDX L)).Nodup ∧
    (∀ p ∈ (runMem L T ops c []).2,
      Ptrs.find (runMem L T ops c []).1.m_ptrs (VEDA_GET_IDX L p) ≠ none) ∧
    (∀ size stream p, ((runMem L T ops c []).1.memAlloc L T size stream).res = .ok p →
      Ptrs.find (runMem L T ops c []).1.m_ptrs (VEDA_GET_IDX L p) = none) := by
  have h0 : HeldInv L c [] := ⟨hover, hidx, hlen, by simp, by simp⟩
  have h := HeldInv.after_runMem L T ops c [] h0
  exact ⟨h.nodup, h.present, fun size stream p hp =>
    ((HeldInv.held_after_memAlloc L T _ _ size stream h).2 p hp).1⟩

/-- C3, instance: two allocations, a free and two more allocations on `Example.ctx`;
the index freed is handed out again, the indices held stay distinct. -/
theorem memAlloc_never_reuses_live_index_witness :
    (Example.ctx.isActive = true ∧ Example.ctx.m_memOverride = 0 ∧
     Example.ctx.m_memidx ≤ VEDA_CNT_IDX Example.layout ∧
     Example.ctx.m_ptrs.length ≤ VEDA_CNT_IDX Example.layout) ∧
    (runMem Example.layout Example.transport
      [.alloc 16 0, .alloc 8 1, .free 80 0, .alloc 4 1, .alloc 4 0] Example.ctx []).2
        = [80, 112, 96] ∧
    (((runMem Example.layout Example.transport
        [.alloc 16 0, .alloc 8 1, .free 80 0, .alloc 4 1, .alloc 4 0] Example.ctx []).2.map
          (VEDA_GET_IDX Example.layout)).Nodup ∧
     (∀ p ∈ (runMem Example.layout Example.transport
        [.alloc 16 0, .alloc 8 1, .free 80 0, .alloc 4 1, .alloc 4 0] Example.ctx []).2,
      Ptrs.find (runMem Example.layout Example.transport
        [.alloc 16 0, .alloc 8 1, .free 80 0, .alloc 4 1, .alloc 4 0] Example.ctx []).1.m_ptrs
          (VEDA_GET_IDX Example.layout p) ≠ none) ∧
     (∀ size stream p, ((runMem Example.layout Example.transport
        [.alloc 16 0, .alloc 8 1, .free 80 0, .alloc 4 1, .alloc 4 0] Example.ctx []).1.memAlloc
          Example.layout Example.transport size stream).res = .ok p →
      Ptrs.find (runMem Example.layout Example.transport
        [.alloc 16 0, .alloc 8 1, .free 80 0, .alloc 4 1, .alloc 4 0] Example.ctx []).1.m_ptrs
          (VEDA_GET_IDX Example.layout p) = none)) :=
  ⟨⟨by decide, by decide, by decide, by decide⟩, by decide,
   memAlloc_never_reuses_live_index Example.layout Example.transport
     [.alloc 16 0, .alloc 8 1, .free 80 0, .alloc 4 1, .alloc 4 0] Example.ctx
     (by decide) (by decide) (by decide)⟩

/-- C4 (the code departs from the claim). After `init` and `destroy` the cursor
is 0, not 1 as the constructor leaves it: the next `memAlloc` (here of 0 bytes,
which needs no stream) returns pointer 64, whose index is 0, and puts a record
under index 0 of the table. -/
theorem destroy_then_memAlloc_index_zero :
    (Context.after Example.layout Example.transport
      [.init .VEDA_CONTEXT_MODE_OMP, .destroy] (Context.new Example.device)).m_memidx = 0 ∧
    (Context.run Example.layout Example.transport
      [.init .VEDA_CONTEXT_MODE_OMP, .destroy, .memAlloc 0 0] (Context.new Example.device)).map
        Prod.snd = some [.ok none, .ok none, .ok (some 64)] ∧
    VEDA_GET_IDX Example.layout 64 = 0 ∧
    Ptrs.find (Context.after Example.layout Example.transport
      [.init .VEDA_CONTEXT_MODE_OMP, .destroy, .memAlloc 0 0]
      (Context.new Example.device)).m_ptrs 0 = some ⟨1, ⟨0, 0⟩⟩ := by
  decide

/-- C5. Table exhaustion: when the table holds `VEDA_CNT_IDX` records and no
override is pending, `memAlloc` fails with `VEDA_ERROR_OUT_OF_MEMORY` for every
size and stream and leaves the whole context (table, cursor, pending lists) as
it was. -/
theorem memAlloc_table_full (L : Layout) (T : Transport) (c : Context) (size : Nat)
    (stream : Int) (hfull : c.m_ptrs.length = VEDA_CNT_IDX L) (hover : c.m_memOverride = 0) :
    (c.memAlloc L T size stream).res = .fail (.thrown .VEDA_ERROR_OUT_OF_MEMORY) ∧
    (c.memAlloc L T size stream).ctx = c := by
  simp [Context.memAlloc, hover, hfull]

/-- C5, instance: the context `Example.ctxFull` of the one-index layout. -/
theorem memAlloc_table_full_witness :
    (Example.ctxFull.isActive = true ∧
     Example.ctxFull.m_ptrs.length = VEDA_CNT_IDX Example.layout1 ∧
     Example.ctxFull.m_memOverride = 0) ∧
    ((Example.ctxFull.memAlloc Example.layout1 Example.transport 16 0).res
        = .fail (.thrown .VEDA_ERROR_OUT_OF_MEMORY) ∧
     (Example.ctxFull.memAlloc Example.layout1 Example.transport 16 0).ctx = Example.ctxFull) :=
  ⟨⟨by decide, by decide, by decide⟩,
   memAlloc_table_full Example.layout1 Example.transport Example.ctxFull 16 0
     (by decide) (by decide)⟩

/-- C6, amended. Allocation immediately followed by free. Take an active
context with no override pending, fewer than `VEDA_CNT_IDX` records, its cursor
within the index space, its device id within the device field and its helper
table loaded; let the transport complete successfully every call already
pending and the two calls of the allocation, and let no pending result
destination point into a deleted record. Then for `size > 0` and valid streams
`s`, `s2`: `memAlloc(size, s)` returns a pointer `p`, and `memFree(p, s2)` right
after it succeeds. It has first waited for every pending call of every stream,
the two calls of the allocation included; it then enqueues on `s2` the checked
`veda_mem_remove(p)` call and the asynchronous free of the address reported for
the `veda_mem_assign` call; all other pending lists are empty. Afterwards the
table has the same indices as before the `memAlloc`, holding the records as
`Context::sync` applied to the context before the `memAlloc` leaves them: a
record for which no result was pending is unchanged. -/
theorem memAlloc_then_memFree (L : Layout) (T : Transport) (c : Context) (size : Nat)
    (stream stream2 : Int)
    (hactive : c.isActive = true) (hover : c.m_memOverride = 0)
    (hcnt : c.m_ptrs.length < VEDA_CNT_IDX L) (hidx : c.m_memidx ≤ VEDA_CNT_IDX L)
    (hdevfit : c.m_device.vedaId < 2 ^ L.devBits)
    (hstream : 0 ≤ stream ∧ stream < (c.m_streams.length : Int))
    (hstream2 : 0 ≤ stream2 ∧ stream2 < (c.m_streams.length : Int))
    (hkern : c.m_kernels.length = VEDA_KERNEL_CNT) (hpos : 0 < size)
    (hT : T.completes (allCalls c.m_streams))
    (hw : T.waitStatus c.veo.issued.length = .VEO_COMMAND_OK ∧
      T.waitStatus (c.veo.issued.length + 1) = .VEO_COMMAND_OK)
    (hl : destsLive c.m_ptrs (allCalls c.m_streams)) :
    ∃ p st st2 assign remove,
      (c.memAlloc L T size stream).res = .ok p ∧
      c.m_streams[stream.toNat]? = some st ∧ c.m_streams[stream2.toNat]? = some st2 ∧
      c.kernel .VEDA_KERNEL_MEM_ASSIGN = .ok assign ∧
      c.kernel .VEDA_KERNEL_MEM_REMOVE = .ok remove ∧
      ((c.memAlloc L T size stream).ctx.memFree L T p stream2).res = .ok () ∧
      ((c.memAlloc L T size stream).ctx.memFree L T p stream2).ctx.veo.waited
        = c.veo.waited ++ (allCalls (c.memAlloc L T size stream).ctx.m_streams).map PendingCall.id ∧
      c.veo.issued.length + 1
        ∈ (allCalls (c.memAlloc L T size stream).ctx.m_streams).map PendingCall.id ∧
      ((c.memAlloc L T size stream).ctx.memFree L T p stream2).ctx.veo.issued
        = c.veo.issued ++
          [(st.m_ctx, .veo_alloc_mem_async size),
           (st.m_ctx, .veo_call_async assign [p, size]),
           (st2.m_ctx, .veo_call_async remove [p]),
           (st2.m_ctx, .veo_free_mem_async (T.waitResult (c.veo.issued.length + 1)))] ∧
      ((c.memAlloc L T size stream).ctx.memFree L T p stream2).ctx.m_streams
        = appendCall (appendCall (clearFrom 0 c.m_streams) stream2.toNat
            ⟨c.veo.issued.length + 2, true, none⟩) stream2.toNat
            ⟨c.veo.issued.length + 3, false, none⟩ ∧
      (∀ j, Ptrs.find ((c.memAlloc L T size stream).ctx.memFree L T p stream2).ctx.m_ptrs j
        = Ptrs.find (c.sync T).ctx.m_ptrs j) ∧
      (∀ j, Ptrs.find ((c.memAlloc L T size stream).ctx.memFree L T p stream2).ctx.m_ptrs j = none
        ↔ Ptrs.find c.m_ptrs j = none) ∧
      (∀ j info, Ptrs.find c.m_ptrs j = some info →
        (∀ e ∈ allCalls c.m_streams,
          e.result ≠ some (.ptr info.addr) ∧ e.result ≠ some (.size info.addr)) →
        Ptrs.find ((c.memAlloc L T size stream).ctx.memFree L T p stream2).ctx.m_ptrs j
          = some info) := by
  obtain ⟨idx, assign, hfree, hle, hassign, heq⟩ :=
    Context.memAlloc_pos_eq L T c size stream hover hcnt hidx hstream hkern hpos
  obtain ⟨remove, hremove⟩ := Context.kernel_ok c .VEDA_KERNEL_MEM_REMOVE hkern
  have hs1 : stream.toNat < c.m_streams.length := by omega
  have hs2 : stream2.toNat < c.m_streams.length := by omega
  have hst : c.m_streams[stream.toNat]? = some c.m_streams[stream.toNat] :=
    List.getElem?_eq_getElem hs1
  have hst2 : c.m_streams[stream2.toNat]? = some c.m_streams[stream2.toNat] :=
    List.getElem?_eq_getElem hs2
  -- the context after the allocation
  generalize hc1 : (c.memAlloc L T size stream).ctx = c1
  have hres1 : (c.memAlloc L T size stream).res = .ok (VEDA_SET_PTR L c.m_device.vedaId idx 0) := by
    rw [heq]
  rw [heq] at hc1
  simp only at hc1
  have hptrs1 : c1.m_ptrs = Ptrs.insert idx ⟨Ptrs.newAddr c.m_ptrs, ⟨0, size⟩⟩ c.m_ptrs := by
    rw [← hc1]; rfl
  have hstreams1 : c1.m_streams = appendCall (appendCall c.m_streams stream.toNat
      ⟨c.veo.issued.length, false, none⟩) stream.toNat
      ⟨c.veo.issued.length + 1, false, some (.ptr (Ptrs.newAddr c.m_ptrs))⟩ := by
    rw [← hc1]; simp [Context.enqueue]
  have hveo1 : c1.veo = { c.veo with issued := c.veo.issued ++
      [(c.m_streams[stream.toNat].m_ctx, .veo_alloc_mem_async size),
       (c.m_streams[stream.toNat].m_ctx,
        .veo_call_async assign [VEDA_SET_PTR L c.m_device.vedaId idx 0, size])] } := by
    rw [← hc1]
    simp [Context.enqueue, hst, appendCall_getElem?_self]
  have hkern1 : c1.m_kernels = c.m_kernels := by rw [← hc1]; rfl
  have hhandle1 : c1.m_handle = c.m_handle := by rw [← hc1]; rfl
  have hdevice1 : c1.m_device = c.m_device := by rw [← hc1]; rfl
  clear hc1 heq
  -- the pointer
  have hidxlt : idx < 2 ^ L.idxBits := lt_two_pow_of_le_cnt L hle
  have hofflt : 0 < 2 ^ L.offBits := Nat.pow_pos (by decide)
  have hpd := get_device_set_ptr L c.m_device.vedaId idx 0 hdevfit hidxlt hofflt
  have hpi := get_idx_set_ptr L c.m_device.vedaId idx 0 hidxlt hofflt
  have hpo := get_offset_set_ptr L c.m_device.vedaId idx 0 hofflt
  -- the synchronisation of the context after the allocation
  have hnolive := Ptrs.newAddr_not_live c.m_ptrs
  have hunt : ∀ x ∈ allCalls c.m_streams,
      x.result ≠ some (.ptr (Ptrs.newAddr c.m_ptrs)) ∧
      x.result ≠ some (.size (Ptrs.newAddr c.m_ptrs)) := by
    intro x hx
    constructor
    · intro h; exact hnolive (hl x hx _ h)
    · intro h; exact hnolive (hl x hx _ h)
  have hmem1 : ∀ x ∈ allCalls c1.m_streams, x ∈ allCalls c.m_streams ∨
      x = ⟨c.veo.issued.length, false, none⟩ ∨
      x = ⟨c.veo.issued.length + 1, false, some (.ptr (Ptrs.newAddr c.m_ptrs))⟩ := by
    intro x hx
    rw [hstreams1] at hx
    rcases mem_allCalls_appendCall _ _ _ _ hx with h | h
    · rcases mem_allCalls_appendCall _ _ _ _ h with h | h
      · exact Or.inl h
      · exact Or.inr (Or.inl h)
    · exact Or.inr (Or.inr h)
  have hT1 : T.completes (allCalls c1.m_streams) := by
    intro x hx
    rcases hmem1 x hx with h | h | h
    · exact hT x h
    · subst h; exact ⟨hw.1, by simp⟩
    · subst h; exact ⟨hw.2, by simp⟩
  have hl1 : destsLive c1.m_ptrs (allCalls c1.m_streams) := by
    intro x hx d hd
    rw [hptrs1]
    rcases hmem1 x hx with h | h | h
    · exact Dest.liveIn_insert _ _ _ _ (hl x h d hd)
    · subst h; simp at hd
    · subst h
      simp only [Option.some.injEq] at hd
      subst hd
      exact (Ptrs.live_insert _ _ _ _).mpr (Or.inl rfl)
  obtain ⟨hsync1, hsyncctx1⟩ := Context.sync_ok T c1 hT1 hl1
  obtain ⟨-, hsyncctx0⟩ := Context.sync_ok T c hT hl
  -- the record of the allocation after the synchronisation
  have hnew : InfoRef.resolve T (allCalls c1.m_streams) ⟨Ptrs.newAddr c.m_ptrs, ⟨0, size⟩⟩
      = ⟨Ptrs.newAddr c.m_ptrs, ⟨T.waitResult (c.veo.issued.length + 1), size⟩⟩ := by
    rw [hstreams1, InfoRef.resolve_allCalls_appendCall_target T _ _ _ _
      (by rw [appendCall_length]; exact hs1)]
    · simp [InfoRef.store]
    · intro x hx
      rcases mem_allCalls_appendCall _ _ _ _ hx with h | h
      · exact hunt x h
      · subst h; simp
  have hold : ∀ r : InfoRef, Ptrs.live c.m_ptrs r.addr = true →
      InfoRef.resolve T (allCalls c1.m_streams) r = InfoRef.resolve T (allCalls c.m_streams) r := by
    intro r hr
    have hra : Ptrs.newAddr c.m_ptrs ≠ r.addr := fun h => hnolive (by rw [h]; exact hr)
    rw [hstreams1,
      InfoRef.resolve_allCalls_appendCall_other T _ _ _ r.addr (by simp [hra]) r rfl,
      InfoRef.resolve_allCalls_appendCall_other T _ _ _ r.addr (by simp) r rfl]
  -- the release
  have hfind1 : Ptrs.find c1.m_ptrs (VEDA_GET_IDX L (VEDA_SET_PTR L c.m_device.vedaId idx 0))
      = some ⟨Ptrs.newAddr c.m_ptrs, ⟨0, size⟩⟩ := by
    rw [hpi, hptrs1, Ptrs.find_insert_self]
  have hfind2 : Ptrs.find (c1.sync T).ctx.m_ptrs
      (VEDA_GET_IDX L (VEDA_SET_PTR L c.m_device.vedaId idx 0))
      = some ⟨Ptrs.newAddr c.m_ptrs, ⟨T.waitResult (c.veo.issued.length + 1), size⟩⟩ := by
    rw [hsyncctx1]
    simp only
    rw [Ptrs.find_map, hfind1, Option.map_some', hnew]
  have hlen2 : (c1.sync T).ctx.m_streams.length = c.m_streams.length := by
    rw [hsyncctx1]
    simp only
    rw [clearFrom_length, hstreams1, appendCall_length, appendCall_length]
  have hstr2 : (c1.sync T).ctx.stream stream2 = .ok stream2.toNat :=
    Context.stream_ok _ _ (by rw [hlen2]; exact hstream2)
  have hk2 : (c1.sync T).ctx.kernel .VEDA_KERNEL_MEM_REMOVE = .ok remove := by
    rw [← hremove]
    apply Context.kernel_congr
    rw [hsyncctx1]
    exact hkern1
  have hfree2 := Context.memFree_sync_eq L T c1 (VEDA_SET_PTR L c.m_device.vedaId idx 0) stream2
    _ _ _ _ (by rw [hpd, hdevice1]) (by simpa [Context.isActive, hhandle1] using hactive)
    hpo hfind1 rfl (by simp only; omega) hsync1 hfind2 (by simp only; omega) hstr2 hk2
  have hc2 : (c1.memFree L T (VEDA_SET_PTR L c.m_device.vedaId idx 0) stream2).ctx =
      { ((c1.sync T).ctx.enqueue stream2.toNat
            (.veo_call_async remove [VEDA_SET_PTR L c.m_device.vedaId idx 0]) true none).enqueue
            stream2.toNat
            (.veo_free_mem_async (T.waitResult (c.veo.issued.length + 1))) false none with
        m_ptrs := Ptrs.erase (c1.sync T).ctx.m_ptrs idx } := by
    rw [hfree2, hpi]
  have hr2 : (c1.memFree L T (VEDA_SET_PTR L c.m_device.vedaId idx 0) stream2).res = .ok () := by
    rw [hfree2]
  clear hfree2
  have hss2 : (c1.sync T).ctx.m_streams = clearFrom 0 c.m_streams := by
    rw [hsyncctx1]
    simp only
    rw [hstreams1, clearFrom_zero_appendCall, clearFrom_zero_appendCall]
  have hget2 : (clearFrom 0 c.m_streams)[stream2.toNat]?
      = some { c.m_streams[stream2.toNat] with m_calls := [] } := by
    rw [clearFrom_zero_getElem?, hst2]; rfl
  have hissued2 : (c1.sync T).ctx.veo.issued = c.veo.issued ++
      [(c.m_streams[stream.toNat].m_ctx, .veo_alloc_mem_async size),
       (c.m_streams[stream.toNat].m_ctx,
        .veo_call_async assign [VEDA_SET_PTR L c.m_device.vedaId idx 0, size])] := by
    rw [hsyncctx1]
    simp only
    rw [hveo1]
  have htable : ∀ j,
      Ptrs.find (c1.memFree L T (VEDA_SET_PTR L c.m_device.vedaId idx 0) stream2).ctx.m_ptrs j
        = (Ptrs.find c.m_ptrs j).map (InfoRef.resolve T (allCalls c.m_streams)) := by
    intro j
    rw [hc2, hsyncctx1]
    simp only
    by_cases hj : j = idx
    · subst hj
      rw [Ptrs.find_erase_self, hfree]
      rfl
    · rw [Ptrs.find_erase_ne _ _ _ hj, Ptrs.find_map, hptrs1, Ptrs.find_insert_ne _ _ _ _ hj]
      cases hf : Ptrs.find c.m_ptrs j with
      | none => rfl
      | some r =>
        simp only [Option.map_some']
        rw [hold r (Ptrs.live_of_find _ _ _ hf)]
  refine ⟨VEDA_SET_PTR L c.m_device.vedaId idx 0, _, _, assign, remove, hres1, hst, hst2, hassign,
    hremove, hr2, ?_, ?_, ?_, ?_, ?_, ?_, ?_⟩
  · rw [hc2, hsyncctx1]
    simp [Context.enqueue, hveo1]
  · rw [hstreams1]
    exact List.mem_map.mpr ⟨_, mem_allCalls_appendCall_self _ _ _
      (by rw [appendCall_length]; exact hs1), rfl⟩
  · rw [hc2]
    simp [Context.enqueue, hss2, hget2, hissued2, appendCall_getElem?_self]
  · rw [hc2]
    simp [Context.enqueue, hss2, hissued2]
  · intro j
    rw [htable j, hsyncctx0]
    simp only
    rw [Ptrs.find_map]
  · intro j
    rw [htable j]
    cases Ptrs.find c.m_ptrs j <;> simp
  · intro j info hf hun
    rw [htable j, hf, Option.map_some', InfoRef.resolve_untargeted T _ _ hun]

/-- C6, counterexample. On the active context `Example.ctxPending` (no override,
one record out of three, every transport call succeeding), `memAlloc(16, 0)`
returns pointer 96 and `memFree(96, 0)` right after it succeeds, but the table
is not what it was before the `memAlloc`: the record under index 1, whose
allocation was still pending, now has the address 4097 instead of 0. -/
theorem memAlloc_then_memFree_counterexample :
    Example.ctxPending.isActive = true ∧ Example.ctxPending.m_memOverride = 0 ∧
    Example.ctxPending.m_ptrs.length < VEDA_CNT_IDX Example.layout ∧
    (Example.ctxPending.memAlloc Example.layout Example.transport 16 0).res = .ok 96 ∧
    ((Example.ctxPending.memAlloc Example.layout Example.transport 16 0).ctx.memFree
      Example.layout Example.transport 96 0).res = .ok () ∧
    Example.ctxPending.m_ptrs = [(1, ⟨1, ⟨0, 8⟩⟩)] ∧
    ((Example.ctxPending.memAlloc Example.layout Example.transport 16 0).ctx.memFree
      Example.layout Example.transport 96 0).ctx.m_ptrs = [(1, ⟨1, ⟨4097, 8⟩⟩)] := by
  decide

/-- C6, instance: 16 bytes on stream 0 of `Example.ctxPending`, freed on stream 1. -/
theorem memAlloc_then_memFree_witness :
    (Example.ctxPending.isActive = true ∧ Example.ctxPending.m_memOverride = 0 ∧
     Example.ctxPending.m_ptrs.length < VEDA_CNT_IDX Example.layout ∧
     Example.ctxPending.m_memidx ≤ VEDA_CNT_IDX Example.layout ∧
     Example.ctxPending.m_device.vedaId < 2 ^ Example.layout.devBits ∧
     (0 ≤ (0 : Int) ∧ (0 : Int) < (Example.ctxPending.m_streams.length : Int)) ∧
     (0 ≤ (1 : Int) ∧ (1 : Int) < (Example.ctxPending.m_streams.length : Int)) ∧
     Example.ctxPending.m_kernels.length = VEDA_KERNEL_CNT ∧ 0 < 16 ∧
     Example.transport.completes (allCalls Example.ctxPending.m_streams) ∧
     (Example.transport.waitStatus Example.ctxPending.veo.issued.length = .VEO_COMMAND_OK ∧
      Example.transport.waitStatus (Example.ctxPending.veo.issued.length + 1)
        = .VEO_COMMAND_OK) ∧
     destsLive Example.ctxPending.m_ptrs (allCalls Example.ctxPending.m_streams)) ∧
    (
∃ p st st2 assign remove,
      (Example.ctxPending.memAlloc Example.layout Example.transport 16 (0 : Int)).res = .ok p ∧
      Example.ctxPending.m_streams[(0 : Int).toNat]? = some st ∧ Example.ctxPending.m_streams[(1 : Int).toNat]? = some st2 ∧
      Example.ctxPending.kernel .VEDA_KERNEL_MEM_ASSIGN = .ok assign ∧
      Example.ctxPending.kernel .VEDA_KERNEL_MEM_REMOVE = .ok remove ∧
      ((Example.ctxPending.memAlloc Example.layout Example.transport 16 (0 : Int)).ctx.memFree Example.layout Example.transport p (1 : Int)).res = .ok () ∧
      ((Example.ctxPending.memAlloc Example.layout Example.transport 16 (0 : Int)).ctx.memFree Example.layout Example.transport p (1 : Int)).ctx.veo.waited
        = Example.ctxPending.veo.waited ++ (allCalls (Example.ctxPending.memAlloc Example.layout Example.transport 16 (0 : Int)).ctx.m_streams).map PendingCall.id ∧
      Example.ctxPending.veo.issued.length + 1
        ∈ (allCalls (Example.ctxPending.memAlloc Example.layout Example.transport 16 (0 : Int)).ctx.m_streams).map PendingCall.id ∧
      ((Example.ctxPending.memAlloc Example.layout Example.transport 16 (0 : Int)).ctx.memFree Example.layout Example.transport p (1 : Int)).ctx.veo.issued
        = Example.ctxPending.veo.issued ++
          [(st.m_ctx, .veo_alloc_mem_async 16),
           (st.m_ctx, .veo_call_async assign [p, 16]),
           (st2.m_ctx, .veo_call_async remove [p]),
           (st2.m_ctx, .veo_free_mem_async (Example.transport.waitResult (Example.ctxPending.veo.issued.length + 1)))] ∧
      ((Example.ctxPending.memAlloc Example.layout Example.transport 16 (0 : Int)).ctx.memFree Example.layout Example.transport p (1 : Int)).ctx.m_streams
        = appendCall (appendCall (clearFrom 0 Example.ctxPending.m_streams) (1 : Int).toNat
            ⟨Example.ctxPending.veo.issued.length + 2, true, none⟩) (1 : Int).toNat
            ⟨Example.ctxPending.veo.issued.length + 3, false, none⟩ ∧
      (∀ j, Ptrs.find ((Example.ctxPending.memAlloc Example.layout Example.transport 16 (0 : Int)).ctx.memFree Example.layout Example.transport p (1 : Int)).ctx.m_ptrs j
        = Ptrs.find (Example.ctxPending.sync Example.transport).ctx.m_ptrs j) ∧
      (∀ j, Ptrs.find ((Example.ctxPending.memAlloc Example.layout Example.transport 16 (0 : Int)).ctx.memFree Example.layout Example.transport p (1 : Int)).ctx.m_ptrs j = none
        ↔ Ptrs.find Example.ctxPending.m_ptrs j = none) ∧
      (∀ j info, Ptrs.find Example.ctxPending.m_ptrs j = some info →
        (∀ e ∈ allCalls Example.ctxPending.m_streams,
          e.result ≠ some (.ptr info.addr) ∧ e.result ≠ some (.size info.addr)) →
        Ptrs.find ((Example.ctxPending.memAlloc Example.layout Example.transport 16 (0 : Int)).ctx.memFree Example.layout Example.transport p (1 : Int)).ctx.m_ptrs j
          = some info)) :=
  ⟨⟨by decide, by decide, by decide, by decide, by decide, by decide, by decide, by decide,
    by decide, Example.ctxPending_completes, ⟨rfl, rfl⟩, Example.ctxPending_destsLive⟩,
   memAlloc_then_memFree Example.layout Example.transport Example.ctxPending 16 0 1
     (by decide) (by decide) (by decide) (by decide) (by decide) (by decide) (by decide)
     (by decide) (by decide) Example.ctxPending_completes ⟨rfl, rfl⟩
     Example.ctxPending_destsLive⟩

/-- C7. On a context that is not active, `memFree` of any pointer of the
context's device returns without error and leaves the whole context unchanged:
no record removed, nothing enqueued, nothing waited for. -/
theorem memFree_inactive (L : Layout) (T : Transport) (c : Context) (vptr : Nat) (stream : Int)
    (hinactive : c.isActive = false) (hdev : VEDA_GET_DEVICE L vptr = c.m_device.vedaId) :
    (c.memFree L T vptr stream).res = .ok () ∧ (c.memFree L T vptr stream).ctx = c := by
  simp [Context.memFree, hinactive, hdev]

/-- C7, instance: pointer 83 (index 1, offset 3) on the destroyed context. -/
theorem memFree_inactive_witness :
    (Example.ctxDestroyed.isActive = false ∧
     VEDA_GET_DEVICE Example.layout 83 = Example.ctxDestroyed.m_device.vedaId) ∧
    ((Example.ctxDestroyed.memFree Example.layout Example.transport 83 0).res = .ok () ∧
     (Example.ctxDestroyed.memFree Example.layout Example.transport 83 0).ctx
        = Example.ctxDestroyed) :=
  ⟨⟨by decide, by decide⟩,
   memFree_inactive Example.layout Example.transport Example.ctxDestroyed 83 0
     (by decide) (by decide)⟩

/-- C8, counterexample. On the active context `Example.ctxTwo`, pointer 80 was
returned by `memAlloc`; `memFree(80)` succeeds, and the record under the other
index, 2, is not left unchanged: the synchronisation made by `memFree` has
stored into it the address reported for its own pending allocation. -/
theorem memFree_other_record_counterexample :
    Example.ctxTwo.isActive = true ∧
    (Example.ctx.memAlloc Example.layout Example.transport 16 0).res = .ok 80 ∧
    (Example.ctxTwo.memFree Example.layout Example.transport 80 0).res = .ok () ∧
    Ptrs.find Example.ctxTwo.m_ptrs 2 = some ⟨2, ⟨0, 8⟩⟩ ∧
    Ptrs.find (Example.ctxTwo.memFree Example.layout Example.transport 80 0).ctx.m_ptrs 2
      = some ⟨2, ⟨4099, 8⟩⟩ := by
  decide

/-- C8, amended. On an active context:
* `memFree` of a zero-offset pointer of the context's device whose index is not
  in the table fails with `VEDA_ERROR_UNKNOWN_VPTR` and leaves the context
  unchanged;
* a successful `memFree(p)` removes the record at the index of `p`; every other
  index keeps its record object; the contents of the other records are
  unchanged when the record of `p` needed no synchronisation (address set, or
  size 0), and are those that `Context::sync` leaves when it did (address unset
  and size non-zero);
* a second `memFree(p)` right after, on any stream, fails with
  `VEDA_ERROR_UNKNOWN_VPTR` and leaves the context unchanged. -/
theorem memFree_removes_record (L : Layout) (T : Transport) (c : Context) (vptr : Nat)
    (stream stream2 : Int) (hactive : c.isActive = true) :
    (VEDA_GET_DEVICE L vptr = c.m_device.vedaId → VEDA_GET_OFFSET L vptr = 0 →
      Ptrs.find c.m_ptrs (VEDA_GET_IDX L vptr) = none →
      (c.memFree L T vptr stream).res = .fail (.thrown .VEDA_ERROR_UNKNOWN_VPTR) ∧
      (c.memFree L T vptr stream).ctx = c) ∧
    ((c.memFree L T vptr stream).res = .ok () →
      Ptrs.find (c.memFree L T vptr stream).ctx.m_ptrs (VEDA_GET_IDX L vptr) = none ∧
      (∀ j, j ≠ VEDA_GET_IDX L vptr →
        (Ptrs.find (c.memFree L T vptr stream).ctx.m_ptrs j).map InfoRef.addr
          = (Ptrs.find c.m_ptrs j).map InfoRef.addr) ∧
      (∀ info, Ptrs.find c.m_ptrs (VEDA_GET_IDX L vptr) = some info →
        (info.info.ptr ≠ 0 ∨ info.info.size = 0) →
        ∀ j, j ≠ VEDA_GET_IDX L vptr →
          Ptrs.find (c.memFree L T vptr stream).ctx.m_ptrs j = Ptrs.find c.m_ptrs j) ∧
      (∀ info, Ptrs.find c.m_ptrs (VEDA_GET_IDX L vptr) = some info →
        info.info.ptr = 0 → info.info.size ≠ 0 →
        ∀ j, j ≠ VEDA_GET_IDX L vptr →
          Ptrs.find (c.memFree L T vptr stream).ctx.m_ptrs j
            = Ptrs.find (c.sync T).ctx.m_ptrs j) ∧
      ((c.memFree L T vptr stream).ctx.memFree L T vptr stream2).res
        = .fail (.thrown .VEDA_ERROR_UNKNOWN_VPTR) ∧
      ((c.memFree L T vptr stream).ctx.memFree L T vptr stream2).ctx
        = (c.memFree L T vptr stream).ctx) := by
  have hunknown : ∀ (c' : Context) (s : Int), c'.isActive = true →
      VEDA_GET_DEVICE L vptr = c'.m_device.vedaId → VEDA_GET_OFFSET L vptr = 0 →
      Ptrs.find c'.m_ptrs (VEDA_GET_IDX L vptr) = none →
      (c'.memFree L T vptr s).res = .fail (.thrown .VEDA_ERROR_UNKNOWN_VPTR) ∧
      (c'.memFree L T vptr s).ctx = c' := by
    intro c' s ha hd ho hf
    simp [Context.memFree, ha, hd, ho, hf]
  refine ⟨hunknown c stream hactive, fun hok => ?_⟩
  obtain ⟨hdev, hoff, info0, hfind, -, hptrs, hhandle, hdevice⟩ :=
    Context.memFree_ok_cases L T c vptr stream hactive hok
  have hgone : Ptrs.find (c.memFree L T vptr stream).ctx.m_ptrs (VEDA_GET_IDX L vptr) = none := by
    rw [hptrs]; exact Ptrs.find_erase_self _ _
  have hact' : (c.memFree L T vptr stream).ctx.isActive = true := by
    simpa [Context.isActive, hhandle] using hactive
  refine ⟨hgone, fun j hj => ?_, fun info hi hcase j hj => ?_, fun info hi h1 h2 j hj => ?_,
    hunknown _ stream2 hact' (by rw [hdevice]; exact hdev) hoff hgone⟩
  · rw [hptrs, Ptrs.find_erase_ne _ _ _ hj]
    split
    · exact Ptrs.find_addr_of_shape _ _ (Context.sync_frame T c).shape j
    · rfl
  · rw [hfind] at hi
    cases hi
    have hneed : ¬ (info0.info.ptr = 0 ∧ info0.info.size ≠ 0) := by
      rintro ⟨h1, h2⟩
      rcases hcase with h | h
      · exact h h1
      · exact h2 h
    rw [hptrs, Ptrs.find_erase_ne _ _ _ hj, if_neg hneed]
  · rw [hfind] at hi
    cases hi
    rw [hptrs, Ptrs.find_erase_ne _ _ _ hj, if_pos ⟨h1, h2⟩]

/-- C8, instance: `memFree(80)` on `Example.ctxTwo`, then once more on stream 1. -/
theorem memFree_removes_record_witness :
    (Example.ctxTwo.isActive = true ∧
     (Example.ctxTwo.memFree Example.layout Example.transport 80 0).res = .ok ()) ∧
    (Ptrs.find (Example.ctxTwo.memFree Example.layout Example.transport 80 0).ctx.m_ptrs
        (VEDA_GET_IDX Example.layout 80) = none ∧
      (∀ j, j ≠ VEDA_GET_IDX Example.layout 80 →
        (Ptrs.find (Example.ctxTwo.memFree Example.layout Example.transport 80 0).ctx.m_ptrs
            j).map InfoRef.addr
          = (Ptrs.find Example.ctxTwo.m_ptrs j).map InfoRef.addr) ∧
      (∀ info, Ptrs.find Example.ctxTwo.m_ptrs (VEDA_GET_IDX Example.layout 80) = some info →
        (info.info.ptr ≠ 0 ∨ info.info.size = 0) →
        ∀ j, j ≠ VEDA_GET_IDX Example.layout 80 →
          Ptrs.find (Example.ctxTwo.memFree Example.layout Example.transport 80 0).ctx.m_ptrs j
            = Ptrs.find Example.ctxTwo.m_ptrs j) ∧
      (∀ info, Ptrs.find Example.ctxTwo.m_ptrs (VEDA_GET_IDX Example.layout 80) = some info →
        info.info.ptr = 0 → info.info.size ≠ 0 →
        ∀ j, j ≠ VEDA_GET_IDX Example.layout 80 →
          Ptrs.find (Example.ctxTwo.memFree Example.layout Example.transport 80 0).ctx.m_ptrs j
            = Ptrs.find (Example.ctxTwo.sync Example.transport).ctx.m_ptrs j) ∧
      ((Example.ctxTwo.memFree Example.layout Example.transport 80 0).ctx.memFree
          Example.layout Example.transport 80 1).res
        = .fail (.thrown .VEDA_ERROR_UNKNOWN_VPTR) ∧
      ((Example.ctxTwo.memFree Example.layout Example.transport 80 0).ctx.memFree
          Example.layout Example.transport 80 1).ctx
        = (Example.ctxTwo.memFree Example.layout Example.transport 80 0).ctx) :=
  ⟨⟨by decide, by decide⟩,
   (memFree_removes_record Example.layout Example.transport Example.ctxTwo 80 0 1
     (by decide)).2 (by decide)⟩

/-- C9. On an active context, `memFree` of a pointer of the context's device with
a non-zero byte offset fails with `VEDA_ERROR_OFFSETTED_VPTR_NOT_ALLOWED`,
whether or not its index is in the table, and leaves the whole context
unchanged. -/
theorem memFree_offsetted (L : Layout) (T : Transport) (c : Context) (vptr : Nat) (stream : Int)
    (hactive : c.isActive = true) (hdev : VEDA_GET_DEVICE L vptr = c.m_device.vedaId)
    (hoff : VEDA_GET_OFFSET L vptr ≠ 0) :
    (c.memFree L T vptr stream).res = .fail (.thrown .VEDA_ERROR_OFFSETTED_VPTR_NOT_ALLOWED) ∧
    (c.memFree L T vptr stream).ctx = c := by
  simp [Context.memFree, hactive, hdev, hoff]

/-- C9, instance: pointer 83 (index 1, which is in the table, offset 3) on
`Example.ctxTwo`. -/
theorem memFree_offsetted_witness :
    (Example.ctxTwo.isActive = true ∧
     VEDA_GET_DEVICE Example.layout 83 = Example.ctxTwo.m_device.vedaId ∧
     VEDA_GET_OFFSET Example.layout 83 ≠ 0 ∧
     Ptrs.find Example.ctxTwo.m_ptrs (VEDA_GET_IDX Example.layout 83) ≠ none) ∧
    ((Example.ctxTwo.memFree Example.layout Example.transport 83 0).res
        = .fail (.thrown .VEDA_ERROR_OFFSETTED_VPTR_NOT_ALLOWED) ∧
     (Example.ctxTwo.memFree Example.layout Example.transport 83 0).ctx = Example.ctxTwo) :=
  ⟨⟨by decide, by decide, by decide, by decide⟩,
   memFree_offsetted Example.layout Example.transport Example.ctxTwo 83 0
     (by decide) (by decide) (by decide)⟩

/-- C10 (the code departs from the claim). `Context::memSwap` has no test of
the byte offset, unlike `memFree` and `setMemOverride`. On the active context
`Example.ctxTwo`, `memSwap` of pointer 81 (index 1, byte offset 1) and pointer
96 (index 2) does not fail with an offsetted-pointer error: it returns without
error and has exchanged the records of the indices 1 and 2, whereas `memFree`
of that same pointer 81 is refused with
`VEDA_ERROR_OFFSETTED_VPTR_NOT_ALLOWED`. -/
theorem memSwap_accepts_offset :
    Example.ctxTwo.isActive = true ∧
    VEDA_GET_OFFSET Example.layout 81 ≠ 0 ∧
    (Example.ctxTwo.memSwap Example.layout 81 96 0).res = .ok () ∧
    Ptrs.find Example.ctxTwo.m_ptrs 1 = some ⟨1, ⟨0, 16⟩⟩ ∧
    Ptrs.find Example.ctxTwo.m_ptrs 2 = some ⟨2, ⟨0, 8⟩⟩ ∧
    Ptrs.find (Example.ctxTwo.memSwap Example.layout 81 96 0).ctx.m_ptrs 1 = some ⟨2, ⟨0, 8⟩⟩ ∧
    Ptrs.find (Example.ctxTwo.memSwap Example.layout 81 96 0).ctx.m_ptrs 2 = some ⟨1, ⟨0, 16⟩⟩ ∧
    (Example.ctxTwo.memFree Example.layout Example.transport 81 0).res
      = .fail (.thrown .VEDA_ERROR_OFFSETTED_VPTR_NOT_ALLOWED) := by
  decide

/-- The extent of the missing test: `memSwap` looks only at the indices of `A`
and `B` and never throws an offsetted-pointer error. Whatever the offsets:
when both indices are in the table (stream valid, helper table loaded) it
returns without error and has exchanged the two records; when one of the
indices is not in the table it throws `VEDA_ERROR_UNKNOWN_VPTR` and leaves the
context unchanged. -/
theorem Context.memSwap_ignores_offsets (L : Layout) (c : Context) (A B : Nat) (stream : Int)
    (hstream : 0 ≤ stream ∧ stream < (c.m_streams.length : Int))
    (hkern : c.m_kernels.length = VEDA_KERNEL_CNT) :
    (c.memSwap L A B stream).res ≠ .fail (.thrown .VEDA_ERROR_OFFSETTED_VPTR_NOT_ALLOWED) ∧
    (c.memSwap L A B stream).res ≠ .fail (.thrown .VEDA_ERROR_OFFSET_NOT_ALLOWED) ∧
    (∀ a b, Ptrs.find c.m_ptrs (VEDA_GET_IDX L A) = some a →
      Ptrs.find c.m_ptrs (VEDA_GET_IDX L B) = some b →
      (c.memSwap L A B stream).res = .ok () ∧
      Ptrs.find (c.memSwap L A B stream).ctx.m_ptrs (VEDA_GET_IDX L A) = some b ∧
      Ptrs.find (c.memSwap L A B stream).ctx.m_ptrs (VEDA_GET_IDX L B) = some a) ∧
    ((Ptrs.find c.m_ptrs (VEDA_GET_IDX L A) = none ∨
      Ptrs.find c.m_ptrs (VEDA_GET_IDX L B) = none) →
      (c.memSwap L A B stream).res = .fail (.thrown .VEDA_ERROR_UNKNOWN_VPTR) ∧
      (c.memSwap L A B stream).ctx = c) := by
  have hs1 : stream.toNat < c.m_streams.length := by omega
  have hs2 : 0 ≤ stream ∧ stream ≤ (c.m_streams.length : Int) := by omega
  obtain ⟨swap, hswap⟩ := Context.kernel_ok c .VEDA_KERNEL_MEM_SWAP hkern
  have hk2 : ¬ VEDA_KERNEL_CNT ≤ Kernel.toNat .VEDA_KERNEL_MEM_SWAP := by decide
  have hk : c.m_kernels[Kernel.toNat .VEDA_KERNEL_MEM_SWAP]? = some swap := by
    simp only [Context.kernel, hk2, if_false] at hswap
    split at hswap
    · next f hf => simp at hswap; rw [hf, hswap]
    · simp at hswap
  cases ha : Ptrs.find c.m_ptrs (VEDA_GET_IDX L A) with
  | none => simp [Context.memSwap, ha]
  | some a =>
    cases hb : Ptrs.find c.m_ptrs (VEDA_GET_IDX L B) with
    | none => simp [Context.memSwap, ha, hb]
    | some b =>
      simp only [Context.memSwap, ha, hb, Context.stream, hs1, hs2, Context.kernel, hk, hk2,
        and_self, if_true, if_false, Context.enqueue_m_ptrs, ne_eq, not_false_eq_true,
        true_and, Option.some.injEq, reduceCtorEq, or_self, false_implies, and_true]
      intro a' b' ha' hb'
      subst ha' hb'
      by_cases hAB : VEDA_GET_IDX L A = VEDA_GET_IDX L B
      · have hab : a = b := by rw [hAB, hb] at ha; exact (Option.some.inj ha).symm
        subst hab
        rw [← hAB, Ptrs.find_assign_self, Ptrs.find_assign_self, ha]
        simp
      · rw [Ptrs.find_assign_ne _ _ _ _ hAB, Ptrs.find_assign_self, ha,
          Ptrs.find_assign_self, Ptrs.find_assign_ne _ _ _ _ (Ne.symm hAB), hb]
        simp

/-! ## Lemmas: exchanging two bindings -/

theorem Ptrs.assign_of_find (m : Ptrs) (i : Nat) (v : InfoRef) (h : Ptrs.find m i = some v) :
    Ptrs.assign m i v = m := by
  induction m with
  | nil => rfl
  | cons e m ih =>
    obtain ⟨k, w⟩ := e
    by_cases hk : k = i
    · simp only [Ptrs.find, hk, if_true, Option.some.injEq] at h
      simp [Ptrs.assign, hk, h]
    · simp only [Ptrs.find, hk, if_false] at h
      simp [Ptrs.assign, hk, ih h]

theorem Ptrs.assign_assign (m : Ptrs) (i : Nat) (v w : InfoRef) :
    Ptrs.assign (Ptrs.assign m i v) i w = Ptrs.assign m i w := by
  induction m with
  | nil => rfl
  | cons e m ih =>
    obtain ⟨k, u⟩ := e
    by_cases hk : k = i
    · simp [Ptrs.assign, hk]
    · simp [Ptrs.assign, hk, ih]

theorem Ptrs.assign_comm (m : Ptrs) (i j : Nat) (v w : InfoRef) (h : i ≠ j) :
    Ptrs.assign (Ptrs.assign m i v) j w = Ptrs.assign (Ptrs.assign m j w) i v := by
  induction m with
  | nil => rfl
  | cons e m ih =>
    obtain ⟨k, u⟩ := e
    by_cases hi : k = i
    · subst hi
      simp [Ptrs.assign, h]
    · by_cases hj : k = j
      · subst hj
        simp [Ptrs.assign, hi]
      · simp [Ptrs.assign, hi, hj, ih]

theorem Ptrs.keys_assign (m : Ptrs) (i : Nat) (v : InfoRef) :
    (Ptrs.assign m i v).map Prod.fst = m.map Prod.fst := by
  induction m with
  | nil => rfl
  | cons e m ih =>
    obtain ⟨k, u⟩ := e
    by_cases hk : k = i
    · simp [Ptrs.assign, hk]
    · simp [Ptrs.assign, hk, ih]

/-- The table after the exchange of the bindings of `i` and `j`. -/
theorem Ptrs.find_swap (m : Ptrs) (i j : Nat) (a b : InfoRef)
    (ha : Ptrs.find m i = some a) (hb : Ptrs.find m j = some b) :
    Ptrs.find (Ptrs.assign (Ptrs.assign m i b) j a) i = some b ∧
    Ptrs.find (Ptrs.assign (Ptrs.assign m i b) j a) j = some a ∧
    ∀ k, k ≠ i → k ≠ j → Ptrs.find (Ptrs.assign (Ptrs.assign m i b) j a) k = Ptrs.find m k := by
  have h1 : Ptrs.find (Ptrs.assign m i b) i = some b := by
    rw [Ptrs.find_assign_self, ha]; rfl
  refine ⟨?_, ?_, ?_⟩
  · by_cases hij : i = j
    · subst hij
      have hab : a = b := by rw [ha] at hb; exact Option.some.inj hb
      rw [Ptrs.find_assign_self, h1, hab]; rfl
    · rw [Ptrs.find_assign_ne _ _ _ _ hij, h1]
  · by_cases hij : i = j
    · subst hij
      rw [Ptrs.find_assign_self, h1]; rfl
    · have h2 : Ptrs.find (Ptrs.assign m i b) j = some b := by
        rw [Ptrs.find_assign_ne _ _ _ _ (fun h => hij h.symm), hb]
      rw [Ptrs.find_assign_self, h2]; rfl
  · intro k hki hkj
    rw [Ptrs.find_assign_ne _ _ _ _ hkj, Ptrs.find_assign_ne _ _ _ _ hki]

/-- Exchanging the bindings of `i` and `j` twice gives the table back. -/
theorem Ptrs.swap_swap (m : Ptrs) (i j : Nat) (a b : InfoRef)
    (ha : Ptrs.find m i = some a) (hb : Ptrs.find m j = some b) :
    Ptrs.assign (Ptrs.assign (Ptrs.assign (Ptrs.assign m i b) j a) i a) j b = m := by
  by_cases hij : i = j
  · subst hij
    rw [Ptrs.assign_assign, Ptrs.assign_assign, Ptrs.assign_assign]
    exact Ptrs.assign_of_find m i b hb
  · rw [Ptrs.assign_comm (Ptrs.assign m i b) j i a a (fun h => hij h.symm),
      Ptrs.assign_assign, Ptrs.assign_assign, Ptrs.assign_of_find m i a ha,
      Ptrs.assign_of_find m j b hb]

/-- The outcome of `memSwap` when both indices are in the table, the stream
exists and the helper table is loaded. -/
theorem Context.memSwap_eq (L : Layout) (c : Context) (A B : Nat) (stream : Int)
    (a b : InfoRef)
    (hstream : 0 ≤ stream ∧ stream < (c.m_streams.length : Int))
    (hkern : c.m_kernels.length = VEDA_KERNEL_CNT)
    (hA : Ptrs.find c.m_ptrs (VEDA_GET_IDX L A) = some a)
    (hB : Ptrs.find c.m_ptrs (VEDA_GET_IDX L B) = some b) :
    ∃ swap, c.kernel .VEDA_KERNEL_MEM_SWAP = .ok swap ∧
      c.memSwap L A B stream =
        ⟨.ok (), Context.enqueue
          { c with m_ptrs := (c.m_ptrs.assign (VEDA_GET_IDX L A) b).assign (VEDA_GET_IDX L B) a }
          stream.toNat (.veo_call_async swap [A, B]) true none⟩ := by
  obtain ⟨swap, hswap⟩ := Context.kernel_ok c .VEDA_KERNEL_MEM_SWAP hkern
  refine ⟨swap, hswap, ?_⟩
  have hs : ∀ m : Ptrs, ({ c with m_ptrs := m } : Context).stream stream = .ok stream.toNat :=
    fun m => Context.stream_ok _ stream hstream
  have hk : ∀ m : Ptrs,
      ({ c with m_ptrs := m } : Context).kernel .VEDA_KERNEL_MEM_SWAP = .ok swap :=
    fun m => (Context.kernel_congr _ c _ rfl).trans hswap
  simp only [Context.memSwap, hA, hB, hs, hk]

/-! ## C11: bounds of host copies -/

/-- C11 (the code departs from the claim). The bounds test of `memcpyD2H` and `memcpyH2D`
adds the byte count and the offset as `size_t`, so the sum wraps at `2^64`.
In `Example.ctxResolved` the record of index 1 has address 4097 and size 16;
pointer 81 designates it with offset 1. A copy of `SIZE_MAX = 2^64 - 1` bytes
through that pointer is far out of bounds (`1 + SIZE_MAX > 16`), yet the
wrapped sum is 0: both directions return without error and hand the transport a
read, respectively a write, of `SIZE_MAX` bytes at address 4098. -/
theorem memcpy_bounds_wrap :
    Ptrs.find Example.ctxResolved.m_ptrs (VEDA_GET_IDX Example.layout 81) = some ⟨1, ⟨4097, 16⟩⟩ ∧
    VEDA_GET_DEVICE Example.layout 81 = Example.ctxResolved.m_device.vedaId ∧
    VEDA_GET_OFFSET Example.layout 81 = 1 ∧
    Example.SIZE_MAX < 2 ^ 64 ∧
    16 < 1 + Example.SIZE_MAX ∧
    (Example.ctxResolved.memcpyD2H Example.layout Example.transport 1000 81 Example.SIZE_MAX 0).res
      = .ok () ∧
    (Example.ctxResolved.memcpyD2H Example.layout Example.transport 1000 81 Example.SIZE_MAX 0).ctx.veo.issued
      = Example.ctxResolved.veo.issued ++ [(9, .veo_async_read_mem 1000 4098 Example.SIZE_MAX)] ∧
    (Example.ctxResolved.memcpyH2D Example.layout Example.transport 81 1000 Example.SIZE_MAX 0).res
      = .ok () ∧
    (Example.ctxResolved.memcpyH2D Example.layout Example.transport 81 1000 Example.SIZE_MAX 0).ctx.veo.issued
      = Example.ctxResolved.veo.issued ++ [(9, .veo_async_write_mem 4098 1000 Example.SIZE_MAX)] := by
  decide

/-! ## C12, C13: exchange of two records -/

/-- C12. On a context whose helper table is loaded, for a stream of the context
and two pointers whose indices are both in the table: `memSwap(A, B, s)`
returns without error; afterwards the record under the index of `A` is the
one that was under the index of `B` and conversely, every other index has its
record as before and the table has the same indices; exactly one call, with
`checkResult` set and no result destination, has been appended to stream `s`
(the `veda_mem_swap` helper with arguments `A`, `B`), every other stream is as
before; and a second `memSwap(A, B)` gives the original table back. -/
theorem memSwap_exchanges (L : Layout) (c : Context) (A B : Nat) (stream stream2 : Int)
    (a b : InfoRef)
    (hstream : 0 ≤ stream ∧ stream < (c.m_streams.length : Int))
    (hstream2 : 0 ≤ stream2 ∧ stream2 < (c.m_streams.length : Int))
    (hkern : c.m_kernels.length = VEDA_KERNEL_CNT)
    (hA : Ptrs.find c.m_ptrs (VEDA_GET_IDX L A) = some a)
    (hB : Ptrs.find c.m_ptrs (VEDA_GET_IDX L B) = some b) :
    (c.memSwap L A B stream).res = .ok () ∧
    Ptrs.find (c.memSwap L A B stream).ctx.m_ptrs (VEDA_GET_IDX L A) = some b ∧
    Ptrs.find (c.memSwap L A B stream).ctx.m_ptrs (VEDA_GET_IDX L B) = some a ∧
    (∀ j, j ≠ VEDA_GET_IDX L A → j ≠ VEDA_GET_IDX L B →
      Ptrs.find (c.memSwap L A B stream).ctx.m_ptrs j = Ptrs.find c.m_ptrs j) ∧
    (c.memSwap L A B stream).ctx.m_ptrs.map Prod.fst = c.m_ptrs.map Prod.fst ∧
    (c.memSwap L A B stream).ctx.m_streams
      = appendCall c.m_streams stream.toNat ⟨c.veo.issued.length, true, none⟩ ∧
    (∃ st swap, c.m_streams[stream.toNat]? = some st ∧
      c.kernel .VEDA_KERNEL_MEM_SWAP = .ok swap ∧
      (c.memSwap L A B stream).ctx.m_streams[stream.toNat]?
        = some { st with m_calls := st.m_calls ++ [⟨c.veo.issued.length, true, none⟩] } ∧
      (c.memSwap L A B stream).ctx.veo.issued
        = c.veo.issued ++ [(st.m_ctx, .veo_call_async swap [A, B])]) ∧
    (∀ t, t ≠ stream.toNat → (c.memSwap L A B stream).ctx.m_streams[t]? = c.m_streams[t]?) ∧
    ((c.memSwap L A B stream).ctx.memSwap L A B stream2).res = .ok () ∧
    ((c.memSwap L A B stream).ctx.memSwap L A B stream2).ctx.m_ptrs = c.m_ptrs := by
  obtain ⟨swap, hswap, heq⟩ := Context.memSwap_eq L c A B stream a b hstream hkern hA hB
  obtain ⟨hfA, hfB, hfo⟩ := Ptrs.find_swap c.m_ptrs _ _ a b hA hB
  have hs1 : stream.toNat < c.m_streams.length := by omega
  have hst : c.m_streams[stream.toNat]? = some c.m_streams[stream.toNat] :=
    List.getElem?_eq_getElem hs1
  generalize hc1 : (c.memSwap L A B stream).ctx = c1
  have hres : (c.memSwap L A B stream).res = .ok () := by rw [heq]
  rw [heq] at hc1
  simp only at hc1
  have hptrs : c1.m_ptrs
      = Ptrs.assign (Ptrs.assign c.m_ptrs (VEDA_GET_IDX L A) b) (VEDA_GET_IDX L B) a := by
    rw [← hc1]; rfl
  have hstreams : c1.m_streams
      = appendCall c.m_streams stream.toNat ⟨c.veo.issued.length, true, none⟩ := by
    rw [← hc1]; rfl
  have hissued : c1.veo.issued
      = c.veo.issued ++ [(c.m_streams[stream.toNat].m_ctx, .veo_call_async swap [A, B])] := by
    rw [← hc1]; simp [Context.enqueue, hst]
  have hkern1 : c1.m_kernels.length = VEDA_KERNEL_CNT := by rw [← hc1]; exact hkern
  have hlen1 : c1.m_streams.length = c.m_streams.length := by
    rw [hstreams, appendCall_length]
  have hA1 : Ptrs.find c1.m_ptrs (VEDA_GET_IDX L A) = some b := by rw [hptrs]; exact hfA
  have hB1 : Ptrs.find c1.m_ptrs (VEDA_GET_IDX L B) = some a := by rw [hptrs]; exact hfB
  obtain ⟨swap2, _, heq2⟩ := Context.memSwap_eq L c1 A B stream2 b a
    (by rw [hlen1]; exact hstream2) hkern1 hA1 hB1
  refine ⟨hres, hA1, hB1, ?_, ?_, hstreams, ⟨_, swap, hst, hswap, ?_, hissued⟩, ?_, ?_, ?_⟩
  · intro j hjA hjB; rw [hptrs]; exact hfo j hjA hjB
  · rw [hptrs, Ptrs.keys_assign, Ptrs.keys_assign]
  · rw [hstreams, appendCall_getElem?_self, hst]; rfl
  · intro t ht; rw [hstreams]; exact appendCall_getElem?_ne _ _ _ _ ht
  · rw [heq2]
  · rw [heq2]
    show Ptrs.assign (Ptrs.assign c1.m_ptrs (VEDA_GET_IDX L A) a) (VEDA_GET_IDX L B) b = c.m_ptrs
    rw [hptrs]
    exact Ptrs.swap_swap c.m_ptrs _ _ a b hA hB

/-- C12, instance: the two pending allocations of `Example.ctxTwo` (pointers
80 and 96) are exchanged on stream 0, then exchanged back on stream 1. -/
theorem memSwap_exchanges_witness :
    (Example.ctxTwo.isActive = true ∧
      Ptrs.find Example.ctxTwo.m_ptrs (VEDA_GET_IDX Example.layout 80) = some ⟨1, ⟨0, 16⟩⟩ ∧
      Ptrs.find Example.ctxTwo.m_ptrs (VEDA_GET_IDX Example.layout 96) = some ⟨2, ⟨0, 8⟩⟩) ∧
    (Example.ctxTwo.memSwap Example.layout 80 96 0).res = .ok () ∧
    Ptrs.find (Example.ctxTwo.memSwap Example.layout 80 96 0).ctx.m_ptrs
      (VEDA_GET_IDX Example.layout 80) = some ⟨2, ⟨0, 8⟩⟩ ∧
    Ptrs.find (Example.ctxTwo.memSwap Example.layout 80 96 0).ctx.m_ptrs
      (VEDA_GET_IDX Example.layout 96) = some ⟨1, ⟨0, 16⟩⟩ ∧
    ((Example.ctxTwo.memSwap Example.layout 80 96 0).ctx.memSwap Example.layout 80 96 1).ctx.m_ptrs
      = Example.ctxTwo.m_ptrs :=
  have h := memSwap_exchanges Example.layout Example.ctxTwo 80 96 0 1 ⟨1, ⟨0, 16⟩⟩ ⟨2, ⟨0, 8⟩⟩
    (by decide) (by decide) (by decide) (by decide) (by decide)
  ⟨by decide, h.1, h.2.1, h.2.2.1, h.2.2.2.2.2.2.2.2.2⟩

/-- C13. When the index of `A` or the index of `B` is not in the table,
`memSwap(A, B, s)` throws `VEDA_ERROR_UNKNOWN_VPTR` and leaves the whole
context as it was: the table, the pending list of every stream and the log of
requests are unchanged. -/
theorem memSwap_unknown (L : Layout) (c : Context) (A B : Nat) (stream : Int)
    (h : Ptrs.find c.m_ptrs (VEDA_GET_IDX L A) = none ∨
      Ptrs.find c.m_ptrs (VEDA_GET_IDX L B) = none) :
    (c.memSwap L A B stream).res = .fail (.thrown .VEDA_ERROR_UNKNOWN_VPTR) ∧
    (c.memSwap L A B stream).ctx = c ∧
    (c.memSwap L A B stream).ctx.m_ptrs = c.m_ptrs ∧
    (c.memSwap L A B stream).ctx.m_streams = c.m_streams ∧
    (c.memSwap L A B stream).ctx.veo.issued = c.veo.issued := by
  have key : c.memSwap L A B stream = ⟨.fail (.thrown .VEDA_ERROR_UNKNOWN_VPTR), c⟩ := by
    rcases h with h | h
    · simp only [Context.memSwap, h]
    · cases hA : Ptrs.find c.m_ptrs (VEDA_GET_IDX L A) with
      | none => simp only [Context.memSwap, hA]
      | some a => simp only [Context.memSwap, hA, h]
  rw [key]
  exact ⟨rfl, rfl, rfl, rfl, rfl⟩

/-- C13, instance: in `Example.ctxTwo` index 1 (pointer 80) is in the table
and index 3 (pointer 112) is not; the exchange is refused in either order. -/
theorem memSwap_unknown_witness :
    (Example.ctxTwo.isActive = true ∧
      Ptrs.find Example.ctxTwo.m_ptrs (VEDA_GET_IDX Example.layout 80) ≠ none ∧
      Ptrs.find Example.ctxTwo.m_ptrs (VEDA_GET_IDX Example.layout 112) = none) ∧
    ((Example.ctxTwo.memSwap Example.layout 80 112 0).res
        = .fail (.thrown .VEDA_ERROR_UNKNOWN_VPTR) ∧
      (Example.ctxTwo.memSwap Example.layout 80 112 0).ctx = Example.ctxTwo) ∧
    ((Example.ctxTwo.memSwap Example.layout 112 80 0).res
        = .fail (.thrown .VEDA_ERROR_UNKNOWN_VPTR) ∧
      (Example.ctxTwo.memSwap Example.layout 112 80 0).ctx = Example.ctxTwo) :=
  have h1 := memSwap_unknown Example.layout Example.ctxTwo 80 112 0 (Or.inr (by decide))
  have h2 := memSwap_unknown Example.layout Example.ctxTwo 112 80 0 (Or.inl (by decide))
  ⟨by decide, ⟨h1.1, h1.2.1⟩, ⟨h2.1, h2.2.1⟩⟩

/-! ## Lemmas: lazy resolution -/

theorem queryOf_cons (b : Nat × InfoRef) (m : Ptrs) (e : PendingCall) (h : queryOf m e) :
    queryOf (b :: m) e := by
  obtain ⟨h1, b', hb', h2⟩ := h
  exact ⟨h1, b', List.mem_cons_of_mem _ hb', h2⟩

/-- With a stream 0 and a loaded helper table the scan of `syncPtrs` runs to its
end, and the only calls it adds to the pending lists are queries for records of
the table. -/
theorem Context.syncPtrsLoop_ok (L : Layout) (m : Ptrs) :
    ∀ (c : Context) (syn : Bool), 0 < c.m_streams.length →
      c.m_kernels.length = VEDA_KERNEL_CNT →
      ∃ syn', (Context.syncPtrsLoop L m c syn).res = .ok syn' ∧
        ∀ e ∈ allCalls (Context.syncPtrsLoop L m c syn).ctx.m_streams,
          e ∈ allCalls c.m_streams ∨ queryOf m e := by
  induction m with
  | nil => intro c syn _ _; exact ⟨syn, rfl, fun e he => Or.inl he⟩
  | cons b m ih =>
    intro c syn hs hk
    obtain ⟨idx, r⟩ := b
    rw [Context.syncPtrsLoop]
    by_cases hp : r.info.ptr = 0
    · by_cases hz : r.info.size = 0
      · have hst : c.stream 0 = .ok 0 :=
          Context.stream_ok c 0 ⟨le_refl _, by exact_mod_cast hs⟩
        obtain ⟨fptr, hfptr⟩ := Context.kernel_ok c .VEDA_KERNEL_MEM_PTR hk
        obtain ⟨fsize, hfsize⟩ := Context.kernel_ok
          (c.enqueue 0 (.veo_call_async fptr [VEDA_SET_PTR L c.m_device.vedaId idx 0]) false
            (some (.ptr r.addr))) .VEDA_KERNEL_MEM_SIZE hk
        simp only [hp, hz, if_true, hst, hfptr, hfsize]
        obtain ⟨syn', h1, h2⟩ := ih
          ((c.enqueue 0 (.veo_call_async fptr [VEDA_SET_PTR L c.m_device.vedaId idx 0]) false
            (some (.ptr r.addr))).enqueue 0
            (.veo_call_async fsize [VEDA_SET_PTR L c.m_device.vedaId idx 0]) false
            (some (.size r.addr))) true
          (by simp only [Context.enqueue, appendCall_length]; exact hs) hk
        refine ⟨syn', h1, ?_⟩
        intro e he
        rcases h2 e he with h | h
        · rcases mem_allCalls_appendCall _ _ _ _ h with h | rfl
          · rcases mem_allCalls_appendCall _ _ _ _ h with h | rfl
            · exact Or.inl h
            · exact Or.inr ⟨rfl, (idx, r), List.mem_cons_self _ _, hp, hz, Or.inl rfl⟩
          · exact Or.inr ⟨rfl, (idx, r), List.mem_cons_self _ _, hp, hz, Or.inr rfl⟩
        · exact Or.inr (queryOf_cons _ _ _ h)
      · simp only [hp, hz, if_true, if_false]
        obtain ⟨syn', h1, h2⟩ := ih c true hs hk
        exact ⟨syn', h1, fun e he => (h2 e he).imp id (queryOf_cons _ _ _)⟩
    · simp only [hp, if_false]
      obtain ⟨syn', h1, h2⟩ := ih c syn hs hk
      exact ⟨syn', h1, fun e he => (h2 e he).imp id (queryOf_cons _ _ _)⟩

/-- With a stream 0, a loaded helper table, a transport that reports every wait
as complete, pending checked calls that were successful and pending result
destinations that are live, `syncPtrs` returns without error; the table it
leaves is the table with the results of some calls stored, each of them a call
that was pending or a query of `syncPtrs` itself. -/
theorem Context.syncPtrs_ok (L : Layout) (T : Transport) (c : Context)
    (hs : 0 < c.m_streams.length) (hk : c.m_kernels.length = VEDA_KERNEL_CNT)
    (hwait : ∀ id, T.waitStatus id = .VEO_COMMAND_OK)
    (hchk : ∀ e ∈ allCalls c.m_streams, e.checkResult = true → T.waitResult e.id = 0)
    (hl : destsLive c.m_ptrs (allCalls c.m_streams)) :
    (c.syncPtrs L T).res = .ok () ∧
    ∃ calls, (∀ e ∈ calls, e ∈ allCalls c.m_streams ∨ queryOf c.m_ptrs e) ∧
      (c.syncPtrs L T).ctx.m_ptrs
        = c.m_ptrs.map (fun b => (b.1, InfoRef.resolve T calls b.2)) := by
  obtain ⟨syn', h1, h2⟩ := Context.syncPtrsLoop_ok L c.m_ptrs c false hs hk
  obtain ⟨_, hm, _, _⟩ := Context.syncPtrsLoop_frame L c.m_ptrs c false
  unfold Context.syncPtrs
  simp only [h1]
  by_cases hsyn : syn' = true
  · simp only [hsyn, if_true]
    have hT : T.completes (allCalls (Context.syncPtrsLoop L c.m_ptrs c false).ctx.m_streams) := by
      intro e he
      refine ⟨hwait _, fun hc => ?_⟩
      rcases h2 e he with h | h
      · exact hchk e h hc
      · rw [h.1] at hc; cases hc
    have hl' : destsLive (Context.syncPtrsLoop L c.m_ptrs c false).ctx.m_ptrs
        (allCalls (Context.syncPtrsLoop L c.m_ptrs c false).ctx.m_streams) := by
      intro e he d hd
      rw [hm]
      rcases h2 e he with h | h
      · exact hl e h d hd
      · obtain ⟨_, b, hb, _, _, hr⟩ := h
        have hlive : Ptrs.live c.m_ptrs b.2.addr = true := (Ptrs.live_iff _ _).2 ⟨b, hb, rfl⟩
        rcases hr with hr | hr
        · rw [hr] at hd; cases hd; exact hlive
        · rw [hr] at hd; cases hd; exact hlive
    obtain ⟨s1, s2⟩ := Context.sync_ok T _ hT hl'
    refine ⟨s1, _, h2, ?_⟩
    rw [s2, hm]
  · have hsyn' : syn' = false := by simpa using hsyn
    simp only [hsyn', Bool.false_eq_true, if_false]
    refine ⟨trivial, [], fun e he => absurd he (List.not_mem_nil e), ?_⟩
    rw [hm]
    exact (Ptrs.map_id_snd c.m_ptrs).symm

theorem InfoRef.resolve_size (T : Transport) (es : List PendingCall) (r : InfoRef)
    (h : ∀ e ∈ es, e.result ≠ some (.size r.addr)) :
    (InfoRef.resolve T es r).info.size = r.info.size := by
  induction es generalizing r with
  | nil => rfl
  | cons e es ih =>
    have he := h e (List.mem_cons_self _ _)
    have hst : (r.store e.result (T.waitResult e.id)).info.size = r.info.size ∧
        (r.store e.result (T.waitResult e.id)).addr = r.addr := by
      unfold InfoRef.store
      split
      · split <;> exact ⟨rfl, rfl⟩
      · next a heq =>
        split
        · next hra => exact absurd (by rw [heq, hra]) he
        · exact ⟨rfl, rfl⟩
      · exact ⟨rfl, rfl⟩
    rw [InfoRef.resolve, ih _ (fun x hx => by rw [hst.2]; exact h x (List.mem_cons_of_mem _ hx)),
      hst.1]

/-- The size `getPtr` reports for a pointer whose record has a non-zero size
that no pending call and no query of `syncPtrs` can overwrite: it is the size
in the record, whether the address is set or not. -/
theorem Context.getPtr_size (L : Layout) (T : Transport) (c : Context) (vptr : Nat) (r : InfoRef)
    (hdev : VEDA_GET_DEVICE L vptr = c.m_device.vedaId)
    (hfind : Ptrs.find c.m_ptrs (VEDA_GET_IDX L vptr) = some r)
    (hs : 0 < c.m_streams.length) (hk : c.m_kernels.length = VEDA_KERNEL_CNT)
    (hwait : ∀ id, T.waitStatus id = .VEO_COMMAND_OK)
    (hchk : ∀ e ∈ allCalls c.m_streams, e.checkResult = true → T.waitResult e.id = 0)
    (hl : destsLive c.m_ptrs (allCalls c.m_streams))
    (huniq : ∀ b ∈ c.m_ptrs, b.2.addr = r.addr → b.2.info.size ≠ 0)
    (hpend : ∀ e ∈ allCalls c.m_streams, e.result ≠ some (.size r.addr)) :
    ∃ info, (c.getPtr L T vptr).res = .ok info ∧ info.size = r.info.size := by
  unfold Context.getPtr
  simp only [hdev, ne_eq, not_true_eq_false, if_false, hfind]
  by_cases hp : r.info.ptr = 0
  · obtain ⟨h1, calls, hcalls, hm⟩ := Context.syncPtrs_ok L T c hs hk hwait hchk hl
    have hfind1 : Ptrs.find (c.syncPtrs L T).ctx.m_ptrs (VEDA_GET_IDX L vptr)
        = some (InfoRef.resolve T calls r) := by
      rw [hm, Ptrs.find_map, hfind]; rfl
    have hsz : (InfoRef.resolve T calls r).info.size = r.info.size := by
      apply InfoRef.resolve_size
      intro e he
      rcases hcalls e he with h | h
      · exact hpend e h
      · obtain ⟨_, b, hb, _, hz, hr⟩ := h
        intro heq
        rcases hr with hr | hr
        · rw [hr] at heq; cases heq
        · rw [hr] at heq
          have : b.2.addr = r.addr := by
            have := Option.some.inj heq
            exact Dest.size.inj this
          exact huniq b hb this hz
    simp only [hp, if_true, h1, hfind1]
    split
    · exact ⟨_, rfl, hsz⟩
    · exact ⟨_, rfl, hsz⟩
  · simp only [hp, if_false, hfind]
    exact ⟨_, rfl, rfl⟩

/-! ## C14: the size reported for a new allocation -/

theorem allCalls_clearFrom_zero (ss : List Stream) : allCalls (clearFrom 0 ss) = [] := by
  induction ss with
  | nil => rfl
  | cons st rest ih => simp [clearFrom, allCalls, ih]

/-- The context `memAlloc` of a non-zero size leaves on its normal path, with
what the pending calls of that context inherit from those of the context
before. -/
theorem Context.memAlloc_pos_state (L : Layout) (T : Transport) (c : Context) (size : Nat)
    (stream : Int) (hover : c.m_memOverride = 0) (hcnt : c.m_ptrs.length < VEDA_CNT_IDX L)
    (hidx : c.m_memidx ≤ VEDA_CNT_IDX L) (hdevfit : c.m_device.vedaId < 2 ^ L.devBits)
    (hstream : 0 ≤ stream ∧ stream < (c.m_streams.length : Int))
    (hkern : c.m_kernels.length = VEDA_KERNEL_CNT) (hpos : 0 < size)
    (hchk : ∀ e ∈ allCalls c.m_streams, e.checkResult = true → T.waitResult e.id = 0)
    (hl : destsLive c.m_ptrs (allCalls c.m_streams)) :
    ∃ p c1, c.memAlloc L T size stream = ⟨.ok p, c1⟩ ∧
      VEDA_GET_DEVICE L p = c1.m_device.vedaId ∧
      c1.m_ptrs = Ptrs.insert (VEDA_GET_IDX L p) ⟨Ptrs.newAddr c.m_ptrs, ⟨0, size⟩⟩ c.m_ptrs ∧
      Ptrs.find c.m_ptrs (VEDA_GET_IDX L p) = none ∧
      c1.m_streams = appendCall (appendCall c.m_streams stream.toNat
        ⟨c.veo.issued.length, false, none⟩) stream.toNat
        ⟨c.veo.issued.length + 1, false, some (.ptr (Ptrs.newAddr c.m_ptrs))⟩ ∧
      c1.m_kernels.length = VEDA_KERNEL_CNT ∧
      (∀ e ∈ allCalls c1.m_streams, e.checkResult = true → T.waitResult e.id = 0) ∧
      destsLive c1.m_ptrs (allCalls c1.m_streams) ∧
      (∀ b ∈ c1.m_ptrs, b.2.addr = Ptrs.newAddr c.m_ptrs →
        b.2 = ⟨Ptrs.newAddr c.m_ptrs, ⟨0, size⟩⟩) ∧
      (∀ e ∈ allCalls (appendCall c.m_streams stream.toNat ⟨c.veo.issued.length, false, none⟩),
        e.result ≠ some (.ptr (Ptrs.newAddr c.m_ptrs)) ∧
        e.result ≠ some (.size (Ptrs.newAddr c.m_ptrs))) ∧
      (∀ e ∈ allCalls c1.m_streams, e.result ≠ some (.size (Ptrs.newAddr c.m_ptrs))) := by
  obtain ⟨idx, assign, hfree, hle, _, heq⟩ :=
    Context.memAlloc_pos_eq L T c size stream hover hcnt hidx hstream hkern hpos
  have hidxlt : idx < 2 ^ L.idxBits := lt_two_pow_of_le_cnt L hle
  have hofflt : 0 < 2 ^ L.offBits := Nat.pow_pos (by decide)
  have hpd := get_device_set_ptr L c.m_device.vedaId idx 0 hdevfit hidxlt hofflt
  have hpi := get_idx_set_ptr L c.m_device.vedaId idx 0 hidxlt hofflt
  have hnolive := Ptrs.newAddr_not_live c.m_ptrs
  have hunt : ∀ x ∈ allCalls c.m_streams,
      x.result ≠ some (.ptr (Ptrs.newAddr c.m_ptrs)) ∧
      x.result ≠ some (.size (Ptrs.newAddr c.m_ptrs)) := by
    intro x hx
    exact ⟨fun h => hnolive (hl x hx _ h), fun h => hnolive (hl x hx _ h)⟩
  have hmem0 : ∀ x ∈ allCalls (appendCall c.m_streams stream.toNat
      ⟨c.veo.issued.length, false, none⟩),
      x ∈ allCalls c.m_streams ∨ x = ⟨c.veo.issued.length, false, none⟩ :=
    fun x hx => mem_allCalls_appendCall _ _ _ _ hx
  have hmem1 : ∀ x ∈ allCalls (appendCall (appendCall c.m_streams stream.toNat
      ⟨c.veo.issued.length, false, none⟩) stream.toNat
      ⟨c.veo.issued.length + 1, false, some (.ptr (Ptrs.newAddr c.m_ptrs))⟩),
      x ∈ allCalls c.m_streams ∨ x = ⟨c.veo.issued.length, false, none⟩ ∨
      x = ⟨c.veo.issued.length + 1, false, some (.ptr (Ptrs.newAddr c.m_ptrs))⟩ := by
    intro x hx
    rcases mem_allCalls_appendCall _ _ _ _ hx with h | h
    · rcases hmem0 x h with h | h
      · exact Or.inl h
      · exact Or.inr (Or.inl h)
    · exact Or.inr (Or.inr h)
  refine ⟨_, _, heq, ?_, ?_, ?_, ?_, hkern, ?_, ?_, ?_, ?_, ?_⟩
  · exact hpd
  · show Ptrs.insert idx _ c.m_ptrs = _
    rw [hpi]
  · rw [hpi]; exact hfree
  · simp [Context.enqueue]
  · intro e he hc
    have he' : e ∈ allCalls (appendCall (appendCall c.m_streams stream.toNat
        ⟨c.veo.issued.length, false, none⟩) stream.toNat
        ⟨c.veo.issued.length + 1, false, some (.ptr (Ptrs.newAddr c.m_ptrs))⟩) := by
      simpa [Context.enqueue] using he
    rcases hmem1 e he' with h | rfl | rfl
    · exact hchk e h hc
    · cases hc
    · cases hc
  · intro e he d hd
    have he' : e ∈ allCalls (appendCall (appendCall c.m_streams stream.toNat
        ⟨c.veo.issued.length, false, none⟩) stream.toNat
        ⟨c.veo.issued.length + 1, false, some (.ptr (Ptrs.newAddr c.m_ptrs))⟩) := by
      simpa [Context.enqueue] using he
    show d.liveIn (Ptrs.insert idx _ c.m_ptrs)
    rcases hmem1 e he' with h | rfl | rfl
    · exact Dest.liveIn_insert _ _ _ _ (hl e h d hd)
    · cases hd
    · cases hd
      exact (Ptrs.live_insert _ _ _ _).2 (Or.inl rfl)
  · intro b hb hba
    have hb' : b ∈ Ptrs.insert idx ⟨Ptrs.newAddr c.m_ptrs, ⟨0, size⟩⟩ c.m_ptrs := hb
    rcases (Ptrs.mem_insert _ _ _ _).1 hb' with h | h
    · rw [h]
    · exact absurd ((Ptrs.live_iff _ _).2 ⟨b, h, hba⟩) hnolive
  · intro e he
    rcases hmem0 e he with h | rfl
    · exact hunt e h
    · exact ⟨(fun h => by cases h), (fun h => by cases h)⟩
  · intro e he
    have he' : e ∈ allCalls (appendCall (appendCall c.m_streams stream.toNat
        ⟨c.veo.issued.length, false, none⟩) stream.toNat
        ⟨c.veo.issued.length + 1, false, some (.ptr (Ptrs.newAddr c.m_ptrs))⟩) := by
      simpa [Context.enqueue] using he
    rcases hmem1 e he' with h | rfl | rfl
    · exact (hunt e h).2
    · intro h; cases h
    · intro h; cases h

/-- C14. On a context with no override pending, room in the table, its cursor
within the index space, a stream `s` and a loaded helper table, with a
transport that reports every wait as complete, the pending checked calls
successful and the pending result destinations live: for every size `N > 0`,
`memAlloc(N, s)` returns a pointer `p` whose record is `{0, N}`, the address
not yet known. `getPtr(p)` called in that state (it forces the lazy resolution)
reports the size `N`. A synchronisation of the context stores the address
reported for the allocation into the record, whose size is still `N`, and
`getPtr(p)` called after it reports the size `N` again. -/
theorem getPtr_reports_size (L : Layout) (T : Transport) (c : Context) (N : Nat) (stream : Int)
    (hover : c.m_memOverride = 0) (hcnt : c.m_ptrs.length < VEDA_CNT_IDX L)
    (hidx : c.m_memidx ≤ VEDA_CNT_IDX L) (hdevfit : c.m_device.vedaId < 2 ^ L.devBits)
    (hstream : 0 ≤ stream ∧ stream < (c.m_streams.length : Int))
    (hkern : c.m_kernels.length = VEDA_KERNEL_CNT) (hpos : 0 < N)
    (hwait : ∀ id, T.waitStatus id = .VEO_COMMAND_OK)
    (hchk : ∀ e ∈ allCalls c.m_streams, e.checkResult = true → T.waitResult e.id = 0)
    (hl : destsLive c.m_ptrs (allCalls c.m_streams)) :
    ∃ p, (c.memAlloc L T N stream).res = .ok p ∧
      Ptrs.find (c.memAlloc L T N stream).ctx.m_ptrs (VEDA_GET_IDX L p)
        = some ⟨Ptrs.newAddr c.m_ptrs, ⟨0, N⟩⟩ ∧
      (∃ info, ((c.memAlloc L T N stream).ctx.getPtr L T p).res = .ok info ∧ info.size = N) ∧
      ((c.memAlloc L T N stream).ctx.sync T).res = .ok () ∧
      Ptrs.find ((c.memAlloc L T N stream).ctx.sync T).ctx.m_ptrs (VEDA_GET_IDX L p)
        = some ⟨Ptrs.newAddr c.m_ptrs, ⟨T.waitResult (c.veo.issued.length + 1), N⟩⟩ ∧
      (∃ info, (((c.memAlloc L T N stream).ctx.sync T).ctx.getPtr L T p).res = .ok info ∧
        info.size = N) := by
  obtain ⟨p, c1, heq, hdev, hptrs, hfree, hstreams, hkern1, hchk1, hl1, huniq1, hunt0, hpend1⟩ :=
    Context.memAlloc_pos_state L T c N stream hover hcnt hidx hdevfit hstream hkern hpos hchk hl
  have hN : N ≠ 0 := by omega
  have hs1 : stream.toNat < c.m_streams.length := by omega
  have hlen1 : 0 < c1.m_streams.length := by
    rw [hstreams, appendCall_length, appendCall_length]; omega
  have hfind1 : Ptrs.find c1.m_ptrs (VEDA_GET_IDX L p)
      = some ⟨Ptrs.newAddr c.m_ptrs, ⟨0, N⟩⟩ := by
    rw [hptrs]; exact Ptrs.find_insert_self _ _ _
  rw [heq]
  refine ⟨p, rfl, hfind1, ?_, ?_⟩
  · -- before the address is known
    have h := Context.getPtr_size L T c1 p ⟨Ptrs.newAddr c.m_ptrs, ⟨0, N⟩⟩ hdev hfind1 hlen1
      hkern1 hwait hchk1 hl1
      (fun b hb hba => by rw [huniq1 b hb hba]; exact hN) hpend1
    exact h
  · -- after a synchronisation
    have hT1 : T.completes (allCalls c1.m_streams) :=
      fun e he => ⟨hwait _, hchk1 e he⟩
    obtain ⟨s1, s2⟩ := Context.sync_ok T c1 hT1 hl1
    have hres : InfoRef.resolve T (allCalls c1.m_streams) ⟨Ptrs.newAddr c.m_ptrs, ⟨0, N⟩⟩
        = ⟨Ptrs.newAddr c.m_ptrs, ⟨T.waitResult (c.veo.issued.length + 1), N⟩⟩ := by
      rw [hstreams, InfoRef.resolve_allCalls_appendCall_target T _ _ _ _
        (by rw [appendCall_length]; exact hs1) hunt0]
      simp [InfoRef.store]
    have hfind2 : Ptrs.find (c1.sync T).ctx.m_ptrs (VEDA_GET_IDX L p)
        = some ⟨Ptrs.newAddr c.m_ptrs, ⟨T.waitResult (c.veo.issued.length + 1), N⟩⟩ := by
      rw [s2]
      show Ptrs.find (c1.m_ptrs.map _) _ = _
      rw [Ptrs.find_map, hfind1, Option.map_some', hres]
    refine ⟨s1, hfind2, ?_⟩
    have h := Context.getPtr_size L T (c1.sync T).ctx p
      ⟨Ptrs.newAddr c.m_ptrs, ⟨T.waitResult (c.veo.issued.length + 1), N⟩⟩
      (by rw [s2]; exact hdev) hfind2
      (by rw [s2]; show 0 < (clearFrom 0 c1.m_streams).length; rw [clearFrom_length]; exact hlen1)
      (by rw [s2]; exact hkern1) hwait
      (by rw [s2]; show ∀ e ∈ allCalls (clearFrom 0 c1.m_streams), _
          rw [allCalls_clearFrom_zero]; intro e he; cases he)
      (by rw [s2]; show destsLive _ (allCalls (clearFrom 0 c1.m_streams))
          rw [allCalls_clearFrom_zero]; intro e he; cases he)
      (by
        rw [s2]
        show ∀ b ∈ c1.m_ptrs.map _, _
        intro b hb hba
        obtain ⟨b0, hb0, rfl⟩ := List.mem_map.1 hb
        have ha : b0.2.addr = Ptrs.newAddr c.m_ptrs := by
          simpa [InfoRef.resolve_addr] using hba
        have hb2 := huniq1 b0 hb0 ha
        show (InfoRef.resolve T (allCalls c1.m_streams) b0.2).info.size ≠ 0
        rw [hb2, hres]; exact hN)
      (by rw [s2]; show ∀ e ∈ allCalls (clearFrom 0 c1.m_streams), _
          rw [allCalls_clearFrom_zero]; intro e he; cases he)
    exact h

/-- C14, instance: in `Example.ctxPending` (one allocation pending on stream
1), `memAlloc(16, 0)` returns pointer 96; the size reported for it is 16 before
and after the synchronisation that stores its address 4099. -/
theorem getPtr_reports_size_witness :
    (Example.ctxPending.isActive = true ∧ Example.ctxPending.m_memOverride = 0 ∧
      Example.ctxPending.m_ptrs.length < VEDA_CNT_IDX Example.layout ∧
      Example.ctxPending.m_memidx ≤ VEDA_CNT_IDX Example.layout ∧
      Example.ctxPending.m_device.vedaId < 2 ^ Example.layout.devBits ∧
      (0 ≤ (0 : Int) ∧ (0 : Int) < (Example.ctxPending.m_streams.length : Int)) ∧
      Example.ctxPending.m_kernels.length = VEDA_KERNEL_CNT ∧ 0 < 16) ∧
    (Example.ctxPending.memAlloc Example.layout Example.transport 16 0).res = .ok 96 ∧
    Example.transport.waitResult (Example.ctxPending.veo.issued.length + 1) = 4099 ∧
    ∃ p, (Example.ctxPending.memAlloc Example.layout Example.transport 16 0).res = .ok p ∧
      Ptrs.find (Example.ctxPending.memAlloc Example.layout Example.transport 16 0).ctx.m_ptrs
          (VEDA_GET_IDX Example.layout p)
        = some ⟨Ptrs.newAddr Example.ctxPending.m_ptrs, ⟨0, 16⟩⟩ ∧
      (∃ info, ((Example.ctxPending.memAlloc Example.layout Example.transport 16 0).ctx.getPtr
          Example.layout Example.transport p).res = .ok info ∧ info.size = 16) ∧
      ((Example.ctxPending.memAlloc Example.layout Example.transport 16 0).ctx.sync
          Example.transport).res = .ok () ∧
      Ptrs.find ((Example.ctxPending.memAlloc Example.layout Example.transport 16 0).ctx.sync
          Example.transport).ctx.m_ptrs (VEDA_GET_IDX Example.layout p)
        = some ⟨Ptrs.newAddr Example.ctxPending.m_ptrs,
            ⟨Example.transport.waitResult (Example.ctxPending.veo.issued.length + 1), 16⟩⟩ ∧
      (∃ info, (((Example.ctxPending.memAlloc Example.layout Example.transport 16 0).ctx.sync
          Example.transport).ctx.getPtr Example.layout Example.transport p).res = .ok info ∧
        info.size = 16) :=
  ⟨by decide, by decide, by decide,
    getPtr_reports_size Example.layout Example.transport Example.ctxPending 16 0
      (by decide) (by decide) (by decide) (by decide) (by decide) (by decide) (by decide)
      (fun _ => rfl) (fun e he hc => (Example.ctxPending_completes e he).2 hc)
      Example.ctxPending_destsLive⟩

/-! ## C15: synchronisation of one stream -/

theorem clearCalls_getElem?_self (ss : List Stream) (s : Nat) :
    (clearCalls ss s)[s]? = ss[s]?.map (fun st => { st with m_calls := [] }) := by
  induction ss generalizing s with
  | nil => simp [clearCalls]
  | cons st rest ih =>
    cases s with
    | zero => simp [clearCalls]
    | succ n => simpa [clearCalls] using ih n

theorem clearCalls_getElem?_ne (ss : List Stream) (s t : Nat) (h : t ≠ s) :
    (clearCalls ss s)[t]? = ss[t]? := by
  induction ss generalizing s t with
  | nil => simp [clearCalls]
  | cons st rest ih =>
    cases s with
    | zero =>
      cases t with
      | zero => exact absurd rfl h
      | succ m => simp [clearCalls]
    | succ n =>
      cases t with
      | zero => simp [clearCalls]
      | succ m => simpa [clearCalls] using ih n m (fun hmn => h (by rw [hmn]))

/-- C15, counterexample. In `Example.ctxMixed` the only entry of
stream 0 with `checkResult` set is request 4, and with `Example.transportLost`
it completes with `VEDA_SUCCESS`; yet the wait for request 5, an entry without
`checkResult`, is reported as failed by the transport: `Stream::sync` throws
`VEDA_ERROR_VEO_COMMAND_ERROR` out of `Stream::wait`, request 6 is not waited
on and the pending list keeps its five entries. -/
theorem sync_drains_counterexample :
    Example.ctxMixed.m_streams[0]?.map Stream.m_calls
      = some [⟨0, false, none⟩, ⟨1, false, some (.ptr 1)⟩, ⟨4, true, none⟩, ⟨5, false, none⟩,
          ⟨6, false, some (.ptr 3)⟩] ∧
    Example.transportLost.waitStatus 4 = .VEO_COMMAND_OK ∧
    VEDAresult.ofRaw Example.transportLost.statusValue (Example.transportLost.waitResult 4)
      = .VEDA_SUCCESS ∧
    (Stream.sync Example.transportLost Example.ctxMixed 0).res
      = .fail (.thrown .VEDA_ERROR_VEO_COMMAND_ERROR) ∧
    (Stream.sync Example.transportLost Example.ctxMixed 0).ctx.veo.waited = [0, 1, 4, 5] ∧
    (Stream.sync Example.transportLost Example.ctxMixed 0).ctx.m_streams
      = Example.ctxMixed.m_streams := by
  decide

/-- C15, amended. For a stream whose pending calls all succeed (every wait is
reported `VEO_COMMAND_OK` by the transport and the raw result of every entry
with `checkResult` set, cast to `VEDAresult`, is the status `VEDA_SUCCESS`)
and whose result destinations designate live objects, `Stream::sync` returns
without error; it has waited on the request id of each entry once, in the
order of the list; it has stored the raw result of each entry that has a
destination into that destination, in that order, and nothing else: a record
that is the destination of no entry is unchanged; the pending list of the
stream is empty afterwards, the other streams are as before and no request has
been issued. -/
theorem sync_drains (T : Transport) (c : Context) (s : Nat) (st : Stream)
    (hst : c.m_streams[s]? = some st)
    (hT : T.succeeds st.m_calls) (hl : destsLive c.m_ptrs st.m_calls) :
    (Stream.sync T c s).res = .ok () ∧
    (Stream.sync T c s).ctx.veo.waited = c.veo.waited ++ st.m_calls.map PendingCall.id ∧
    (Stream.sync T c s).ctx.veo.stored = c.veo.stored ++ storesOf T st.m_calls ∧
    (Stream.sync T c s).ctx.m_ptrs
      = c.m_ptrs.map (fun b => (b.1, InfoRef.resolve T st.m_calls b.2)) ∧
    (∀ j r, Ptrs.find c.m_ptrs j = some r →
      (∀ e ∈ st.m_calls, e.result ≠ some (.ptr r.addr) ∧ e.result ≠ some (.size r.addr)) →
      Ptrs.find (Stream.sync T c s).ctx.m_ptrs j = some r) ∧
    (Stream.sync T c s).ctx.m_streams[s]? = some { st with m_calls := [] } ∧
    (∀ t, t ≠ s → (Stream.sync T c s).ctx.m_streams[t]? = c.m_streams[t]?) ∧
    (Stream.sync T c s).ctx.veo.issued = c.veo.issued := by
  obtain ⟨h1, h2⟩ := Stream.sync_stream_succeeds T c s st hst hT hl
  rw [h2]
  refine ⟨h1, rfl, rfl, rfl, ?_, ?_, ?_, rfl⟩
  · intro j r hj hr
    show Ptrs.find (c.m_ptrs.map (fun b => (b.1, InfoRef.resolve T st.m_calls b.2))) j = some r
    rw [Ptrs.find_map, hj, Option.map_some', InfoRef.resolve_untargeted T _ r hr]
  · show (clearCalls c.m_streams s)[s]? = _
    rw [clearCalls_getElem?_self, hst]; rfl
  · intro t ht
    exact clearCalls_getElem?_ne _ _ _ ht

/-- C15, instance: stream 0 of `Example.ctxMixed` with
`Example.transportWide`, on which every wait succeeds and request 4, the one
entry with `checkResult` set, completes with the raw result `2^32`, which the
cast makes `VEDA_SUCCESS`: the five requests are waited on in the order 0, 1,
4, 5, 6, the two addresses are stored and the list is emptied. -/
theorem sync_drains_witness :
    (Example.ctxMixed.m_streams[0]? = some ⟨9, [⟨0, false, none⟩, ⟨1, false, some (.ptr 1)⟩,
        ⟨4, true, none⟩, ⟨5, false, none⟩, ⟨6, false, some (.ptr 3)⟩]⟩ ∧
      Example.transportWide.waitResult 4 = 2 ^ 32 ∧
      VEDAresult.ofRaw Example.transportWide.statusValue (Example.transportWide.waitResult 4)
        = .VEDA_SUCCESS) ∧
    (Stream.sync Example.transportWide Example.ctxMixed 0).res = .ok () ∧
    (Stream.sync Example.transportWide Example.ctxMixed 0).ctx.veo.waited = [0, 1, 4, 5, 6] ∧
    (Stream.sync Example.transportWide Example.ctxMixed 0).ctx.veo.stored
      = [(.ptr 1, 4097), (.ptr 3, 0)] ∧
    (Stream.sync Example.transportWide Example.ctxMixed 0).ctx.m_streams[0]? = some ⟨9, []⟩ :=
  have h := sync_drains Example.transportWide Example.ctxMixed 0
    ⟨9, [⟨0, false, none⟩, ⟨1, false, some (.ptr 1)⟩, ⟨4, true, none⟩, ⟨5, false, none⟩,
      ⟨6, false, some (.ptr 3)⟩]⟩ (by decide)
    (by intro e he
        simp only [List.mem_cons, List.mem_singleton, List.not_mem_nil, or_false] at he
        rcases he with rfl | rfl | rfl | rfl | rfl <;> exact ⟨rfl, by decide⟩)
    (by intro e he d hd
        simp only [List.mem_cons, List.mem_singleton, List.not_mem_nil, or_false] at he
        rcases he with rfl | rfl | rfl | rfl | rfl
        · cases hd
        · cases hd; exact (by decide : Ptrs.live Example.ctxMixed.m_ptrs 1 = true)
        · cases hd
        · cases hd
        · cases hd; exact (by decide : Ptrs.live Example.ctxMixed.m_ptrs 3 = true))
  ⟨by decide, h.1, h.2.1, h.2.2.1, h.2.2.2.2.2.1⟩

/-! ## C16: a failing call in the pending list -/

theorem syncCalls_append (T : Transport) (pre rest : List PendingCall) :
    ∀ c : Context, (syncCalls T pre c).res = .ok () →
      syncCalls T (pre ++ rest) c = syncCalls T rest (syncCalls T pre c).ctx := by
  induction pre with
  | nil => intro c _; rfl
  | cons e es ih =>
    intro c h
    rw [List.cons_append]
    by_cases hw : T.waitStatus e.id = .VEO_COMMAND_OK
    · by_cases hck : e.checkResult = true ∧
          VEDAresult.ofRaw T.statusValue (T.waitResult e.id) ≠ .VEDA_SUCCESS
      · cases hres : e.result with
        | none =>
          simp only [syncCalls, hw, hres, ne_eq, not_true_eq_false, if_false, hck, and_self,
            if_true] at h
          cases h
        | some d =>
          simp only [syncCalls, hw, hres, ne_eq, not_true_eq_false, if_false] at h
          split at h
          · cases h
          · simp only [hck, and_self, if_true] at h
            cases h
      · cases hres : e.result with
        | none =>
          simp only [syncCalls, hw, hres, ne_eq, not_true_eq_false, if_false, hck] at h ⊢
          exact ih _ h
        | some d =>
          simp only [syncCalls, hw, hres, ne_eq, not_true_eq_false, if_false] at h ⊢
          split
          · next hst => simp only [hst] at h; cases h
          · next c2 hst =>
            simp only [hst, hck, if_false] at h ⊢
            exact ih _ h
    · simp only [syncCalls, ne_eq, hw, not_false_eq_true, if_true] at h
      cases h

/-- The loop of `Stream::sync` on a list whose first entry with `checkResult`
set and a status other than `VEDA_SUCCESS` is `e`: it ends at `e`. -/
theorem syncCalls_stops (T : Transport) (pre post : List PendingCall) (e : PendingCall)
    (c : Context) (hT : T.succeeds pre) (hw : T.waitStatus e.id = .VEO_COMMAND_OK)
    (hc : e.checkResult = true)
    (hr : VEDAresult.ofRaw T.statusValue (T.waitResult e.id) ≠ .VEDA_SUCCESS)
    (hl : destsLive c.m_ptrs (pre ++ [e])) :
    (syncCalls T (pre ++ e :: post) c).res
      = .fail (.thrown (VEDAresult.ofRaw T.statusValue (T.waitResult e.id))) ∧
    (syncCalls T (pre ++ e :: post) c).ctx =
      { c with
        m_ptrs := c.m_ptrs.map (fun b => (b.1, InfoRef.resolve T (pre ++ [e]) b.2))
        veo := { c.veo with
          waited := c.veo.waited ++ (pre ++ [e]).map PendingCall.id
          stored := c.veo.stored ++ storesOf T (pre ++ [e]) } } := by
  have hl1 : destsLive c.m_ptrs pre := ((destsLive_append _ _ _).1 hl).1
  have hl2 : destsLive c.m_ptrs [e] := ((destsLive_append _ _ _).1 hl).2
  obtain ⟨h1, h2⟩ := syncCalls_succeeds T pre c hT hl1
  rw [syncCalls_append T pre (e :: post) c h1, h2]
  have hck : (e.checkResult = true ∧
      VEDAresult.ofRaw T.statusValue (T.waitResult e.id) ≠ .VEDA_SUCCESS) = True :=
    eq_true ⟨hc, hr⟩
  cases hres : e.result with
  | none =>
    simp only [syncCalls, hw, hres, ne_eq, not_true_eq_false, if_false, hck, if_true]
    simp [InfoRef.resolve_append, InfoRef.resolve, InfoRef.store, hres, storesOf_append, storesOf]
  | some d =>
    have hd : d.liveIn (c.m_ptrs.map (fun b => (b.1, InfoRef.resolve T pre b.2))) := by
      rw [Dest.liveIn_map _ _ (fun r => InfoRef.resolve_addr T pre r)]
      exact hl2 e (List.mem_singleton_self _) d hres
    simp only [syncCalls, hw, hres, ne_eq, not_true_eq_false, if_false, hck, if_true,
      Context.storeResult, Ptrs.store_eq_map _ _ _ hd]
    simp [InfoRef.resolve_append, InfoRef.resolve, hres, storesOf_append, storesOf, List.map_map,
      Function.comp_def]

/-- C16, counterexample. In `Example.ctxMixed` stream 0 holds
requests 0, 1, 4, 5, 6 and request 4 has `checkResult` set; with
`Example.transportRejected` every wait is reported `VEO_COMMAND_OK` and request
4 completes with the raw result 7, a status other than `VEDA_SUCCESS`.
`Stream::sync` throws that status after the waits for 0, 1 and 4: requests 5
and 6, enqueued after the failing one, are not waited on, and the pending list
is not empty when the error is reported. -/
theorem sync_fails_fast_counterexample :
    Example.ctxMixed.m_streams[0]?.map Stream.m_calls
      = some [⟨0, false, none⟩, ⟨1, false, some (.ptr 1)⟩, ⟨4, true, none⟩, ⟨5, false, none⟩,
          ⟨6, false, some (.ptr 3)⟩] ∧
    (∀ id < 7, Example.transportRejected.waitStatus id = .VEO_COMMAND_OK) ∧
    VEDAresult.ofRaw Example.transportRejected.statusValue
      (Example.transportRejected.waitResult 4) = .code 7 ∧
    (Stream.sync Example.transportRejected Example.ctxMixed 0).res
      = .fail (.thrown (.code 7)) ∧
    (Stream.sync Example.transportRejected Example.ctxMixed 0).ctx.veo.waited = [0, 1, 4] ∧
    (Stream.sync Example.transportRejected Example.ctxMixed 0).ctx.m_streams[0]?.map Stream.m_calls
      ≠ some [] := by
  decide

/-- C16, amended. For a stream whose pending list is `pre ++ e :: post`, where
the entries of `pre` all succeed (their waits are reported `VEO_COMMAND_OK` and
the checked ones have the status `VEDA_SUCCESS`), the wait for `e` is reported
`VEO_COMMAND_OK`, `e` has `checkResult` set and its raw result, cast to
`VEDAresult`, is a status other than `VEDA_SUCCESS`, and the result
destinations of `pre` and `e` designate live objects: `Stream::sync` reports
that status of `e` as its error; it has waited on the request ids of `pre` and
of `e`, each once and in the order of the list, and has stored their results;
it has waited on no entry of `post`, the entries enqueued after the failing
one, and has stored none of their results. -/
theorem sync_fails_fast (T : Transport) (c : Context) (s : Nat) (st : Stream)
    (pre post : List PendingCall) (e : PendingCall)
    (hst : c.m_streams[s]? = some st) (hcalls : st.m_calls = pre ++ e :: post)
    (hT : T.succeeds pre) (hw : T.waitStatus e.id = .VEO_COMMAND_OK)
    (hc : e.checkResult = true)
    (hr : VEDAresult.ofRaw T.statusValue (T.waitResult e.id) ≠ .VEDA_SUCCESS)
    (hl : destsLive c.m_ptrs (pre ++ [e])) :
    (Stream.sync T c s).res
      = .fail (.thrown (VEDAresult.ofRaw T.statusValue (T.waitResult e.id))) ∧
    (Stream.sync T c s).ctx.veo.waited = c.veo.waited ++ (pre ++ [e]).map PendingCall.id ∧
    (Stream.sync T c s).ctx.veo.stored = c.veo.stored ++ storesOf T (pre ++ [e]) ∧
    (Stream.sync T c s).ctx.m_ptrs
      = c.m_ptrs.map (fun b => (b.1, InfoRef.resolve T (pre ++ [e]) b.2)) ∧
    (Stream.sync T c s).ctx.veo.issued = c.veo.issued := by
  obtain ⟨h1, h2⟩ := syncCalls_stops T pre post e c hT hw hc hr hl
  simp only [Stream.sync, hst, hcalls, h1, h2]
  exact ⟨trivial, trivial, trivial, trivial, trivial⟩

/-- C16, instance: stream 0 of `Example.ctxMixed` with
`Example.transportRejectedWide`, on which request 4 completes with the raw
result `2^32 + 7`, that is the status 7; the list splits at request 4. -/
theorem sync_fails_fast_witness :
    (Example.ctxMixed.m_streams[0]? = some ⟨9, [⟨0, false, none⟩, ⟨1, false, some (.ptr 1)⟩,
        ⟨4, true, none⟩, ⟨5, false, none⟩, ⟨6, false, some (.ptr 3)⟩]⟩ ∧
      Example.transportRejectedWide.waitStatus 4 = .VEO_COMMAND_OK ∧
      Example.transportRejectedWide.waitResult 4 = 2 ^ 32 + 7 ∧
      VEDAresult.ofRaw Example.transportRejectedWide.statusValue
        (Example.transportRejectedWide.waitResult 4) = .code 7) ∧
    (Stream.sync Example.transportRejectedWide Example.ctxMixed 0).res
      = .fail (.thrown (VEDAresult.ofRaw Example.transportRejectedWide.statusValue
          (Example.transportRejectedWide.waitResult 4))) ∧
    (Stream.sync Example.transportRejectedWide Example.ctxMixed 0).ctx.veo.waited
      = Example.ctxMixed.veo.waited ++ [0, 1, 4] ∧
    (Stream.sync Example.transportRejectedWide Example.ctxMixed 0).ctx.veo.stored
      = Example.ctxMixed.veo.stored ++ [(.ptr 1, 4097)] :=
  have h := sync_fails_fast Example.transportRejectedWide Example.ctxMixed 0
    ⟨9, [⟨0, false, none⟩, ⟨1, false, some (.ptr 1)⟩, ⟨4, true, none⟩, ⟨5, false, none⟩,
      ⟨6, false, some (.ptr 3)⟩]⟩
    [⟨0, false, none⟩, ⟨1, false, some (.ptr 1)⟩] [⟨5, false, none⟩, ⟨6, false, some (.ptr 3)⟩]
    ⟨4, true, none⟩ (by decide) rfl
    (by intro x hx
        simp only [List.mem_cons, List.mem_singleton, List.not_mem_nil, or_false] at hx
        rcases hx with rfl | rfl <;> exact ⟨rfl, by decide⟩)
    rfl rfl (by decide)
    (by intro x hx d hd
        simp only [List.cons_append, List.nil_append, List.mem_cons, List.mem_singleton,
          List.not_mem_nil, or_false] at hx
        rcases hx with rfl | rfl | rfl
        · cases hd
        · cases hd; exact (by decide : Ptrs.live Example.ctxMixed.m_ptrs 1 = true)
        · cases hd)
  ⟨by decide, h.1, h.2.1, h.2.2.1⟩

/-! ## C17, C18: `init` -/

theorem Context.openStreams_length (T : Transport) (n : Nat) :
    ∀ c : Context, (Context.openStreams T n c).res = .ok () →
      (Context.openStreams T n c).ctx.m_streams.length = c.m_streams.length + n := by
  induction n with
  | zero => intro c _; rfl
  | succ n ih =>
    intro c h
    unfold Context.openStreams at h ⊢
    simp only at h ⊢
    split
    · next h0 => simp only [h0, if_true] at h; cases h
    · next h0 =>
      simp only [h0, if_false] at h
      rw [ih _ h]
      simp only [List.length_append, List.length_singleton]
      omega

/-- The streams of a context after a successful `init`: `numStreams` thread
contexts have been appended to those it had. -/
theorem Context.init_ok_streams (T : Transport) (c : Context) (mode : VEDAcontext_mode)
    (hinact : c.isActive = false) (hok : (c.init T mode).res = .ok ()) :
    ∃ n : Int, 0 < n ∧
      (mode = .VEDA_CONTEXT_MODE_OMP ∧ n = 1 ∨
       mode = .VEDA_CONTEXT_MODE_SCALAR ∧
        n = if T.ompThreads ≠ 0 then min c.m_device.cores T.ompThreads else c.m_device.cores) ∧
      ((c.init T mode).ctx.m_streams.length : Int) = c.m_streams.length + n ∧
      (c.init T mode).ctx.isActive = true := by
  have tail : ∀ numStreams : Int,
      let o : Outcome Unit :=
        if numStreams = 0 then ⟨.fail .assertion, { c with m_mode := mode }⟩
        else
          let c2 := { c with m_mode := mode, m_handle := T.veo_proc_create c.m_device.aveoId }
          if c2.m_handle = 0 then ⟨.fail (.thrown .VEDA_ERROR_CANNOT_CREATE_CONTEXT), c2⟩
          else
            let o3 := c2.moduleLoad T T.stdLib
            match o3.res with
            | .fail f => ⟨.fail f, o3.ctx⟩
            | .ok lib =>
              let o4 := Context.loadKernels T Kernel.all { o3.ctx with m_lib := lib }
              match o4.res with
              | .fail f => ⟨.fail f, o4.ctx⟩
              | .ok _ =>
                if numStreams < 0 then ⟨.fail .stdException, o4.ctx⟩
                else
                  let o5 := Context.openStreams T numStreams.toNat o4.ctx
                  match o5.res with
                  | .fail f => ⟨.fail f, o5.ctx⟩
                  | .ok _ =>
                    ⟨.ok (), { o5.ctx with
                      m_aveoProcId := T.veo_proc_identifier o5.ctx.m_handle }⟩
      o.res = .ok () →
        0 < numStreams ∧ (o.ctx.m_streams.length : Int) = c.m_streams.length + numStreams ∧
        o.ctx.isActive = true := by
    intro numStreams
    simp only
    split
    · intro h; cases h
    · next hn0 =>
      split
      · intro h; cases h
      · next hh =>
        obtain ⟨m1, m2, m3, m4, m5, m6⟩ := Context.moduleLoad_spec T
          { c with m_mode := mode, m_handle := T.veo_proc_create c.m_device.aveoId } T.stdLib
        simp only at m1 m2 m3 m4 m5 m6
        generalize Context.moduleLoad T
          { c with m_mode := mode, m_handle := T.veo_proc_create c.m_device.aveoId } T.stdLib = o3
          at m1 m2 m3 m4 m5 m6 ⊢
        split
        · intro h; cases h
        · next lib _ =>
          obtain ⟨k1, k2, k3, k4, k5, k6, k7⟩ :=
            Context.loadKernels_spec T Kernel.all { o3.ctx with m_lib := lib }
          generalize Context.loadKernels T Kernel.all { o3.ctx with m_lib := lib } = o4
            at k1 k2 k3 k4 k5 k6 k7 ⊢
          have hk4 : o4.ctx.m_handle ≠ 0 := by rw [k4]; show o3.ctx.m_handle ≠ 0; rw [m5]; exact hh
          have hk5 : o4.ctx.m_streams = c.m_streams := by rw [k5]; exact m6
          split
          · intro h; cases h
          · split
            · intro h; cases h
            · next hneg =>
              obtain ⟨s1, s2, s3, s4, s5⟩ := Context.openStreams_spec T numStreams.toNat o4.ctx
              have hlen := Context.openStreams_length T numStreams.toNat o4.ctx
              generalize Context.openStreams T numStreams.toNat o4.ctx = o5
                at s1 s2 s3 s4 s5 hlen ⊢
              split
              · intro h; cases h
              · next hok5 =>
                intro _
                have hl := hlen (by rw [hok5])
                refine ⟨by omega, ?_, ?_⟩
                · show ((o5.ctx.m_streams.length : Nat) : Int) = _
                  rw [hl, hk5]
                  push_cast
                  omega
                · show (o5.ctx.m_handle != 0) = true
                  rw [s4]
                  simpa using hk4
  unfold Context.init at hok ⊢
  simp only [hinact, Bool.false_eq_true, if_false] at hok ⊢
  cases mode with
  | invalid v => cases hok
  | VEDA_CONTEXT_MODE_OMP =>
    obtain ⟨h1, h2, h3⟩ := tail 1 hok
    exact ⟨1, h1, Or.inl ⟨rfl, rfl⟩, h2, h3⟩
  | VEDA_CONTEXT_MODE_SCALAR =>
    obtain ⟨h1, h2, h3⟩ := tail _ hok
    exact ⟨_, h1, Or.inr ⟨rfl, rfl⟩, h2, h3⟩

/-- C17. `init` on an active context throws
`VEDA_ERROR_CANNOT_CREATE_CONTEXT` and changes nothing. On a context that is
not active: a mode other than the two of the enum is refused with
`VEDA_ERROR_INVALID_VALUE`; a successful `init(VEDA_CONTEXT_MODE_OMP)` appends
one stream and a successful `init(VEDA_CONTEXT_MODE_SCALAR)` appends `cores`
streams (`min(cores, ompThreads)` when the global worker count is set), so
that, the context having no stream before (as every context that is not active
has, see `Context.Inv`), `streamCount()` is 1, respectively that number; the
context is active afterwards. -/
theorem init_stream_count (T : Transport) (c : Context) :
    (c.isActive = true → ∀ mode,
      (c.init T mode).res = .fail (.thrown .VEDA_ERROR_CANNOT_CREATE_CONTEXT) ∧
      (c.init T mode).ctx = c) ∧
    (c.isActive = false →
      (∀ v, (c.init T (.invalid v)).res = .fail (.thrown .VEDA_ERROR_INVALID_VALUE)) ∧
      (c.m_streams = [] →
        ((c.init T .VEDA_CONTEXT_MODE_OMP).res = .ok () →
          (c.init T .VEDA_CONTEXT_MODE_OMP).ctx.streamCount = 1 ∧
          (c.init T .VEDA_CONTEXT_MODE_OMP).ctx.isActive = true) ∧
        ((c.init T .VEDA_CONTEXT_MODE_SCALAR).res = .ok () →
          (c.init T .VEDA_CONTEXT_MODE_SCALAR).ctx.streamCount
            = (if T.ompThreads ≠ 0 then min c.m_device.cores T.ompThreads
               else c.m_device.cores) ∧
          (c.init T .VEDA_CONTEXT_MODE_SCALAR).ctx.isActive = true))) := by
  refine ⟨?_, ?_⟩
  · intro hact mode
    simp only [Context.init, hact, if_true, and_self]
  · intro hinact
    refine ⟨?_, ?_⟩
    · intro v
      simp only [Context.init, hinact, Bool.false_eq_true, if_false]
    · intro hs
      refine ⟨?_, ?_⟩
      · intro hok
        obtain ⟨n, _, hn, hlen, hact⟩ := Context.init_ok_streams T c _ hinact hok
        rcases hn with ⟨_, hn⟩ | ⟨hm, _⟩
        · refine ⟨?_, hact⟩
          rw [Context.streamCount, hlen, hs, hn]; rfl
        · cases hm
      · intro hok
        obtain ⟨n, _, hn, hlen, hact⟩ := Context.init_ok_streams T c _ hinact hok
        rcases hn with ⟨hm, _⟩ | ⟨_, hn⟩
        · cases hm
        · refine ⟨?_, hact⟩
          rw [Context.streamCount, hlen, hs, hn]
          simp

/-- C17, instance, on device `Example.device` (2 cores): from the new context
`init` succeeds with 1 stream in mode OMP, with 2 streams in mode SCALAR and
with `min(2, 1) = 1` stream in mode SCALAR when the global worker count is 1;
mode 7 is refused; `init` on the active `Example.ctx` is refused. -/
theorem init_stream_count_witness :
    ((Context.new Example.device).isActive = false ∧ (Context.new Example.device).m_streams = [] ∧
      Example.ctx.isActive = true ∧
      ((Context.new Example.device).init Example.transport .VEDA_CONTEXT_MODE_OMP).res = .ok () ∧
      ((Context.new Example.device).init Example.transport .VEDA_CONTEXT_MODE_SCALAR).res = .ok () ∧
      ((Context.new Example.device).init Example.transportOmp1 .VEDA_CONTEXT_MODE_SCALAR).res
        = .ok ()) ∧
    ((Context.new Example.device).init Example.transport .VEDA_CONTEXT_MODE_OMP).ctx.streamCount
      = 1 ∧
    ((Context.new Example.device).init Example.transport .VEDA_CONTEXT_MODE_SCALAR).ctx.streamCount
      = 2 ∧
    ((Context.new Example.device).init Example.transportOmp1 .VEDA_CONTEXT_MODE_SCALAR).ctx.streamCount
      = 1 ∧
    ((Context.new Example.device).init Example.transport (.invalid 7)).res
      = .fail (.thrown .VEDA_ERROR_INVALID_VALUE) ∧
    (Example.ctx.init Example.transport .VEDA_CONTEXT_MODE_SCALAR).res
      = .fail (.thrown .VEDA_ERROR_CANNOT_CREATE_CONTEXT) :=
  have h := (init_stream_count Example.transport (Context.new Example.device)).2 (by decide)
  have h1 := (init_stream_count Example.transportOmp1 (Context.new Example.device)).2 (by decide)
  have h2 := (init_stream_count Example.transport Example.ctx).1 (by decide)
  ⟨by decide, ((h.2 rfl).1 (by decide)).1, ((h.2 rfl).2 (by decide)).1,
    ((h1.2 rfl).2 (by decide)).1, h.1 7, (h2 .VEDA_CONTEXT_MODE_SCALAR).1⟩

/-- C18 (the code departs from the claim). `Context::init` stores the process handle in
`m_handle` before it loads the helper module, resolves the helper symbols and
opens the streams, and a failure of one of those steps throws without undoing
it: on the new context of `Example.device`, `init(VEDA_CONTEXT_MODE_OMP)` with
a transport that cannot load the library fails with
`VEDA_ERROR_MODULE_NOT_FOUND`, with one that lacks a helper symbol fails with
`VEDA_ERROR_FUNCTION_NOT_FOUND`, and `init(VEDA_CONTEXT_MODE_SCALAR)` with one
that opens a single thread context fails with
`VEDA_ERROR_CANNOT_CREATE_STREAM`; each time `isActive()` is true after the
failed call (and a new `init` is refused). Only the failures that precede the
creation of the process (invalid mode, no process) leave the context not
active. -/
theorem init_failure_leaves_active :
    (Context.new Example.device).isActive = false ∧
    ((Context.new Example.device).init Example.transportNoLib .VEDA_CONTEXT_MODE_OMP).res
      = .fail (.thrown .VEDA_ERROR_MODULE_NOT_FOUND) ∧
    ((Context.new Example.device).init Example.transportNoLib .VEDA_CONTEXT_MODE_OMP).ctx.isActive
      = true ∧
    ((Context.new Example.device).init Example.transportNoSym .VEDA_CONTEXT_MODE_OMP).res
      = .fail (.thrown .VEDA_ERROR_FUNCTION_NOT_FOUND) ∧
    ((Context.new Example.device).init Example.transportNoSym .VEDA_CONTEXT_MODE_OMP).ctx.isActive
      = true ∧
    ((Context.new Example.device).init Example.transportOneStream .VEDA_CONTEXT_MODE_SCALAR).res
      = .fail (.thrown .VEDA_ERROR_CANNOT_CREATE_STREAM) ∧
    ((Context.new Example.device).init Example.transportOneStream
      .VEDA_CONTEXT_MODE_SCALAR).ctx.isActive = true ∧
    (((Context.new Example.device).init Example.transportNoLib .VEDA_CONTEXT_MODE_OMP).ctx.init
      Example.transport .VEDA_CONTEXT_MODE_OMP).res
      = .fail (.thrown .VEDA_ERROR_CANNOT_CREATE_CONTEXT) ∧
    ((Context.new Example.device).init Example.transport (.invalid 7)).ctx.isActive = false ∧
    ((Context.new Example.device).init Example.transportNoProc .VEDA_CONTEXT_MODE_OMP).res
      = .fail (.thrown .VEDA_ERROR_CANNOT_CREATE_CONTEXT) ∧
    ((Context.new Example.device).init Example.transportNoProc .VEDA_CONTEXT_MODE_OMP).ctx.isActive
      = false := by
  decide

/-! ## Lemmas: where a thrown status comes from -/

theorem thrownFrom_mono (T : Transport) (es fs : List PendingCall) (r : VEDAresult)
    (h : ∀ e ∈ es, e ∈ fs ∨ e.checkResult = false) (hr : thrownFrom T es r) :
    thrownFrom T fs r := by
  rcases hr with h1 | h2 | h3 | ⟨e, he, hc, hv⟩
  · exact Or.inl h1
  · exact Or.inr (Or.inl h2)
  · exact Or.inr (Or.inr (Or.inl h3))
  · rcases h e he with hm | hf
    · exact Or.inr (Or.inr (Or.inr ⟨e, hm, hc, hv⟩))
    · rw [hf] at hc; cases hc

theorem syncCalls_thrown (T : Transport) (es : List PendingCall) :
    ∀ (c : Context) (r : VEDAresult), (syncCalls T es c).res = .fail (.thrown r) →
      thrownFrom T es r := by
  induction es with
  | nil => intro c r h; cases h
  | cons e es ih =>
    intro c r h
    unfold syncCalls at h
    simp only at h
    split at h
    · cases h
      exact Or.inr (Or.inr (Or.inl ⟨_, rfl⟩))
    · split at h
      · cases h
      · split at h
        · next hck =>
          cases h
          exact Or.inr (Or.inr (Or.inr ⟨e, List.mem_cons_self _ _, hck.1, rfl⟩))
        · exact thrownFrom_mono T es (e :: es) r
            (fun x hx => Or.inl (List.mem_cons_of_mem _ hx)) (ih _ r h)

theorem mem_allCalls_of_getElem? (ss : List Stream) (s : Nat) (st : Stream)
    (h : ss[s]? = some st) (e : PendingCall) (he : e ∈ st.m_calls) : e ∈ allCalls ss := by
  induction ss generalizing s with
  | nil => simp at h
  | cons a rest ih =>
    cases s with
    | zero =>
      simp only [List.getElem?_cons_zero, Option.some.injEq] at h
      subst h
      exact List.mem_append_left _ he
    | succ n =>
      simp only [List.getElem?_cons_succ] at h
      exact List.mem_append_right _ (ih n h)

theorem mem_allCalls_clearCalls (ss : List Stream) (s : Nat) (e : PendingCall)
    (h : e ∈ allCalls (clearCalls ss s)) : e ∈ allCalls ss := by
  induction ss generalizing s with
  | nil => simp [clearCalls, allCalls] at h
  | cons a rest ih =>
    cases s with
    | zero =>
      simp only [clearCalls, allCalls, List.nil_append] at h
      exact List.mem_append_right _ h
    | succ n =>
      simp only [clearCalls, allCalls, List.mem_append] at h
      rcases h with h | h
      · exact List.mem_append_left _ h
      · exact List.mem_append_right _ (ih n h)

/-- `Stream::sync`: a thrown status comes from the calls of the context, and
the calls left pending are among those that were pending. -/
theorem Stream.sync_stream_thrown (T : Transport) (c : Context) (s : Nat) :
    (∀ r, (Stream.sync T c s).res = .fail (.thrown r) → thrownFrom T (allCalls c.m_streams) r) ∧
    ∀ e ∈ allCalls (Stream.sync T c s).ctx.m_streams, e ∈ allCalls c.m_streams := by
  unfold Stream.sync
  cases hst : c.m_streams[s]? with
  | none =>
    simp only
    exact ⟨(fun r h => by cases h), fun e he => he⟩
  | some st =>
    simp only
    have hfr := (syncCalls_frame T st.m_calls c).2
    cases hres : (syncCalls T st.m_calls c).res with
    | ok u =>
      simp only
      refine ⟨(fun r h => by cases h), fun e he => ?_⟩
      have := mem_allCalls_clearCalls _ _ _ he
      rwa [hfr] at this
    | fail f =>
      simp only
      refine ⟨fun r h => ?_, fun e he => (by rwa [hfr] at he)⟩
      cases h
      exact thrownFrom_mono T st.m_calls _ r
        (fun x hx => Or.inl (mem_allCalls_of_getElem? _ s st hst x hx))
        (syncCalls_thrown T st.m_calls c r hres)

theorem Context.syncStream_thrown (T : Transport) (c : Context) (i : Int) :
    (∀ r, (c.syncStream T i).res = .fail (.thrown r) → thrownFrom T (allCalls c.m_streams) r) ∧
    ∀ e ∈ allCalls (c.syncStream T i).ctx.m_streams, e ∈ allCalls c.m_streams := by
  unfold Context.syncStream
  cases hs : c.stream i with
  | fail f =>
    simp only
    refine ⟨fun r h => ?_, fun e he => he⟩
    cases h
    unfold Context.stream at hs
    split at hs
    · split at hs <;> cases hs
    · cases hs
      exact Or.inl rfl
  | ok s =>
    simp only
    exact Stream.sync_stream_thrown T c s

theorem Context.syncLoop_thrown (T : Transport) (is : List Nat) :
    ∀ (c : Context) (r : VEDAresult), (Context.syncLoop T is c).res = .fail (.thrown r) →
      thrownFrom T (allCalls c.m_streams) r := by
  induction is with
  | nil => intro c r h; cases h
  | cons i is ih =>
    intro c r h
    unfold Context.syncLoop at h
    simp only at h
    obtain ⟨h1, h2⟩ := Context.syncStream_thrown T c (i : Int)
    cases hres : (c.syncStream T (i : Int)).res with
    | ok u =>
      simp only [hres] at h
      exact thrownFrom_mono T _ _ r (fun e he => Or.inl (h2 e he)) (ih _ r h)
    | fail f =>
      simp only [hres] at h
      cases h
      exact h1 r hres

theorem Context.sync_thrown (T : Transport) (c : Context) (r : VEDAresult)
    (h : (c.sync T).res = .fail (.thrown r)) : thrownFrom T (allCalls c.m_streams) r :=
  Context.syncLoop_thrown T _ c r h

theorem Context.enqueue_unchecked_calls (c : Context) (s : Nat) (call : Call)
    (d : Option Dest) :
    ∀ e ∈ allCalls (c.enqueue s call false d).m_streams,
      e ∈ allCalls c.m_streams ∨ e.checkResult = false := by
  intro e he
  rcases mem_allCalls_appendCall _ _ _ _ he with h | h
  · exact Or.inl h
  · exact Or.inr (by rw [h])

/-- The loop of `syncPtrs`: a thrown status comes from a lookup, and the calls
it adds have no `checkResult`. -/
theorem Context.syncPtrsLoop_thrown (L : Layout) (T : Transport) (m : Ptrs) :
    ∀ (c : Context) (syn : Bool),
      (∀ r, (Context.syncPtrsLoop L m c syn).res = .fail (.thrown r) → thrownFrom T [] r) ∧
      ∀ e ∈ allCalls (Context.syncPtrsLoop L m c syn).ctx.m_streams,
        e ∈ allCalls c.m_streams ∨ e.checkResult = false := by
  induction m with
  | nil => intro c syn; exact ⟨(fun r h => by cases h), fun e he => Or.inl he⟩
  | cons b m ih =>
    intro c syn
    obtain ⟨idx, rec⟩ := b
    unfold Context.syncPtrsLoop
    split
    · split
      · simp only
        cases hs : c.stream 0 with
        | fail f =>
          simp only
          refine ⟨fun r h => ?_, fun e he => Or.inl he⟩
          cases h
          unfold Context.stream at hs
          split at hs
          · split at hs <;> cases hs
          · cases hs
            exact Or.inl rfl
        | ok s =>
          simp only
          cases hk : c.kernel .VEDA_KERNEL_MEM_PTR with
          | fail f =>
            simp only
            refine ⟨fun r h => ?_, fun e he => Or.inl he⟩
            cases h
            unfold Context.kernel at hk
            split at hk
            · cases hk
              exact Or.inr (Or.inl rfl)
            · split at hk <;> cases hk
          | ok fptr =>
            simp only
            cases hk2 : (c.enqueue s (.veo_call_async fptr [VEDA_SET_PTR L c.m_device.vedaId idx 0])
                false (some (.ptr rec.addr))).kernel .VEDA_KERNEL_MEM_SIZE with
            | fail f =>
              simp only
              refine ⟨fun r h => ?_, Context.enqueue_unchecked_calls c s _ _⟩
              cases h
              unfold Context.kernel at hk2
              split at hk2
              · cases hk2
                exact Or.inr (Or.inl rfl)
              · split at hk2 <;> cases hk2
            | ok fsize =>
              simp only
              refine ⟨(ih _ true).1, fun e he => ?_⟩
              rcases (ih _ true).2 e he with h | h
              · rcases Context.enqueue_unchecked_calls _ s _ _ e h with h | h
                · exact Context.enqueue_unchecked_calls c s _ _ e h
                · exact Or.inr h
              · exact Or.inr h
      · exact ih c true
    · exact ih c syn

/-- A status thrown by `syncPtrs` comes from a lookup, from a wait reported as
failed, or from the cast result of a call with `checkResult` set that was
pending before. -/
theorem Context.syncPtrs_thrown (L : Layout) (T : Transport) (c : Context) (r : VEDAresult)
    (h : (c.syncPtrs L T).res = .fail (.thrown r)) : thrownFrom T (allCalls c.m_streams) r := by
  obtain ⟨h1, h2⟩ := Context.syncPtrsLoop_thrown L T c.m_ptrs c false
  unfold Context.syncPtrs at h
  simp only at h
  cases hres : (Context.syncPtrsLoop L c.m_ptrs c false).res with
  | fail f =>
    simp only [hres] at h
    cases h
    exact thrownFrom_mono T [] _ r (fun e he => absurd he (List.not_mem_nil e)) (h1 r hres)
  | ok syn =>
    simp only [hres] at h
    split at h
    · exact thrownFrom_mono T _ _ r h2 (Context.sync_thrown T _ r h)
    · cases h

/-! ## C19: `destroy` -/

/-- The three ways `destroy` ends on an active context: with the fault of
`syncPtrs`, with the status of `veo_proc_destroy`, or without error. -/
theorem Context.destroy_cases (L : Layout) (T : Transport) (c : Context)
    (hact : c.isActive = true) :
    (∃ f, (c.syncPtrs L T).res = .fail f ∧ (c.destroy L T).res = .fail f) ∨
    ((c.syncPtrs L T).res = .ok () ∧ T.veo_proc_destroy c.m_handle ≠ .VEO_COMMAND_OK ∧
      (c.destroy L T).res = .fail (.thrown (VEOtoVEDA (T.veo_proc_destroy c.m_handle)))) ∨
    ((c.syncPtrs L T).res = .ok () ∧ T.veo_proc_destroy c.m_handle = .VEO_COMMAND_OK ∧
      (c.destroy L T).res = .ok () ∧ (c.destroy L T).ctx.m_handle = 0 ∧
      (c.destroy L T).ctx.m_ptrs = [] ∧ (c.destroy L T).ctx.m_streams = [] ∧
      (c.destroy L T).ctx.m_modules = []) := by
  have hh : (c.syncPtrs L T).ctx.m_handle = c.m_handle := (Context.syncPtrs_frame L T c).1.m_handle
  have hne : c.m_handle ≠ 0 := by simpa [Context.isActive] using hact
  unfold Context.destroy
  simp only [hact, Bool.true_eq_false, if_false]
  cases hres : (c.syncPtrs L T).res with
  | fail f => exact Or.inl ⟨f, rfl, rfl⟩
  | ok u =>
    right
    simp only [hh, ne_eq, hne, not_false_eq_true, if_true]
    by_cases hd : T.veo_proc_destroy c.m_handle = .VEO_COMMAND_OK
    · right
      simp [hd]
    · left
      simp [hd]

/-- C19, counterexample. `Example.ctxMixed` is active and has records without
address; on its stream 0 request 4 (the `veda_mem_swap`) is pending with
`checkResult` set, and with `Example.transportDestroyed` it completes with the
value of the status `VEDA_ERROR_CONTEXT_IS_DESTROYED`. `destroy` runs the lazy
resolution, which synchronises the streams and throws that status: `destroy`
fails with `VEDA_ERROR_CONTEXT_IS_DESTROYED` on an active context, which stays
active and has been changed (the address 4097 has been stored in the record of
index 2). -/
theorem destroy_active_counterexample :
    Example.ctxMixed.isActive = true ∧
    Example.ctxMixed.m_streams[0]?.map Stream.m_calls
      = some [⟨0, false, none⟩, ⟨1, false, some (.ptr 1)⟩, ⟨4, true, none⟩, ⟨5, false, none⟩,
          ⟨6, false, some (.ptr 3)⟩] ∧
    (∀ id < 7, Example.transportDestroyed.waitStatus id = .VEO_COMMAND_OK) ∧
    VEDAresult.ofRaw Example.transportDestroyed.statusValue
      (Example.transportDestroyed.waitResult 4) = .VEDA_ERROR_CONTEXT_IS_DESTROYED ∧
    (Example.ctxMixed.destroy Example.layout Example.transportDestroyed).res
      = .fail (.thrown .VEDA_ERROR_CONTEXT_IS_DESTROYED) ∧
    (Example.ctxMixed.destroy Example.layout Example.transportDestroyed).ctx.isActive = true ∧
    Ptrs.find Example.ctxMixed.m_ptrs 2 = some ⟨1, ⟨0, 16⟩⟩ ∧
    Ptrs.find (Example.ctxMixed.destroy Example.layout Example.transportDestroyed).ctx.m_ptrs 2
      = some ⟨1, ⟨4097, 16⟩⟩ := by
  decide

/-- C19, amended. `destroy` on a context that is not active throws
`VEDA_ERROR_CONTEXT_IS_DESTROYED` and changes nothing. When no pending call
with `checkResult` set completes with the status
`VEDA_ERROR_CONTEXT_IS_DESTROYED`, `destroy` fails with that status exactly
when the context is not active. On an active context a failure of `destroy`
is the failure of the lazy resolution (`syncPtrs`) or the status of
`veo_proc_destroy`, and with a stream, a loaded helper table, a transport that
reports every wait as complete and destroys the process, the pending checked
calls returning 0 and the pending result destinations live, `destroy` returns
without error. Whenever `destroy` returns without error the context was active
and is not active any more, its table is empty whatever records it held,
`streamCount()` is 0 and the module table is empty. -/
theorem destroy_spec (L : Layout) (T : Transport) (c : Context) :
    (c.isActive = false →
      (c.destroy L T).res = .fail (.thrown .VEDA_ERROR_CONTEXT_IS_DESTROYED) ∧
      (c.destroy L T).ctx = c) ∧
    ((∀ e ∈ allCalls c.m_streams, e.checkResult = true →
        VEDAresult.ofRaw T.statusValue (T.waitResult e.id)
          ≠ .VEDA_ERROR_CONTEXT_IS_DESTROYED) →
      ((c.destroy L T).res = .fail (.thrown .VEDA_ERROR_CONTEXT_IS_DESTROYED) ↔
        c.isActive = false)) ∧
    (c.isActive = true → ∀ f, (c.destroy L T).res = .fail f →
      (c.syncPtrs L T).res = .fail f ∨
      (T.veo_proc_destroy c.m_handle ≠ .VEO_COMMAND_OK ∧
        f = .thrown (VEOtoVEDA (T.veo_proc_destroy c.m_handle)) ∧
        f ≠ .thrown .VEDA_ERROR_CONTEXT_IS_DESTROYED)) ∧
    (c.isActive = true → c.m_streams ≠ [] → c.m_kernels.length = VEDA_KERNEL_CNT →
      (∀ id, T.waitStatus id = .VEO_COMMAND_OK) →
      (∀ e ∈ allCalls c.m_streams, e.checkResult = true → T.waitResult e.id = 0) →
      destsLive c.m_ptrs (allCalls c.m_streams) →
      T.veo_proc_destroy c.m_handle = .VEO_COMMAND_OK →
      (c.destroy L T).res = .ok ()) ∧
    ((c.destroy L T).res = .ok () →
      c.isActive = true ∧ (c.destroy L T).ctx.isActive = false ∧
      (c.destroy L T).ctx.m_ptrs = [] ∧ (c.destroy L T).ctx.streamCount = 0 ∧
      (c.destroy L T).ctx.m_modules = []) := by
  have hguard : c.isActive = false →
      (c.destroy L T).res = .fail (.thrown .VEDA_ERROR_CONTEXT_IS_DESTROYED) ∧
      (c.destroy L T).ctx = c := by
    intro hin
    simp only [Context.destroy, hin, if_true, and_self]
  have hveo : ∀ v : VeoStatus, VEOtoVEDA v ≠ .VEDA_ERROR_CONTEXT_IS_DESTROYED := by
    intro v; cases v <;> simp [VEOtoVEDA]
  refine ⟨hguard, ?_, ?_, ?_, ?_⟩
  · intro hno
    refine ⟨fun hf => ?_, fun hin => (hguard hin).1⟩
    cases hact : c.isActive with
    | false => rfl
    | true =>
      exfalso
      rcases Context.destroy_cases L T c hact with ⟨g, hg, hd⟩ | ⟨_, _, hd⟩ | ⟨_, _, hd, _⟩
      · rw [hd] at hf
        cases hf
        rcases Context.syncPtrs_thrown L T c _ hg with h | h | ⟨v, h⟩ | ⟨e, he, hc, hv⟩
        · cases h
        · cases h
        · exact hveo v h.symm
        · exact hno e he hc hv
      · rw [hd] at hf
        have hv : VEOtoVEDA (T.veo_proc_destroy c.m_handle)
            = .VEDA_ERROR_CONTEXT_IS_DESTROYED := by
          injection hf with hf
          injection hf
        exact hveo _ hv
      · rw [hd] at hf; cases hf
  · intro hact f hf
    rcases Context.destroy_cases L T c hact with ⟨g, hg, hd⟩ | ⟨_, hne, hd⟩ | ⟨_, _, hd, _⟩
    · rw [hd] at hf; cases hf; exact Or.inl hg
    · rw [hd] at hf; cases hf
      refine Or.inr ⟨hne, rfl, ?_⟩
      cases T.veo_proc_destroy c.m_handle <;> simp [VEOtoVEDA] at hne ⊢
    · rw [hd] at hf; cases hf
  · intro hact hs hk hwait hchk hl hpd
    have hs' : 0 < c.m_streams.length := List.length_pos.2 hs
    obtain ⟨hsync, _⟩ := Context.syncPtrs_ok L T c hs' hk hwait hchk hl
    rcases Context.destroy_cases L T c hact with ⟨g, hg, _⟩ | ⟨_, hne, _⟩ | ⟨_, _, hd, _⟩
    · rw [hsync] at hg; cases hg
    · exact absurd hpd hne
    · exact hd
  · intro hok
    have hact : c.isActive = true := by
      cases h : c.isActive with
      | true => rfl
      | false =>
        simp only [Context.destroy, h, if_true] at hok
        cases hok
    rcases Context.destroy_cases L T c hact with ⟨g, _, hd⟩ | ⟨_, _, hd⟩ | ⟨_, _, _, h1, h2, h3, h4⟩
    · rw [hd] at hok; cases hok
    · rw [hd] at hok; cases hok
    · refine ⟨hact, ?_, h2, ?_, h4⟩
      · simp [Context.isActive, h1]
      · simp [Context.streamCount, h3]

/-- C19, instance: `destroy` on `Example.ctxTwo`, an active context with two
allocations still pending and no checked call, returns without error and
leaves an inactive context with an empty table, no stream and no module;
`destroy` on a new context throws `VEDA_ERROR_CONTEXT_IS_DESTROYED` and leaves
it unchanged; on both, `destroy` fails with that status exactly when the
context is not active. -/
theorem destroy_spec_witness :
    (Example.ctxTwo.isActive = true ∧ Example.ctxTwo.m_ptrs.length = 2 ∧
      (Context.new Example.device).isActive = false) ∧
    (Example.ctxTwo.destroy Example.layout Example.transport).res = .ok () ∧
    ((Example.ctxTwo.destroy Example.layout Example.transport).ctx.isActive = false ∧
      (Example.ctxTwo.destroy Example.layout Example.transport).ctx.m_ptrs = [] ∧
      (Example.ctxTwo.destroy Example.layout Example.transport).ctx.streamCount = 0 ∧
      (Example.ctxTwo.destroy Example.layout Example.transport).ctx.m_modules = []) ∧
    (((Context.new Example.device).destroy Example.layout Example.transport).res
        = .fail (.thrown .VEDA_ERROR_CONTEXT_IS_DESTROYED) ∧
      ((Context.new Example.device).destroy Example.layout Example.transport).ctx
        = Context.new Example.device) ∧
    ((Example.ctxTwo.destroy Example.layout Example.transport).res
        = .fail (.thrown .VEDA_ERROR_CONTEXT_IS_DESTROYED) ↔ Example.ctxTwo.isActive = false) ∧
    (((Context.new Example.device).destroy Example.layout Example.transport).res
        = .fail (.thrown .VEDA_ERROR_CONTEXT_IS_DESTROYED) ↔
      (Context.new Example.device).isActive = false) :=
  have h := destroy_spec Example.layout Example.transport Example.ctxTwo
  have h0 := destroy_spec Example.layout Example.transport (Context.new Example.device)
  have hok : (Example.ctxTwo.destroy Example.layout Example.transport).res = .ok () := by decide
  ⟨by decide, hok, (h.2.2.2.2 hok).2, h0.1 (by decide), h.2.1 (by decide), h0.2.1 (by decide)⟩

/-! ## C20: `init` after `destroy` -/

/-- C20 (the code departs from the claim). `Context::destroy` empties the helper table with
`m_kernels.clear()`, and `Context::init` stores the helper handles with
`m_kernels[i] = ...` without giving the vector its `VEDA_KERNEL_CNT` elements
again. On the new context of `Example.device`, with the transport on which
every call succeeds, `init` and `destroy` return without error and leave a
helper table of size 0; the `init` that follows, in either mode, writes
`m_kernels[0]` past the end of the vector. -/
theorem init_destroy_init_out_of_range :
    (Context.run Example.layout Example.transport [.init .VEDA_CONTEXT_MODE_OMP, .destroy]
      (Context.new Example.device)).map Prod.snd = some [.ok none, .ok none] ∧
    (Context.new Example.device).m_kernels.length = VEDA_KERNEL_CNT ∧
    Example.ctxDestroyed.isActive = false ∧
    Example.ctxDestroyed.m_kernels.length = 0 ∧
    (Example.ctxDestroyed.init Example.transport .VEDA_CONTEXT_MODE_OMP).res = .fail .undefined ∧
    (Example.ctxDestroyed.init Example.transport .VEDA_CONTEXT_MODE_SCALAR).res
      = .fail .undefined ∧
    Context.run Example.layout Example.transport
      [.init .VEDA_CONTEXT_MODE_OMP, .destroy, .init .VEDA_CONTEXT_MODE_OMP]
      (Context.new Example.device) = none := by
  decide

/-! ## Lemmas: what the lazy resolution enqueues -/

theorem Context.syncPtrsLoop_resolved (L : Layout) (m : Ptrs) :
    ∀ (c : Context) (syn : Bool), (∀ b ∈ m, b.2.info.ptr ≠ 0) →
      Context.syncPtrsLoop L m c syn = ⟨.ok syn, c⟩ := by
  induction m with
  | nil => intro c syn _; rfl
  | cons b m ih =>
    intro c syn h
    obtain ⟨idx, r⟩ := b
    have hr : r.info.ptr ≠ 0 := h (idx, r) (List.mem_cons_self _ _)
    rw [Context.syncPtrsLoop]
    simp only [hr, if_false]
    exact ih c syn (fun b hb => h b (List.mem_cons_of_mem _ hb))

/-- When every record has its address, `syncPtrs` does nothing at all. -/
theorem Context.syncPtrs_resolved (L : Layout) (T : Transport) (c : Context)
    (h : ∀ b ∈ c.m_ptrs, b.2.info.ptr ≠ 0) : c.syncPtrs L T = ⟨.ok (), c⟩ := by
  simp [Context.syncPtrs, Context.syncPtrsLoop_resolved L c.m_ptrs c false h]

/-- The scan of `syncPtrs`, with a stream 0 and the two query helpers loaded:
it runs to its end, it reports whether a record without address was met, the
requests it issues are those of `queriesFor`, and it only appends to the
pending list of stream 0. -/
theorem Context.syncPtrsLoop_issued (L : Layout) (m : Ptrs) :
    ∀ (c : Context) (syn : Bool) (ctx0 fptr fsize : Nat),
      c.m_streams[0]?.map Stream.m_ctx = some ctx0 →
      c.kernel .VEDA_KERNEL_MEM_PTR = .ok fptr →
      c.kernel .VEDA_KERNEL_MEM_SIZE = .ok fsize →
      (Context.syncPtrsLoop L m c syn).res
        = .ok (syn || m.any (fun b => b.2.info.ptr == 0)) ∧
      (Context.syncPtrsLoop L m c syn).ctx.veo.issued
        = c.veo.issued ++ queriesFor L c.m_device.vedaId ctx0 fptr fsize m ∧
      clearFrom 0 (Context.syncPtrsLoop L m c syn).ctx.m_streams = clearFrom 0 c.m_streams ∧
      (∀ t, t ≠ 0 → (Context.syncPtrsLoop L m c syn).ctx.m_streams[t]? = c.m_streams[t]?) := by
  induction m with
  | nil =>
    intro c syn ctx0 fptr fsize _ _ _
    simp [Context.syncPtrsLoop, queriesFor]
  | cons b m ih =>
    intro c syn ctx0 fptr fsize h0 hfp hfs
    obtain ⟨idx, r⟩ := b
    rw [Context.syncPtrsLoop]
    by_cases hp : r.info.ptr = 0
    · by_cases hz : r.info.size = 0
      · have hlen : 0 < c.m_streams.length := by
          cases hs : c.m_streams with
          | nil => rw [hs] at h0; simp at h0
          | cons st rest => simp
        have hst : c.stream 0 = .ok 0 :=
          Context.stream_ok c 0 ⟨le_refl _, by exact_mod_cast hlen⟩
        have hctx : (match c.m_streams[0]? with | some st => st.m_ctx | none => 0) = ctx0 := by
          cases hs : c.m_streams[0]? with
          | none => rw [hs] at h0; simp at h0
          | some st => rw [hs] at h0; simpa using h0
        have hfs1 : (c.enqueue 0 (.veo_call_async fptr [VEDA_SET_PTR L c.m_device.vedaId idx 0])
            false (some (.ptr r.addr))).kernel .VEDA_KERNEL_MEM_SIZE = .ok fsize :=
          (Context.kernel_congr _ c _ rfl).trans hfs
        simp only [hp, hz, if_true, hst, hfp, hfs1]
        obtain ⟨i1, i2, i3, i4⟩ := ih
          ((c.enqueue 0 (.veo_call_async fptr [VEDA_SET_PTR L c.m_device.vedaId idx 0]) false
            (some (.ptr r.addr))).enqueue 0
            (.veo_call_async fsize [VEDA_SET_PTR L c.m_device.vedaId idx 0]) false
            (some (.size r.addr))) true ctx0 fptr fsize
          (by
            simp only [Context.enqueue, appendCall_getElem?_self]
            cases hs : c.m_streams[0]? with
            | none => rw [hs] at h0; simp at h0
            | some st => rw [hs] at h0; simpa using h0)
          ((Context.kernel_congr _ c _ rfl).trans hfp)
          ((Context.kernel_congr _ c _ rfl).trans hfs)
        refine ⟨?_, ?_, ?_, ?_⟩
        · rw [i1]; simp [hp]
        · rw [i2]
          simp only [Context.enqueue, appendCall_getElem?_self, queriesFor, hp, hz, and_self,
            if_true]
          cases hs : c.m_streams[0]? with
          | none => rw [hs] at h0; simp at h0
          | some st =>
            rw [hs] at h0
            have : st.m_ctx = ctx0 := by simpa using h0
            simp [this]
        · rw [i3]
          simp only [Context.enqueue, clearFrom_zero_appendCall]
        · intro t ht
          rw [i4 t ht]
          simp only [Context.enqueue]
          rw [appendCall_getElem?_ne _ _ _ _ ht, appendCall_getElem?_ne _ _ _ _ ht]
      · simp only [hp, hz, if_true, if_false]
        obtain ⟨i1, i2, i3, i4⟩ := ih c true ctx0 fptr fsize h0 hfp hfs
        refine ⟨?_, ?_, i3, i4⟩
        · rw [i1]; simp [hp]
        · rw [i2]; simp [queriesFor, hz]
    · simp only [hp, if_false]
      obtain ⟨i1, i2, i3, i4⟩ := ih c syn ctx0 fptr fsize h0 hfp hfs
      have hb : (r.info.ptr == 0) = false := by simpa using hp
      refine ⟨?_, ?_, i3, i4⟩
      · rw [i1]; simp [hb]
      · rw [i2]; simp [queriesFor, hp]

/-- With a stream 0, a loaded helper table, a transport that reports every wait
as complete, pending checked calls that were successful and pending result
destinations that are live, the pending calls left by the scan of `syncPtrs`
all complete and their destinations are live. -/
theorem Context.syncPtrsLoop_ready (L : Layout) (T : Transport) (c : Context)
    (hs : 0 < c.m_streams.length) (hk : c.m_kernels.length = VEDA_KERNEL_CNT)
    (hwait : ∀ id, T.waitStatus id = .VEO_COMMAND_OK)
    (hchk : ∀ e ∈ allCalls c.m_streams, e.checkResult = true → T.waitResult e.id = 0)
    (hl : destsLive c.m_ptrs (allCalls c.m_streams)) :
    T.completes (allCalls (Context.syncPtrsLoop L c.m_ptrs c false).ctx.m_streams) ∧
    destsLive (Context.syncPtrsLoop L c.m_ptrs c false).ctx.m_ptrs
      (allCalls (Context.syncPtrsLoop L c.m_ptrs c false).ctx.m_streams) := by
  obtain ⟨syn', _, h2⟩ := Context.syncPtrsLoop_ok L c.m_ptrs c false hs hk
  obtain ⟨_, hm, _, _⟩ := Context.syncPtrsLoop_frame L c.m_ptrs c false
  refine ⟨?_, ?_⟩
  · intro e he
    refine ⟨hwait _, fun hc => ?_⟩
    rcases h2 e he with h | h
    · exact hchk e h hc
    · rw [h.1] at hc; cases hc
  · intro e he d hd
    rw [hm]
    rcases h2 e he with h | h
    · exact hl e h d hd
    · obtain ⟨_, b, hb, _, _, hr⟩ := h
      have hlive : Ptrs.live c.m_ptrs b.2.addr = true := (Ptrs.live_iff _ _).2 ⟨b, hb, rfl⟩
      rcases hr with hr | hr
      · rw [hr] at hd; cases hd; exact hlive
      · rw [hr] at hd; cases hd; exact hlive

/-! ## C21: allocation with a pending override -/

/-- On its normal path, with a free index left, `memAlloc` adds one record. -/
theorem Context.memAlloc_normal (L : Layout) (T : Transport) (c : Context) (size : Nat)
    (stream : Int) (hover : c.m_memOverride = 0) (hlt : c.m_ptrs.length < VEDA_CNT_IDX L) :
    ∃ idx, Ptrs.find c.m_ptrs idx = none ∧
      (c.memAlloc L T size stream).ctx.m_ptrs
        = Ptrs.insert idx ⟨Ptrs.newAddr c.m_ptrs, ⟨0, size⟩⟩ c.m_ptrs := by
  obtain ⟨idx, hfind⟩ := findFreeIdx_terminates L c.m_ptrs c.m_memidx hlt
  obtain ⟨hfree, _⟩ := findFreeIdx_some L c.m_ptrs _ _ _ hfind
  have hfull : c.m_ptrs.length ≠ VEDA_CNT_IDX L := by omega
  refine ⟨idx, hfree, ?_⟩
  simp only [Context.memAlloc, hover, hfull, hfind, Ptrs.emplace, hfree, ne_eq,
    not_true_eq_false, if_false]
  split
  · split
    · simp
    · split <;> simp
  · simp

/-- C21, counterexample. With a full table the override is not honoured: on
`Example.ctxFullOverride` (one-index layout, the one record resolved, 16
bytes, override 48 pending on it) `memAlloc(16, 0)` throws
`VEDA_ERROR_OUT_OF_MEMORY` and the override stays pending. And records do
change: on `Example.ctxOverride` (override 80 pending on the resolved record
of index 1, 16 bytes) `memAlloc(16, 0)` returns 80 and the pending record of
index 2 has received its address 4099. -/
theorem memAlloc_override_counterexample :
    (Example.ctxFullOverride.isActive = true ∧
      Example.ctxFullOverride.m_memOverride = 48 ∧
      Ptrs.find Example.ctxFullOverride.m_ptrs (VEDA_GET_IDX Example.layout1 48)
        = some ⟨1, ⟨4097, 16⟩⟩ ∧
      (Example.ctxFullOverride.memAlloc Example.layout1 Example.transport 16 0).res
        = .fail (.thrown .VEDA_ERROR_OUT_OF_MEMORY) ∧
      (Example.ctxFullOverride.memAlloc Example.layout1 Example.transport 16 0).ctx.m_memOverride
        = 48) ∧
    (Example.ctxOverride.isActive = true ∧
      Example.ctxOverride.m_memOverride = 80 ∧
      Ptrs.find Example.ctxOverride.m_ptrs (VEDA_GET_IDX Example.layout 80)
        = some ⟨1, ⟨4097, 16⟩⟩ ∧
      Ptrs.find Example.ctxOverride.m_ptrs 2 = some ⟨2, ⟨0, 8⟩⟩ ∧
      (Example.ctxOverride.memAlloc Example.layout Example.transport 16 0).res = .ok 80 ∧
      Ptrs.find (Example.ctxOverride.memAlloc Example.layout Example.transport 16 0).ctx.m_ptrs 2
        = some ⟨2, ⟨4099, 8⟩⟩) := by
  decide

/-- C21, amended. Let a context have an override pointer of its device
pending, and let the lazy resolution `syncPtrs`, which `memAlloc` runs first,
return. When the table holds `VEDA_CNT_IDX` records `memAlloc(N, s)` throws
`VEDA_ERROR_OUT_OF_MEMORY` and the override stays pending. Otherwise, when
after the resolution the target index of the override is in the table with a
record of size `N` and a non-zero address, `memAlloc(N, s)` returns the
device and index of the override with offset 0; the context it leaves is the
one the resolution left with the override cleared, so no record is added
(same indices, same record objects, same cursor) and no record changes beyond
what the resolution wrote; and with fewer than `VEDA_CNT_IDX` records the next
`memAlloc` takes the normal path: it adds a record at a free index. When
every record already has its address the resolution changes nothing. -/
theorem memAlloc_override (L : Layout) (T : Transport) (c : Context) (N : Nat) (s : Int)
    (hover : c.m_memOverride ≠ 0)
    (hdev : VEDA_GET_DEVICE L c.m_memOverride = c.m_device.vedaId)
    (hsync : (c.syncPtrs L T).res = .ok ()) :
    (c.m_ptrs.length = VEDA_CNT_IDX L →
      (c.memAlloc L T N s).res = .fail (.thrown .VEDA_ERROR_OUT_OF_MEMORY) ∧
      (c.memAlloc L T N s).ctx = (c.syncPtrs L T).ctx ∧
      (c.memAlloc L T N s).ctx.m_memOverride = c.m_memOverride) ∧
    (c.m_ptrs.length ≠ VEDA_CNT_IDX L →
      ∀ r, Ptrs.find (c.syncPtrs L T).ctx.m_ptrs (VEDA_GET_IDX L c.m_memOverride) = some r →
        r.info.size = N → r.info.ptr ≠ 0 →
        (c.memAlloc L T N s).res
          = .ok (VEDA_SET_PTR L (VEDA_GET_DEVICE L c.m_memOverride)
              (VEDA_GET_IDX L c.m_memOverride) 0) ∧
        (c.memAlloc L T N s).ctx = { (c.syncPtrs L T).ctx with m_memOverride := 0 } ∧
        (c.memAlloc L T N s).ctx.m_ptrs = (c.syncPtrs L T).ctx.m_ptrs ∧
        Ptrs.shape (c.memAlloc L T N s).ctx.m_ptrs = Ptrs.shape c.m_ptrs ∧
        (c.memAlloc L T N s).ctx.m_memidx = c.m_memidx ∧
        (c.memAlloc L T N s).ctx.m_memOverride = 0 ∧
        (c.m_ptrs.length < VEDA_CNT_IDX L → ∀ (N1 : Nat) (s1 : Int),
          ∃ idx, Ptrs.find (c.memAlloc L T N s).ctx.m_ptrs idx = none ∧
            ((c.memAlloc L T N s).ctx.memAlloc L T N1 s1).ctx.m_ptrs
              = Ptrs.insert idx ⟨Ptrs.newAddr (c.memAlloc L T N s).ctx.m_ptrs, ⟨0, N1⟩⟩
                  (c.memAlloc L T N s).ctx.m_ptrs)) ∧
    ((∀ b ∈ c.m_ptrs, b.2.info.ptr ≠ 0) → (c.syncPtrs L T).ctx = c) := by
  obtain ⟨hop, hshape, hmi, hmo⟩ := Context.syncPtrs_frame L T c
  have hlen := Ptrs.length_of_shape _ _ hshape
  have hover1 : (c.syncPtrs L T).ctx.m_memOverride ≠ 0 := by rw [hmo]; exact hover
  have hdev1 : VEDA_GET_DEVICE L (c.syncPtrs L T).ctx.m_memOverride
      = (c.syncPtrs L T).ctx.m_device.vedaId := by
    rw [hmo, hdev]
    rw [hop.m_device]
  refine ⟨?_, ?_, ?_⟩
  · intro hfull
    have hfull1 : (c.syncPtrs L T).ctx.m_ptrs.length = VEDA_CNT_IDX L := by rw [hlen, hfull]
    simp only [Context.memAlloc, hover, ne_eq, not_false_eq_true, if_true, hsync, hfull1]
    exact ⟨trivial, trivial, hmo⟩
  · intro hnf r hfind hsize hptr
    have hnf1 : (c.syncPtrs L T).ctx.m_ptrs.length ≠ VEDA_CNT_IDX L := by rw [hlen]; exact hnf
    have heq : c.memAlloc L T N s
        = ⟨.ok (VEDA_SET_PTR L (VEDA_GET_DEVICE L c.m_memOverride)
              (VEDA_GET_IDX L c.m_memOverride) 0),
           { (c.syncPtrs L T).ctx with m_memOverride := 0 }⟩ := by
      rw [← hmo] at hfind ⊢
      simp only [Context.memAlloc, hover, ne_eq, not_false_eq_true, if_true, hsync, hnf1,
        if_false, hover1, hdev1, not_true_eq_false, hfind, hsize, hptr]
    rw [heq]
    refine ⟨rfl, rfl, rfl, hshape, hmi, rfl, ?_⟩
    intro hlt N1 s1
    exact Context.memAlloc_normal L T _ N1 s1 rfl (by simpa [hlen] using hlt)
  · intro hall
    rw [Context.syncPtrs_resolved L T c hall]

/-- C21, instance. On `Example.ctxOverride` (two records of four possible,
override 80 pending on the resolved record of index 1, 16 bytes):
`memAlloc(16, 0)` returns pointer 80, the table keeps its two indices and
record objects, the cursor stays, the override is cleared and the next
`memAlloc` adds a record. On `Example.ctxFullOverride` (full table)
`memAlloc(16, 0)` throws `VEDA_ERROR_OUT_OF_MEMORY` and the override stays. -/
theorem memAlloc_override_witness :
    (Example.ctxOverride.m_memOverride = 80 ∧
      Example.ctxOverride.m_ptrs.length = 2 ∧ VEDA_CNT_IDX Example.layout = 3 ∧
      VEDA_SET_PTR Example.layout (VEDA_GET_DEVICE Example.layout 80)
        (VEDA_GET_IDX Example.layout 80) 0 = 80 ∧
      Example.ctxFullOverride.m_memOverride = 48 ∧
      Example.ctxFullOverride.m_ptrs.length = VEDA_CNT_IDX Example.layout1) ∧
    ((Example.ctxOverride.memAlloc Example.layout Example.transport 16 0).res
        = .ok (VEDA_SET_PTR Example.layout
            (VEDA_GET_DEVICE Example.layout Example.ctxOverride.m_memOverride)
            (VEDA_GET_IDX Example.layout Example.ctxOverride.m_memOverride) 0) ∧
      Ptrs.shape (Example.ctxOverride.memAlloc Example.layout Example.transport 16 0).ctx.m_ptrs
        = Ptrs.shape Example.ctxOverride.m_ptrs ∧
      (Example.ctxOverride.memAlloc Example.layout Example.transport 16 0).ctx.m_memidx
        = Example.ctxOverride.m_memidx ∧
      (Example.ctxOverride.memAlloc Example.layout Example.transport 16 0).ctx.m_memOverride
        = 0) ∧
    ((Example.ctxFullOverride.memAlloc Example.layout1 Example.transport 16 0).res
        = .fail (.thrown .VEDA_ERROR_OUT_OF_MEMORY) ∧
      (Example.ctxFullOverride.memAlloc Example.layout1 Example.transport 16 0).ctx.m_memOverride
        = Example.ctxFullOverride.m_memOverride) :=
  have h := (memAlloc_override Example.layout Example.transport Example.ctxOverride 16 0
    (by decide) (by decide) (by decide)).2.1 (by decide) ⟨1, ⟨4097, 16⟩⟩ (by decide) rfl
    (by decide)
  have hfull := (memAlloc_override Example.layout1 Example.transport Example.ctxFullOverride 16 0
    (by decide) (by decide) (by decide)).1 (by decide)
  ⟨by decide, ⟨h.1, h.2.2.2.1, h.2.2.2.2.1, h.2.2.2.2.2.1⟩, ⟨hfull.1, hfull.2.2⟩⟩

/-! ## C22: the override pointer -/

/-- C22. `setMemOverride(p)` throws `VEDA_ERROR_OFFSET_NOT_ALLOWED` when `p` is
not null and has a non-zero byte offset, throws `VEDA_ERROR_INVALID_DEVICE`
when `p` is not null, has offset 0 and a device id other than that of the
context, and in both cases leaves the context, the stored override included, as
it was; in every other case (`p` null, or offset 0 on the device of the
context) it returns without error and the stored override is `p`, nothing else
being changed. -/
theorem setMemOverride_spec (L : Layout) (c : Context) (p : Nat) :
    (p ≠ 0 → VEDA_GET_OFFSET L p ≠ 0 →
      (c.setMemOverride L p).res = .fail (.thrown .VEDA_ERROR_OFFSET_NOT_ALLOWED) ∧
      (c.setMemOverride L p).ctx = c) ∧
    (p ≠ 0 → VEDA_GET_OFFSET L p = 0 → VEDA_GET_DEVICE L p ≠ c.m_device.vedaId →
      (c.setMemOverride L p).res = .fail (.thrown .VEDA_ERROR_INVALID_DEVICE) ∧
      (c.setMemOverride L p).ctx = c) ∧
    ((p = 0 ∨ (VEDA_GET_OFFSET L p = 0 ∧ VEDA_GET_DEVICE L p = c.m_device.vedaId)) →
      (c.setMemOverride L p).res = .ok () ∧
      (c.setMemOverride L p).ctx = { c with m_memOverride := p } ∧
      (c.setMemOverride L p).ctx.m_memOverride = p) := by
  refine ⟨?_, ?_, ?_⟩
  · intro hp ho
    simp [Context.setMemOverride, hp, ho]
  · intro hp ho hd
    simp [Context.setMemOverride, hp, ho, hd]
  · intro h
    rcases h with h | ⟨ho, hd⟩
    · simp [Context.setMemOverride, h]
    · by_cases hp : p = 0
      · simp [Context.setMemOverride, hp]
      · simp [Context.setMemOverride, hp, ho, hd]

/-- C22, instance: on `Example.ctxTwo` (device 1, no override stored) pointer 83
(offset 3) and pointer 160 (device 2) are refused, pointer 80 is stored, and
pointer 0 clears the stored override again. -/
theorem setMemOverride_spec_witness :
    (VEDA_GET_OFFSET Example.layout 83 ≠ 0 ∧ VEDA_GET_OFFSET Example.layout 160 = 0 ∧
      VEDA_GET_DEVICE Example.layout 160 ≠ Example.ctxTwo.m_device.vedaId ∧
      VEDA_GET_OFFSET Example.layout 80 = 0 ∧
      VEDA_GET_DEVICE Example.layout 80 = Example.ctxTwo.m_device.vedaId) ∧
    ((Example.ctxTwo.setMemOverride Example.layout 83).res
        = .fail (.thrown .VEDA_ERROR_OFFSET_NOT_ALLOWED) ∧
      (Example.ctxTwo.setMemOverride Example.layout 83).ctx = Example.ctxTwo) ∧
    ((Example.ctxTwo.setMemOverride Example.layout 160).res
        = .fail (.thrown .VEDA_ERROR_INVALID_DEVICE) ∧
      (Example.ctxTwo.setMemOverride Example.layout 160).ctx = Example.ctxTwo) ∧
    ((Example.ctxTwo.setMemOverride Example.layout 80).res = .ok () ∧
      (Example.ctxTwo.setMemOverride Example.layout 80).ctx.m_memOverride = 80) ∧
    (((Example.ctxTwo.setMemOverride Example.layout 80).ctx.setMemOverride Example.layout 0).res
        = .ok () ∧
      ((Example.ctxTwo.setMemOverride Example.layout 80).ctx.setMemOverride
        Example.layout 0).ctx.m_memOverride = 0) :=
  have h83 := (setMemOverride_spec Example.layout Example.ctxTwo 83).1 (by decide) (by decide)
  have h160 := (setMemOverride_spec Example.layout Example.ctxTwo 160).2.1
    (by decide) (by decide) (by decide)
  have h80 := (setMemOverride_spec Example.layout Example.ctxTwo 80).2.2
    (Or.inr ⟨by decide, by decide⟩)
  have h0 := (setMemOverride_spec Example.layout
    (Example.ctxTwo.setMemOverride Example.layout 80).ctx 0).2.2 (Or.inl rfl)
  ⟨by decide, h83, h160, ⟨h80.1, h80.2.2⟩, ⟨h0.1, h0.2.2⟩⟩

/-! ## C23: memory in use -/

theorem foldl_size_t (m : Ptrs) :
    ∀ a : Nat, a + (m.map (fun e => e.2.info.size)).sum < 2 ^ 64 →
      m.foldl (fun used e => size_t (used + e.2.info.size)) a
        = a + (m.map (fun e => e.2.info.size)).sum := by
  induction m with
  | nil => intro a _; simp
  | cons e m ih =>
    intro a h
    simp only [List.map_cons, List.sum_cons] at h
    have h1 : size_t (a + e.2.info.size) = a + e.2.info.size :=
      Nat.mod_eq_of_lt (by omega)
    simp only [List.foldl_cons, List.map_cons, List.sum_cons, h1]
    rw [ih _ (by omega)]
    omega

/-- As long as the sizes of the records add up to less than `2^64` and to no
more than the memory of the device: `memUsed` is their sum, taken after the
resolution pass, and `vedaMemGetInfo` reports `free = total - memUsed`. -/
theorem vedaMemGetInfo_in_range (L : Layout) (T : Transport) (c : Context)
    (hsync : (c.syncPtrs L T).res = .ok ())
    (hsum : ((c.syncPtrs L T).ctx.m_ptrs.map (fun e => e.2.info.size)).sum
      ≤ c.m_device.memorySize)
    (htotal : c.m_device.memorySize < 2 ^ 64) :
    (c.memUsed L T).res
      = .ok ((c.syncPtrs L T).ctx.m_ptrs.map (fun e => e.2.info.size)).sum ∧
    (vedaMemGetInfo L T c).res
      = .ok (c.m_device.memorySize
          - ((c.syncPtrs L T).ctx.m_ptrs.map (fun e => e.2.info.size)).sum,
        c.m_device.memorySize) := by
  have hf := foldl_size_t (c.syncPtrs L T).ctx.m_ptrs 0 (by omega)
  have hused : (c.memUsed L T).res
      = .ok ((c.syncPtrs L T).ctx.m_ptrs.map (fun e => e.2.info.size)).sum := by
    simp only [Context.memUsed, hsync, hf, Nat.zero_add]
  refine ⟨hused, ?_⟩
  simp only [vedaMemGetInfo, hused]
  have : size_t (c.m_device.memorySize + (2 ^ 64
      - ((c.syncPtrs L T).ctx.m_ptrs.map (fun e => e.2.info.size)).sum))
      = c.m_device.memorySize
        - ((c.syncPtrs L T).ctx.m_ptrs.map (fun e => e.2.info.size)).sum := by
    unfold size_t
    have e1 : c.m_device.memorySize + (2 ^ 64
        - ((c.syncPtrs L T).ctx.m_ptrs.map (fun e => e.2.info.size)).sum)
        = (c.m_device.memorySize
          - ((c.syncPtrs L T).ctx.m_ptrs.map (fun e => e.2.info.size)).sum) + 2 ^ 64 := by
      omega
    rw [e1, Nat.add_mod_right]
    exact Nat.mod_eq_of_lt (by omega)
  rw [this]

/-- C23 (the code departs from the claim). `memAlloc` records the size it was
asked for, whatever the memory of the device, and `vedaMemGetInfo` computes
`*total - memUsed()` in `size_t`. In `Example.ctxBig` the device has 4096 bytes
and the table holds one record of 8192 bytes, whose allocation reports no
address (`Example.transportNoMem`): `memUsed` is 8192, the sum of the sizes
after the resolution pass, and `vedaMemGetInfo` reports `total = 4096` and
`free = 2^64 - 4096`, which is more than `total`. -/
theorem vedaMemGetInfo_free_exceeds_total :
    Example.ctxBig.isActive = true ∧
    Example.ctx.m_device.memorySize = 4096 ∧
    (Example.ctx.memAlloc Example.layout Example.transport 8192 0).res = .ok 80 ∧
    (Example.ctx.memAlloc Example.layout Example.transport 8192 0).ctx = Example.ctxBig ∧
    (Example.ctxBig.syncPtrs Example.layout Example.transportNoMem).ctx.m_ptrs
      = [(1, ⟨1, ⟨0, 8192⟩⟩)] ∧
    (Example.ctxBig.memUsed Example.layout Example.transportNoMem).res = .ok 8192 ∧
    (vedaMemGetInfo Example.layout Example.transportNoMem Example.ctxBig).res
      = .ok (2 ^ 64 - 4096, 4096) ∧
    (4096 : Nat) < 2 ^ 64 - 4096 := by
  decide

/-! ## C24: pitched allocation -/

/-- As long as `w_bytes * h` is less than `2^64`, `memAllocPitch` is
`memAlloc(w_bytes * h)` with the pitch `w_bytes`, for every element size. -/
theorem Context.memAllocPitch_in_range (L : Layout) (T : Transport) (c : Context)
    (w h elementSize : Nat) (stream : Int) (hfit : w * h < 2 ^ 64) :
    (c.memAllocPitch L T w h elementSize stream).ctx = (c.memAlloc L T (w * h) stream).ctx ∧
    ∀ p, (c.memAlloc L T (w * h) stream).res = .ok p →
      (c.memAllocPitch L T w h elementSize stream).res = .ok (p, w) := by
  have hmod : size_t (w * h) = w * h := Nat.mod_eq_of_lt hfit
  refine ⟨?_, ?_⟩
  · simp only [Context.memAllocPitch, hmod]
    cases (c.memAlloc L T (w * h) stream).res <;> rfl
  · intro p hp
    simp only [Context.memAllocPitch, hmod, hp]

/-- C24 (the code departs from the claim). `memAllocPitch` multiplies
`w_bytes * h` in `size_t`, so the product wraps at `2^64`. On `Example.ctx`,
`memAllocPitch(2^32, 2^32, 4, 0)` returns without error the pitch `2^32` and
pointer 80, whose new record (index 1) has size 0, not the `2^64` bytes of
the request; nothing is enqueued for it. -/
theorem memAllocPitch_wraps :
    Example.ctx.isActive = true ∧ Example.ctx.m_ptrs = [] ∧
    (Example.ctx.memAllocPitch Example.layout Example.transport (2 ^ 32) (2 ^ 32) 4 0).res
      = .ok (80, 2 ^ 32) ∧
    VEDA_GET_IDX Example.layout 80 = 1 ∧
    (Example.ctx.memAllocPitch Example.layout Example.transport (2 ^ 32) (2 ^ 32) 4 0).ctx.m_ptrs
      = [(1, ⟨1, ⟨0, 0⟩⟩)] ∧
    (0 : Nat) < 2 ^ 32 * 2 ^ 32 ∧
    (Example.ctx.memAllocPitch Example.layout Example.transport (2 ^ 32) (2 ^ 32) 4 0).ctx.veo
      = Example.ctx.veo := by
  decide

/-! ## C25: waits across synchronisations -/

/-- C25 (the code departs from the claim). `Stream::sync` throws from inside
its loop and so skips `m_calls.clear()`: the entries it has waited on stay in
the pending list. In `Example.ctxMixed` stream 0 holds requests 0, 1, 4, 5, 6;
with `Example.transportRejected` the first `sync` waits on 0, 1 and 4 and
throws the status 7 of request 4. A second `sync` of the same stream passes
0, 1 and 4 to the wait of the transport once more (and throws again): each of
the three request ids has been waited on twice. -/
theorem sync_waits_again :
    (Stream.sync Example.transportRejected Example.ctxMixed 0).res
      = .fail (.thrown (.code 7)) ∧
    (Stream.sync Example.transportRejected Example.ctxMixed 0).ctx.veo.waited = [0, 1, 4] ∧
    (Stream.sync Example.transportRejected
      (Stream.sync Example.transportRejected Example.ctxMixed 0).ctx 0).res
      = .fail (.thrown (.code 7)) ∧
    (Stream.sync Example.transportRejected
      (Stream.sync Example.transportRejected Example.ctxMixed 0).ctx 0).ctx.veo.waited
      = [0, 1, 4, 0, 1, 4] ∧
    (Stream.sync Example.transport
      (Stream.sync Example.transportRejected Example.ctxMixed 0).ctx 0).ctx.veo.waited
      = [0, 1, 4, 0, 1, 4, 5, 6] := by
  decide

/-! ## C26: resolution of a pointer -/

theorem Example.ctxLazy_calls :
    allCalls Example.ctxLazy.m_streams = [⟨0, false, none⟩, ⟨1, false, some (.ptr 2)⟩] := by
  decide

/-- C27. If every record has its address, `syncPtrs` returns without error and
leaves the context as it was: nothing is enqueued, no stream is waited on.
If some record has no address, then on a context with a stream 0 and a loaded
helper table, with a transport that reports every wait as complete, the
pending checked calls successful and the pending result destinations live:
`syncPtrs` returns without error; every stream of the context has an empty
pending list afterwards; and the requests issued are exactly those of
`queriesFor`: for each record whose address and size are 0, one call of
`veda_mem_ptr` and one of `veda_mem_size` on the thread context of stream 0,
nothing for a record without address whose size is not 0. -/
theorem syncPtrs_spec (L : Layout) (T : Transport) (c : Context) :
    ((∀ b ∈ c.m_ptrs, b.2.info.ptr ≠ 0) → c.syncPtrs L T = ⟨.ok (), c⟩) ∧
    ((∃ b ∈ c.m_ptrs, b.2.info.ptr = 0) → 0 < c.m_streams.length →
      c.m_kernels.length = VEDA_KERNEL_CNT →
      (∀ id, T.waitStatus id = .VEO_COMMAND_OK) →
      (∀ e ∈ allCalls c.m_streams, e.checkResult = true → T.waitResult e.id = 0) →
      destsLive c.m_ptrs (allCalls c.m_streams) →
      ∃ st0 fptr fsize, c.m_streams[0]? = some st0 ∧
        c.kernel .VEDA_KERNEL_MEM_PTR = .ok fptr ∧
        c.kernel .VEDA_KERNEL_MEM_SIZE = .ok fsize ∧
        (c.syncPtrs L T).res = .ok () ∧
        (c.syncPtrs L T).ctx.m_streams.length = c.m_streams.length ∧
        (∀ (t : Nat) (st : Stream), (c.syncPtrs L T).ctx.m_streams[t]? = some st →
          st.m_calls = []) ∧
        (c.syncPtrs L T).ctx.m_streams = clearFrom 0 c.m_streams ∧
        (c.syncPtrs L T).ctx.veo.issued
          = c.veo.issued ++ queriesFor L c.m_device.vedaId st0.m_ctx fptr fsize c.m_ptrs) := by
  refine ⟨Context.syncPtrs_resolved L T c, ?_⟩
  intro hex hs hk hwait hchk hl
  have hst : c.m_streams[0]? = some c.m_streams[0] := List.getElem?_eq_getElem hs
  obtain ⟨fptr, hfp⟩ := Context.kernel_ok c .VEDA_KERNEL_MEM_PTR hk
  obtain ⟨fsize, hfs⟩ := Context.kernel_ok c .VEDA_KERNEL_MEM_SIZE hk
  obtain ⟨i1, i2, i3, _⟩ := Context.syncPtrsLoop_issued L c.m_ptrs c false
    c.m_streams[0].m_ctx fptr fsize (by rw [hst]; rfl) hfp hfs
  obtain ⟨hT, hl'⟩ := Context.syncPtrsLoop_ready L T c hs hk hwait hchk hl
  obtain ⟨s1, s2⟩ := Context.sync_ok T _ hT hl'
  have hany : c.m_ptrs.any (fun b => b.2.info.ptr == 0) = true := by
    obtain ⟨b, hb, hb0⟩ := hex
    exact List.any_eq_true.2 ⟨b, hb, by simp [hb0]⟩
  have heq : c.syncPtrs L T = (Context.syncPtrsLoop L c.m_ptrs c false).ctx.sync T := by
    simp [Context.syncPtrs, i1, hany]
  have hstreams : (c.syncPtrs L T).ctx.m_streams = clearFrom 0 c.m_streams := by
    rw [heq, s2]
    exact i3
  refine ⟨_, fptr, fsize, hst, hfp, hfs, ?_, ?_, ?_, hstreams, ?_⟩
  · rw [heq]; exact s1
  · rw [hstreams, clearFrom_length]
  · intro t st ht
    rw [hstreams, clearFrom_zero_getElem?] at ht
    cases hc : c.m_streams[t]? with
    | none => rw [hc] at ht; cases ht
    | some st' =>
      rw [hc] at ht
      simp only [Option.map_some', Option.some.injEq] at ht
      rw [← ht]
  · rw [heq, s2]
    exact i2

/-- C27, instance. In `Example.ctxResolved` the one record has its address:
`syncPtrs` changes nothing. In `Example.ctxLazy` the record of index 1 has
address and size 0 and the record of index 2 has no address and size 8:
`syncPtrs` issues the two queries for index 1 (pointer 80) on the thread
context 9 of stream 0, nothing for index 2, and leaves both streams with an
empty pending list. -/
theorem syncPtrs_spec_witness :
    ((∀ b ∈ Example.ctxResolved.m_ptrs, b.2.info.ptr ≠ 0) ∧
      (∃ b ∈ Example.ctxLazy.m_ptrs, b.2.info.ptr = 0) ∧
      Example.ctxLazy.m_ptrs = [(1, ⟨1, ⟨0, 0⟩⟩), (2, ⟨2, ⟨0, 8⟩⟩)] ∧
      Example.ctxLazy.veo.issued.length = 2) ∧
    Example.ctxResolved.syncPtrs Example.layout Example.transport
      = ⟨.ok (), Example.ctxResolved⟩ ∧
    (Example.ctxLazy.syncPtrs Example.layout Example.transport).res = .ok () ∧
    (Example.ctxLazy.syncPtrs Example.layout Example.transport).ctx.m_streams
      = [⟨9, []⟩, ⟨10, []⟩] ∧
    (Example.ctxLazy.syncPtrs Example.layout Example.transport).ctx.veo.issued
      = Example.ctxLazy.veo.issued ++
        [(9, .veo_call_async 5 [80]), (9, .veo_call_async 5 [80])] :=
  have h1 := (syncPtrs_spec Example.layout Example.transport Example.ctxResolved).1 (by decide)
  have h2 := (syncPtrs_spec Example.layout Example.transport Example.ctxLazy).2
    (by decide) (by decide) (by decide) (fun _ => rfl)
    (by rw [Example.ctxLazy_calls]
        intro e he hc
        simp only [List.mem_cons, List.mem_singleton, List.not_mem_nil, or_false] at he
        rcases he with h | h <;> subst h <;> cases hc)
    (by rw [Example.ctxLazy_calls]
        intro e he d hd
        simp only [List.mem_cons, List.mem_singleton, List.not_mem_nil, or_false] at he
        rcases he with h | h <;> subst h
        · cases hd
        · cases hd
          exact (by decide : Ptrs.live Example.ctxLazy.m_ptrs 2 = true))
  ⟨by decide, h1, by
    obtain ⟨st0, fptr, fsize, _, _, _, hres, _, _, _, _⟩ := h2
    exact hres, by decide, by decide⟩

/-! ## C28: when `Stream::sync` fails -/

/-- A list with an entry that fails its check splits at the first such
entry. -/
theorem first_failing_split (T : Transport) (calls : List PendingCall)
    (h : ∃ e ∈ calls, e.checkResult = true ∧
      VEDAresult.ofRaw T.statusValue (T.waitResult e.id) ≠ .VEDA_SUCCESS) :
    ∃ pre e post, calls = pre ++ e :: post ∧
      (∀ x ∈ pre, x.checkResult = true →
        VEDAresult.ofRaw T.statusValue (T.waitResult x.id) = .VEDA_SUCCESS) ∧
      e.checkResult = true ∧
      VEDAresult.ofRaw T.statusValue (T.waitResult e.id) ≠ .VEDA_SUCCESS := by
  induction calls with
  | nil =>
    obtain ⟨e, he, _⟩ := h
    cases he
  | cons a rest ih =>
    by_cases ha : a.checkResult = true ∧
        VEDAresult.ofRaw T.statusValue (T.waitResult a.id) ≠ .VEDA_SUCCESS
    · exact ⟨[], a, rest, rfl, fun x hx => absurd hx (List.not_mem_nil x), ha.1, ha.2⟩
    · have hrest : ∃ e ∈ rest, e.checkResult = true ∧
          VEDAresult.ofRaw T.statusValue (T.waitResult e.id) ≠ .VEDA_SUCCESS := by
        obtain ⟨e, he, hc, hr⟩ := h
        rcases List.mem_cons.1 he with rfl | he
        · exact absurd ⟨hc, hr⟩ ha
        · exact ⟨e, he, hc, hr⟩
      obtain ⟨pre, e, post, hsplit, hpre, hc, hr⟩ := ih hrest
      refine ⟨a :: pre, e, post, by rw [hsplit]; rfl, ?_, hc, hr⟩
      intro x hx hxc
      rcases List.mem_cons.1 hx with rfl | hx
      · by_contra hne
        exact ha ⟨hxc, hne⟩
      · exact hpre x hx hxc

/-- C28, counterexample. In `Example.ctxMixed` stream 0 holds requests
0, 1, 4, 5, 6; with `Example.transportLost` no entry with `checkResult` set
completes with a status other than `VEDA_SUCCESS`, yet `Stream::sync` fails:
the wait for request 5 is reported as failed by the transport and
`Stream::wait` throws `VEDA_ERROR_VEO_COMMAND_ERROR`. The destination of
request 1 has been written, that of request 6 has not. -/
theorem sync_fails_iff_counterexample :
    (∀ e ∈ [(⟨0, false, none⟩ : PendingCall), ⟨1, false, some (.ptr 1)⟩, ⟨4, true, none⟩,
        ⟨5, false, none⟩, ⟨6, false, some (.ptr 3)⟩],
      e.checkResult = true →
        VEDAresult.ofRaw Example.transportLost.statusValue
          (Example.transportLost.waitResult e.id) = .VEDA_SUCCESS) ∧
    Example.ctxMixed.m_streams[0]?
      = some ⟨9, [⟨0, false, none⟩, ⟨1, false, some (.ptr 1)⟩, ⟨4, true, none⟩, ⟨5, false, none⟩,
          ⟨6, false, some (.ptr 3)⟩]⟩ ∧
    destsLive Example.ctxMixed.m_ptrs [⟨0, false, none⟩, ⟨1, false, some (.ptr 1)⟩,
      ⟨4, true, none⟩, ⟨5, false, none⟩, ⟨6, false, some (.ptr 3)⟩] ∧
    (Stream.sync Example.transportLost Example.ctxMixed 0).res
      = .fail (.thrown .VEDA_ERROR_VEO_COMMAND_ERROR) ∧
    (Stream.sync Example.transportLost Example.ctxMixed 0).ctx.veo.stored
      = Example.ctxMixed.veo.stored ++ [(.ptr 1, 4097)] := by
  refine ⟨by decide, by decide, ?_, by decide, by decide⟩
  intro x hx d hd
  simp only [List.mem_cons, List.mem_singleton, List.not_mem_nil, or_false] at hx
  rcases hx with rfl | rfl | rfl | rfl | rfl
  · cases hd
  · cases hd; exact (by decide : Ptrs.live Example.ctxMixed.m_ptrs 1 = true)
  · cases hd
  · cases hd
  · cases hd; exact (by decide : Ptrs.live Example.ctxMixed.m_ptrs 3 = true)

/-- C28, amended. For a stream on which every wait for a pending entry is
reported `VEO_COMMAND_OK` by the transport and whose result destinations
designate live objects: `Stream::sync` fails if and only if some pending entry
with `checkResult` set completes with a status other than `VEDA_SUCCESS`, the
status being the raw result cast to the 4-byte `VEDAresult`; there is then a
first such entry in issue order, the error reported is the status of that
entry, the results of the entries up to and including it have been stored in
their destinations, in that order, and nothing of the later entries has been
waited on or stored. -/
theorem sync_fails_iff (T : Transport) (c : Context) (s : Nat) (st : Stream)
    (hst : c.m_streams[s]? = some st)
    (hwait : ∀ e ∈ st.m_calls, T.waitStatus e.id = .VEO_COMMAND_OK)
    (hl : destsLive c.m_ptrs st.m_calls) :
    ((∃ f, (Stream.sync T c s).res = .fail f) ↔
      ∃ e ∈ st.m_calls, e.checkResult = true ∧
        VEDAresult.ofRaw T.statusValue (T.waitResult e.id) ≠ .VEDA_SUCCESS) ∧
    ((∃ e ∈ st.m_calls, e.checkResult = true ∧
        VEDAresult.ofRaw T.statusValue (T.waitResult e.id) ≠ .VEDA_SUCCESS) →
      ∃ pre e post, st.m_calls = pre ++ e :: post ∧
        (∀ x ∈ pre, x.checkResult = true →
          VEDAresult.ofRaw T.statusValue (T.waitResult x.id) = .VEDA_SUCCESS) ∧
        e.checkResult = true ∧
        VEDAresult.ofRaw T.statusValue (T.waitResult e.id) ≠ .VEDA_SUCCESS) ∧
    (∀ (pre : List PendingCall) (e : PendingCall) (post : List PendingCall),
      st.m_calls = pre ++ e :: post →
      (∀ x ∈ pre, x.checkResult = true →
        VEDAresult.ofRaw T.statusValue (T.waitResult x.id) = .VEDA_SUCCESS) →
      e.checkResult = true →
      VEDAresult.ofRaw T.statusValue (T.waitResult e.id) ≠ .VEDA_SUCCESS →
      (Stream.sync T c s).res
        = .fail (.thrown (VEDAresult.ofRaw T.statusValue (T.waitResult e.id))) ∧
      (Stream.sync T c s).ctx.veo.stored = c.veo.stored ++ storesOf T (pre ++ [e]) ∧
      (Stream.sync T c s).ctx.m_ptrs
        = c.m_ptrs.map (fun b => (b.1, InfoRef.resolve T (pre ++ [e]) b.2)) ∧
      (Stream.sync T c s).ctx.veo.waited
        = c.veo.waited ++ (pre ++ [e]).map PendingCall.id) := by
  have hsplit : ∀ (pre : List PendingCall) (e : PendingCall) (post : List PendingCall),
      st.m_calls = pre ++ e :: post →
      (∀ x ∈ pre, x.checkResult = true →
        VEDAresult.ofRaw T.statusValue (T.waitResult x.id) = .VEDA_SUCCESS) →
      e.checkResult = true →
      VEDAresult.ofRaw T.statusValue (T.waitResult e.id) ≠ .VEDA_SUCCESS →
      (Stream.sync T c s).res
        = .fail (.thrown (VEDAresult.ofRaw T.statusValue (T.waitResult e.id))) ∧
      (Stream.sync T c s).ctx.veo.stored = c.veo.stored ++ storesOf T (pre ++ [e]) ∧
      (Stream.sync T c s).ctx.m_ptrs
        = c.m_ptrs.map (fun b => (b.1, InfoRef.resolve T (pre ++ [e]) b.2)) ∧
      (Stream.sync T c s).ctx.veo.waited
        = c.veo.waited ++ (pre ++ [e]).map PendingCall.id := by
    intro pre e post hcalls hpre hc hr
    have hT : T.succeeds pre := fun x hx =>
      ⟨hwait x (by rw [hcalls]; exact List.mem_append_left _ hx), hpre x hx⟩
    have hw : T.waitStatus e.id = .VEO_COMMAND_OK :=
      hwait e (by rw [hcalls]; exact List.mem_append_right _ (List.mem_cons_self _ _))
    have hl1 : destsLive c.m_ptrs (pre ++ [e]) := by
      intro x hx
      apply hl x
      rw [hcalls]
      rcases List.mem_append.1 hx with h | h
      · exact List.mem_append_left _ h
      · rw [List.mem_singleton.1 h]
        exact List.mem_append_right _ (List.mem_cons_self _ _)
    obtain ⟨h1, h2⟩ := syncCalls_stops T pre post e c hT hw hc hr hl1
    simp only [Stream.sync, hst, hcalls, h1, h2]
    exact ⟨trivial, trivial, trivial, trivial⟩
  refine ⟨⟨?_, ?_⟩, first_failing_split T st.m_calls, hsplit⟩
  · rintro ⟨f, hf⟩
    by_contra hnone
    have hT : T.succeeds st.m_calls := by
      intro x hx
      refine ⟨hwait x hx, fun hxc => ?_⟩
      by_contra h0
      exact hnone ⟨x, hx, hxc, h0⟩
    rw [(Stream.sync_stream_succeeds T c s st hst hT hl).1] at hf
    cases hf
  · intro hex
    obtain ⟨pre, e, post, hcalls, hpre, hc, hr⟩ := first_failing_split T st.m_calls hex
    exact ⟨_, (hsplit pre e post hcalls hpre hc hr).1⟩

/-- C28, instance: stream 0 of `Example.ctxMixed` with
`Example.transportRejected`, on which every wait succeeds and request 4, the
one entry with `checkResult` set, completes with the status 7. `Stream::sync`
fails with that status; the result of request 1 has been stored, that of
request 6 has not. -/
theorem sync_fails_iff_witness :
    (Example.ctxMixed.m_streams[0]? = some ⟨9, [⟨0, false, none⟩, ⟨1, false, some (.ptr 1)⟩,
        ⟨4, true, none⟩, ⟨5, false, none⟩, ⟨6, false, some (.ptr 3)⟩]⟩ ∧
      VEDAresult.ofRaw Example.transportRejected.statusValue
        (Example.transportRejected.waitResult 4) = .code 7) ∧
    (∃ f, (Stream.sync Example.transportRejected Example.ctxMixed 0).res = .fail f) ∧
    (Stream.sync Example.transportRejected Example.ctxMixed 0).res
      = .fail (.thrown (VEDAresult.ofRaw Example.transportRejected.statusValue
          (Example.transportRejected.waitResult 4))) ∧
    (Stream.sync Example.transportRejected Example.ctxMixed 0).ctx.veo.stored
      = Example.ctxMixed.veo.stored
        ++ storesOf Example.transportRejected
            ([⟨0, false, none⟩, ⟨1, false, some (.ptr 1)⟩] ++ [⟨4, true, none⟩]) :=
  have h := sync_fails_iff Example.transportRejected Example.ctxMixed 0
    ⟨9, [⟨0, false, none⟩, ⟨1, false, some (.ptr 1)⟩, ⟨4, true, none⟩, ⟨5, false, none⟩,
      ⟨6, false, some (.ptr 3)⟩]⟩
    (by decide)
    (by intro x hx
        simp only [List.mem_cons, List.mem_singleton, List.not_mem_nil, or_false] at hx
        rcases hx with rfl | rfl | rfl | rfl | rfl <;> rfl)
    (by intro x hx d hd
        simp only [List.mem_cons, List.mem_singleton, List.not_mem_nil, or_false] at hx
        rcases hx with rfl | rfl | rfl | rfl | rfl
        · cases hd
        · cases hd; exact (by decide : Ptrs.live Example.ctxMixed.m_ptrs 1 = true)
        · cases hd
        · cases hd
        · cases hd; exact (by decide : Ptrs.live Example.ctxMixed.m_ptrs 3 = true))
  have h3 := h.2.2 [⟨0, false, none⟩, ⟨1, false, some (.ptr 1)⟩] ⟨4, true, none⟩
    [⟨5, false, none⟩, ⟨6, false, some (.ptr 3)⟩] rfl (by decide) rfl (by decide)
  ⟨by decide, h.1.2 ⟨⟨4, true, none⟩, by decide, rfl, by decide⟩, h3.1, h3.2.1⟩

/-! ## C29: stream lookup -/

/-- The three outcomes of `Context::stream(i)` for a context with `n` streams:
the stream at position `i` when `0 <= i < n`, an access past the end of the
vector when `i = n`, `VEDA_ERROR_UNKNOWN_STREAM` otherwise. -/
theorem Context.stream_cases (c : Context) (i : Int) :
    (0 ≤ i ∧ i < (c.m_streams.length : Int) → c.stream i = .ok i.toNat) ∧
    (i = (c.m_streams.length : Int) → c.stream i = .fail .undefined) ∧
    (i < 0 ∨ (c.m_streams.length : Int) < i →
      c.stream i = .fail (.thrown .VEDA_ERROR_UNKNOWN_STREAM)) := by
  refine ⟨fun h => Context.stream_ok c i h, ?_, ?_⟩
  · intro h
    have h1 : 0 ≤ i ∧ i ≤ (c.m_streams.length : Int) := by omega
    have h2 : ¬ i.toNat < c.m_streams.length := by omega
    simp only [Context.stream, h1, and_self, if_true, h2, if_false]
  · intro h
    have h1 : ¬ (0 ≤ i ∧ i ≤ (c.m_streams.length : Int)) := by omega
    simp only [Context.stream, h1, if_false]

/-- C29 (the code departs from the claim). The guard of `Context::stream` is
`stream >= 0 && stream <= m_streams.size()`: it lets `i = n` through. On
`Example.ctx`, which has 2 streams, `stream(2)` does not throw
`VEDA_ERROR_UNKNOWN_STREAM`: it reads `m_streams[2]`, past the end of the
vector; `stream(3)` and `stream(-1)` are refused as the claim says. -/
theorem stream_accepts_count :
    Example.ctx.streamCount = 2 ∧
    Example.ctx.stream 0 = .ok 0 ∧ Example.ctx.stream 1 = .ok 1 ∧
    Example.ctx.stream 2 = .fail .undefined ∧
    Example.ctx.stream 2 ≠ .fail (.thrown .VEDA_ERROR_UNKNOWN_STREAM) ∧
    Example.ctx.stream 3 = .fail (.thrown .VEDA_ERROR_UNKNOWN_STREAM) ∧
    Example.ctx.stream (-1) = .fail (.thrown .VEDA_ERROR_UNKNOWN_STREAM) := by
  decide

/-! ## C30: a failed allocation -/

/-- C30 (the code departs from the claim). `memAlloc` inserts the record and
advances the cursor before it looks up the stream. On `Example.ctx` (2 streams,
empty table, cursor 1, no override), `memAlloc(8, stream 5)` throws
`VEDA_ERROR_UNKNOWN_STREAM`, and afterwards the table holds the record
`{0, 8}` under index 1 and the cursor is 2; no request was issued for the
record and no pointer to it was returned. -/
theorem memAlloc_failure_leaves_record :
    Example.ctx.isActive = true ∧ Example.ctx.streamCount = 2 ∧
    Example.ctx.m_memOverride = 0 ∧ Example.ctx.m_ptrs = [] ∧ Example.ctx.m_memidx = 1 ∧
    (Example.ctx.memAlloc Example.layout Example.transport 8 5).res
      = .fail (.thrown .VEDA_ERROR_UNKNOWN_STREAM) ∧
    (Example.ctx.memAlloc Example.layout Example.transport 8 5).ctx.m_ptrs
      = [(1, ⟨1, ⟨0, 8⟩⟩)] ∧
    (Example.ctx.memAlloc Example.layout Example.transport 8 5).ctx.m_memidx = 2 ∧
    (Example.ctx.memAlloc Example.layout Example.transport 8 5).ctx.veo = Example.ctx.veo := by
  decide

end Veda
